import Mathlib

/-!
# MAX78M6610+LMU SPI protocol driver: frame codec, normaliser, scan-set builder, engine

A shallow embedding of `drivers/staging/iio/adc/max78m6610_lmu.c`.

* C `unsigned`/`u8`/`u32` values are natural numbers, C `int`/`s64` values are integers;
  every narrowing conversion is written out (`% 256`, `to_s32`, `to_s64`, `to_u64`).
* Pointers into `st->tx_buf` / `st->rx_buf` are byte offsets, a pointer to a
  `spi_transfer` is an `xfer_ref`.
* An access outside a buffer makes the embedded function return `none`; so does a
  `mutex_lock` on a lock that is held (the caller does not return).
* The external collaborators (transport, sink, trigger, timestamp source) are parameters:
  the transport is a function `spi_bus`, the timestamp is the value `time_now`, and what the
  transport, the sink and the trigger have seen is recorded in `collaborators`.
-/

set_option maxRecDepth 100000

namespace Max78m6610

/-! ## Register addresses and protocol constants (lines 43-79) -/

def INSTAN_VA : Nat := 0x33
def INSTAN_IA : Nat := 0x44
def INSTAN_PA : Nat := 0x5C
def INSTAN_PQA : Nat := 0x5E
def VA_RMS : Nat := 0x2B
def IA_RMS : Nat := 0x3E
def WATT_A : Nat := 0x4B
def VAR_A : Nat := 0x51
def VA_A : Nat := 0x4E
def PFA : Nat := 0x65

def INSTAN_VB : Nat := 0x34
def INSTAN_IB : Nat := 0x45
def INSTAN_PB : Nat := 0x5D
def INSTAN_PQB : Nat := 0x5F
def VB_RMS : Nat := 0x2C
def IB_RMS : Nat := 0x3F
def WATT_B : Nat := 0x4C
def VAR_B : Nat := 0x52
def VA_B : Nat := 0x4F
def PFB : Nat := 0x66

/-- Addr bit 6-7: `(((x) & 0xC0) >> 6)`. -/
def SPI_CB_ADDR_MASK_7_6 (x : Nat) : Nat := (x &&& 0xC0) >>> 6

/-- Addr bit 0-5: `((x) & 0x3F)`. -/
def SPI_TB_ADDR_MASK_5_0 (x : Nat) : Nat := x &&& 0x3F

def SPI_CB_NBR_ACC : Nat := 0x00
def SPI_CB_CMD : Nat := 0x01
def SPI_OP_READ : Nat := 0x00
def SPI_OP_WRITE : Nat := 0x02
def SIGN_CONVERT : Nat := 0xFFFFFFFFFFFFFFFF
def DATA_BIT_MASK : Nat := 0x00FFFFFF
def SIGN_BIT_NUM : Nat := 23
def SPI_MSG_LEN : Nat := 5
def RX_OFFSET : Nat := 1

/-- SPI message Control byte:
`((SPI_CB_NBR_ACC << 4) | (SPI_CB_ADDR_MASK_7_6(x) << 2) | SPI_CB_CMD)`. -/
def SPI_CB (x : Nat) : Nat :=
  ((SPI_CB_NBR_ACC <<< 4) ||| (SPI_CB_ADDR_MASK_7_6 x <<< 2)) ||| SPI_CB_CMD

/-- SPI message Transaction byte: `((SPI_TB_ADDR_MASK_5_0(x) << 2) | SPI_OP_READ)`. -/
def SPI_TB_READ (x : Nat) : Nat :=
  (SPI_TB_ADDR_MASK_5_0 x <<< 2) ||| SPI_OP_READ

/-! ## Machine integers -/

/-- Conversion to `int` / `s32`: the value modulo 2^32 read as two's complement. -/
def to_s32 (x : Int) : Int := (x + 2 ^ 31) % 2 ^ 32 - 2 ^ 31

/-- Conversion to `s64`: the value modulo 2^64 read as two's complement. -/
def to_s64 (x : Int) : Int := (x + 2 ^ 63) % 2 ^ 64 - 2 ^ 63

/-- Conversion to `u64` (`unsigned long long`): the value modulo 2^64. -/
def to_u64 (x : Int) : Nat := (x % 2 ^ 64).toNat

/-- Modelled from the spec: the kernel helper `sign_extend32(value, index)` is declared in a
kernel header that is not among the sources; the spec says that it "sign-extends from bit 23
to a signed 32-bit integer". It is realised the way the helper is written, as a shift pair on
a 32-bit word: `shift = 31 - index` (a `u8`), `(s32)(value << shift) >> shift`, the right
shift being arithmetic. -/
def sign_extend32 (value : Nat) (index : Int) : Int :=
  let shift := ((31 - index) % 256).toNat
  to_s32 (((value <<< shift) % 2 ^ 32 : Nat) : Int) >>> shift

/-- Modelled from the spec: the kernel helper `do_div(n, base)` is declared in a kernel header
that is not among the sources; the spec uses it as "integerPart = scaled / 1_000_000_000;
nanoFraction = scaled mod 1_000_000_000". It divides the 64-bit variable `n`, read as an
unsigned 64-bit number, by `base`, stores the quotient back into `n` (here an `s64`) and
returns the 32-bit remainder. The pair is (new value of `n`, returned remainder). -/
def do_div (n : Int) (base : Nat) : Int × Nat :=
  (to_s64 ((to_u64 n / base : Nat) : Int), to_u64 n % base % 2 ^ 32)

/-! ## Channel table (lines 94-426) -/

inductive iio_chan_type where
  | IIO_VOLTAGE
  | IIO_CURRENT
  | IIO_POWER
  | IIO_TIMESTAMP
  deriving DecidableEq, Repr

structure iio_scan_type where
  sign : Char
  realbits : Nat
  storagebits : Nat
  shift : Nat
  deriving DecidableEq, Repr

/-- The fields of `struct iio_chan_spec` that the driver initialises, except the two
`info_mask_*` fields, which are the same in all twenty measurement entries
(`BIT(IIO_CHAN_INFO_RAW)` and `BIT(IIO_CHAN_INFO_SCALE)`). A null `extend_name` is `none`. -/
structure iio_chan_spec where
  type : iio_chan_type
  indexed : Nat
  channel : Int
  extend_name : Option String
  address : Nat
  scan_index : Int
  scan_type : iio_scan_type
  deriving DecidableEq, Repr

/-- Modelled from the spec: the initialiser `IIO_CHAN_SOFT_TIMESTAMP(_si)` is a macro of the
IIO core header, which is not among the sources. The entry it builds is the Timestamp
pseudo-channel with id `_si`, a signed 64-bit slot; every field the macro does not name is
zero, as in any static initialiser, so its `address` is 0 and its `extend_name` is null. -/
def IIO_CHAN_SOFT_TIMESTAMP (_si : Int) : iio_chan_spec :=
  { type := .IIO_TIMESTAMP, indexed := 0, channel := -1, extend_name := none,
    address := 0, scan_index := _si,
    scan_type := { sign := 's', realbits := 64, storagebits := 64, shift := 0 } }

/-- The table `max78m6610_lmu_channels`: IIO channels for source A, then source B, then the
soft timestamp. -/
def max78m6610_lmu_channels : List iio_chan_spec := [
  { type := .IIO_VOLTAGE, indexed := 1, channel := 0, extend_name := some "inst",
    address := INSTAN_VA, scan_index := 0,
    scan_type := { sign := 's', realbits := 32, storagebits := 32, shift := 23 } },
  { type := .IIO_CURRENT, indexed := 1, channel := 0, extend_name := some "rms",
    address := IA_RMS, scan_index := 1,
    scan_type := { sign := 's', realbits := 32, storagebits := 32, shift := 23 } },
  { type := .IIO_POWER, indexed := 1, channel := 0, extend_name := some "inst_act",
    address := INSTAN_PA, scan_index := 2,
    scan_type := { sign := 's', realbits := 32, storagebits := 32, shift := 23 } },
  { type := .IIO_POWER, indexed := 1, channel := 0, extend_name := some "inst_react",
    address := INSTAN_PQA, scan_index := 3,
    scan_type := { sign := 's', realbits := 32, storagebits := 32, shift := 23 } },
  { type := .IIO_POWER, indexed := 1, channel := 0, extend_name := some "avg_act",
    address := WATT_A, scan_index := 4,
    scan_type := { sign := 's', realbits := 32, storagebits := 32, shift := 23 } },
  { type := .IIO_POWER, indexed := 1, channel := 0, extend_name := some "avg_react",
    address := VAR_A, scan_index := 5,
    scan_type := { sign := 's', realbits := 32, storagebits := 32, shift := 23 } },
  { type := .IIO_POWER, indexed := 1, channel := 0, extend_name := some "apparent",
    address := VA_A, scan_index := 6,
    scan_type := { sign := 's', realbits := 32, storagebits := 32, shift := 23 } },
  { type := .IIO_POWER, indexed := 1, channel := 0, extend_name := some "factor",
    address := PFA, scan_index := 7,
    scan_type := { sign := 's', realbits := 32, storagebits := 32, shift := 22 } },
  { type := .IIO_VOLTAGE, indexed := 1, channel := 0, extend_name := some "rms",
    address := VA_RMS, scan_index := 8,
    scan_type := { sign := 's', realbits := 32, storagebits := 32, shift := 23 } },
  { type := .IIO_VOLTAGE, indexed := 1, channel := 1, extend_name := some "inst",
    address := INSTAN_VB, scan_index := 9,
    scan_type := { sign := 's', realbits := 32, storagebits := 32, shift := 23 } },
  { type := .IIO_CURRENT, indexed := 1, channel := 1, extend_name := some "rms",
    address := IB_RMS, scan_index := 10,
    scan_type := { sign := 's', realbits := 32, storagebits := 32, shift := 23 } },
  { type := .IIO_POWER, indexed := 1, channel := 1, extend_name := some "inst_act",
    address := INSTAN_PB, scan_index := 11,
    scan_type := { sign := 's', realbits := 32, storagebits := 32, shift := 23 } },
  { type := .IIO_POWER, indexed := 1, channel := 1, extend_name := some "inst_react",
    address := INSTAN_PQB, scan_index := 12,
    scan_type := { sign := 's', realbits := 32, storagebits := 32, shift := 23 } },
  { type := .IIO_POWER, indexed := 1, channel := 1, extend_name := some "avg_act",
    address := WATT_B, scan_index := 13,
    scan_type := { sign := 's', realbits := 32, storagebits := 32, shift := 23 } },
  { type := .IIO_POWER, indexed := 1, channel := 1, extend_name := some "avg_react",
    address := VAR_B, scan_index := 14,
    scan_type := { sign := 's', realbits := 32, storagebits := 32, shift := 23 } },
  { type := .IIO_POWER, indexed := 1, channel := 1, extend_name := some "apparent",
    address := VA_B, scan_index := 15,
    scan_type := { sign := 's', realbits := 32, storagebits := 32, shift := 23 } },
  { type := .IIO_POWER, indexed := 1, channel := 1, extend_name := some "factor",
    address := PFB, scan_index := 16,
    scan_type := { sign := 's', realbits := 32, storagebits := 32, shift := 22 } },
  { type := .IIO_VOLTAGE, indexed := 1, channel := 1, extend_name := some "rms",
    address := VB_RMS, scan_index := 17,
    scan_type := { sign := 's', realbits := 32, storagebits := 32, shift := 23 } },
  { type := .IIO_CURRENT, indexed := 1, channel := 0, extend_name := some "inst",
    address := INSTAN_IA, scan_index := 18,
    scan_type := { sign := 's', realbits := 32, storagebits := 32, shift := 23 } },
  { type := .IIO_CURRENT, indexed := 1, channel := 1, extend_name := some "inst",
    address := INSTAN_IB, scan_index := 19,
    scan_type := { sign := 's', realbits := 32, storagebits := 32, shift := 23 } },
  IIO_CHAN_SOFT_TIMESTAMP 20
]

/-- Max number of iio channels: `ARRAY_SIZE(max78m6610_lmu_channels)`. -/
def MAX_CHAN_NUM : Nat := max78m6610_lmu_channels.length

/-! ## Driver state (lines 428-439) -/

/-- A pointer to a `struct spi_transfer` of the state: `&st->ring_xfer[k]` or
`&st->scan_single_xfer`. -/
inductive xfer_ref where
  | ring (k : Nat)
  | single
  deriving DecidableEq, Repr

/-- The fields of `struct spi_transfer` the driver sets. `tx_buf` and `rx_buf` point into
`st->tx_buf` and `st->rx_buf`: they are byte offsets there, `none` is the null pointer. -/
structure spi_transfer where
  tx_buf : Option Nat
  rx_buf : Option Nat
  len : Nat
  cs_change : Nat
  deriving DecidableEq, Repr

/-- The eADC state structure. A `struct spi_message` is the list of the transfers queued in it
(`spi_message_init` empties it, `spi_message_add_tail` appends); the `spi` and `iio_attr`
pointers play no part in the functions below. `ring_xfer` has `MAX_CHAN_NUM` entries, `tx_buf`
has `SPI_MSG_LEN * MAX_CHAN_NUM` bytes and `rx_buf` has `SPI_MSG_LEN * MAX_CHAN_NUM +
sizeof(s64)` bytes (see `state_sized`). -/
structure max78m6610_lmu_state where
  ring_xfer : List spi_transfer
  scan_single_xfer : spi_transfer
  ring_msg : List xfer_ref
  scan_single_msg : List xfer_ref
  tx_buf : List Nat
  rx_buf : List Nat
  deriving DecidableEq, Repr

/-- The array sizes fixed by the declaration of `struct max78m6610_lmu_state`. -/
def state_sized (st : max78m6610_lmu_state) : Prop :=
  st.ring_xfer.length = MAX_CHAN_NUM ∧
  st.tx_buf.length = SPI_MSG_LEN * MAX_CHAN_NUM ∧
  st.rx_buf.length = SPI_MSG_LEN * MAX_CHAN_NUM + 8

instance (st : max78m6610_lmu_state) : Decidable (state_sized st) := by
  unfold state_sized
  infer_instance

/-- The zero-filled state that `iio_device_alloc` hands to `probe`. -/
def zeroed_state : max78m6610_lmu_state :=
  { ring_xfer := List.replicate MAX_CHAN_NUM ⟨none, none, 0, 0⟩,
    scan_single_xfer := ⟨none, none, 0, 0⟩,
    ring_msg := [],
    scan_single_msg := [],
    tx_buf := List.replicate (SPI_MSG_LEN * MAX_CHAN_NUM) 0,
    rx_buf := List.replicate (SPI_MSG_LEN * MAX_CHAN_NUM + 8) 0 }

/-- Store of a value into a `u8` array element, `buf[i] = v`: the value is cut to 8 bits;
`none` when `i` is outside the array. -/
def write_u8 (buf : List Nat) (i : Nat) (v : Nat) : Option (List Nat) :=
  if i < buf.length then some (buf.set i (v % 256)) else none

/-- The transfer a pointer refers to. -/
def xfer_of (st : max78m6610_lmu_state) : xfer_ref → Option spi_transfer
  | .ring k => st.ring_xfer[k]?
  | .single => some st.scan_single_xfer

/-! ## Fixed-point normaliser (lines 452-489) -/

/-- The function `ret_fraction_log2(int *val, int *val2)`: the arguments are the values of
`*val` and `*val2` on entry, the result is the pair of their values on return. `tmp` is an
`s64`; `SIGN_CONVERT` is an `unsigned long long`, so both XORs are done on 64-bit unsigned
operands and converted back on assignment. -/
def ret_fraction_log2 (val val2 : Int) : Int × Int :=
  let tmp : Int := val
  if val < 0 then
    let tmp := to_s64 (((to_u64 tmp ^^^ SIGN_CONVERT) + 1 : Nat) : Int)
    let tmp := to_s64 (tmp * 1000000000) >>> val2.toNat
    let d := do_div tmp 1000000000
    let val2 := to_s32 (d.2 : Int)
    let val := to_s32 d.1
    let val2 := to_s32 ((to_u64 val2 ^^^ SIGN_CONVERT : Nat) : Int)
    (val, val2)
  else
    let tmp := to_s64 (tmp * 1000000000) >>> val2.toNat
    let d := do_div tmp 1000000000
    let val2 := to_s32 (d.2 : Int)
    let val := to_s32 d.1
    (val, val2)

/-! ## Scan-set builder (lines 500-539) -/

/-- Modelled from the spec: the kernel helper `test_bit(nr, addr)` is declared in a kernel
header that is not among the sources; the spec calls the mask "a bitset of selected
channels" whose bit index is the channel id. The bitmap is the natural number whose binary
digits are its bits. -/
def test_bit (nr : Nat) (addr : Nat) : Bool := addr.testBit nr

/-- The local variables of `max78m6610_lmu_update_scan_mode` that live across iterations,
and the state `st` points to. -/
structure scan_mode_locals where
  st : max78m6610_lmu_state
  tx : Nat
  k : Nat

/-- One iteration of the loop `for (i = 0; i < MAX_CHAN_NUM; i++)` (lines 510-536). -/
def update_scan_mode_body (active_scan_mask : Nat) (l : scan_mode_locals) (i : Nat) :
    Option scan_mode_locals :=
  if test_bit i active_scan_mask then do
    let chan ← max78m6610_lmu_channels[i]?
    let addr := chan.address
    let tx_buf ← write_u8 l.st.tx_buf l.tx (SPI_CB addr)
    let tx_buf ← write_u8 tx_buf (l.tx + 1) (SPI_TB_READ addr)
    let x ← l.st.ring_xfer[l.k]?
    let x := { x with cs_change := 0 }
    let x := { x with tx_buf := some l.tx }
    let x := { x with rx_buf := some l.tx }
    let x := { x with len := SPI_MSG_LEN }
    let x := { x with cs_change := 1 }
    let st := { l.st with
      tx_buf := tx_buf,
      ring_xfer := l.st.ring_xfer.set l.k x,
      ring_msg := l.st.ring_msg ++ [xfer_ref.ring l.k] }
    pure { st := st, tx := l.tx + SPI_MSG_LEN, k := l.k + 1 }
  else
    pure l

/-- The state of the loop of `max78m6610_lmu_update_scan_mode` after the iterations
`i = 0 .. n - 1`, entered after `spi_message_init(&st->ring_msg)` with `tx = 0, k = 0`. -/
def update_scan_mode_loop (st : max78m6610_lmu_state) (active_scan_mask : Nat) (n : Nat) :
    Option scan_mode_locals :=
  (List.range n).foldlM (update_scan_mode_body active_scan_mask)
    { st := { st with ring_msg := [] }, tx := 0, k := 0 }

/-- The function `max78m6610_lmu_update_scan_mode(indio_dev, active_scan_mask)`, on the state
`iio_priv(indio_dev)`: the returned `int` and the state it leaves. -/
def max78m6610_lmu_update_scan_mode (st : max78m6610_lmu_state) (active_scan_mask : Nat) :
    Option (Int × max78m6610_lmu_state) := do
  let l ← update_scan_mode_loop st active_scan_mask MAX_CHAN_NUM
  pure (0, l.st)

/-- What one transfer of a message puts on the bus: its two request bytes (the bytes at its
`tx_buf` pointer), the offsets of its request and of its response slot, and its length. -/
structure batch_entry where
  controlByte : Nat
  transactionByte : Nat
  tx_off : Nat
  rx_off : Nat
  len : Nat
  deriving DecidableEq, Repr

/-- The batch entry of a queued transfer; `none` for a dangling or null pointer. -/
def batch_entry_of (st : max78m6610_lmu_state) (r : xfer_ref) : Option batch_entry := do
  let x ← xfer_of st r
  let tx ← x.tx_buf
  let rx ← x.rx_buf
  let cb ← st.tx_buf[tx]?
  let tb ← st.tx_buf[tx + 1]?
  pure { controlByte := cb, transactionByte := tb, tx_off := tx, rx_off := rx, len := x.len }

/-- The batch held by `st->ring_msg`: the entries of its transfers, in queue order. -/
def ring_batch (st : max78m6610_lmu_state) : List (Option batch_entry) :=
  st.ring_msg.map (batch_entry_of st)

/-- The number of bytes of the transaction `st->ring_msg`: the sum of the `len` fields of
its transfers. -/
def ring_batch_len (st : max78m6610_lmu_state) : Nat :=
  ((st.ring_msg.filterMap (xfer_of st)).map (fun x => x.len)).sum

/-- The address field of table entry `i` (0 outside the table). -/
def channel_address (i : Nat) : Nat :=
  match max78m6610_lmu_channels[i]? with
  | some c => c.address
  | none => 0

/-- The selected channel ids below `n`, in ascending order. -/
def selected_below (mask : Nat) (n : Nat) : List Nat :=
  (List.range n).filter (fun i => test_bit i mask)

/-- The selected channel ids of a mask over the table, `c_0 < c_1 < ...`. -/
def selected (mask : Nat) : List Nat := selected_below mask MAX_CHAN_NUM

/-- The number of set bits of a natural number. -/
def popcount (m : Nat) : Nat :=
  if h : m = 0 then 0 else m % 2 + popcount (m / 2)
decreasing_by omega

/-- The mask with bit `nr` cleared. -/
def clear_bit (nr : Nat) (mask : Nat) : Nat :=
  if mask.testBit nr then mask - 2 ^ nr else mask

/-- The invariant of the loop of `max78m6610_lmu_update_scan_mode` after the iterations
`i = 0 .. n - 1`, started on the state `st0`: `k` counts the selected ids below `n`,
`tx = SPI_MSG_LEN * k`, the message holds `ring_xfer[0 .. k-1]` in order, transfer `j` and
the two request bytes at offset `5 * j` belong to the `j`-th selected id, and nothing else
of the state has changed size or value. -/
def scan_inv (st0 : max78m6610_lmu_state) (mask : Nat) (n : Nat) (l : scan_mode_locals) :
    Prop :=
  l.k = (selected_below mask n).length ∧
  l.tx = SPI_MSG_LEN * l.k ∧
  l.st.ring_msg = (List.range l.k).map xfer_ref.ring ∧
  l.st.ring_xfer.length = st0.ring_xfer.length ∧
  l.st.tx_buf.length = st0.tx_buf.length ∧
  l.st.rx_buf = st0.rx_buf ∧
  l.st.scan_single_xfer = st0.scan_single_xfer ∧
  l.st.scan_single_msg = st0.scan_single_msg ∧
  ∀ j c, (selected_below mask n)[j]? = some c →
    l.st.ring_xfer[j]? = some ⟨some (SPI_MSG_LEN * j), some (SPI_MSG_LEN * j), SPI_MSG_LEN, 1⟩ ∧
    l.st.tx_buf[SPI_MSG_LEN * j]? = some (SPI_CB (channel_address c)) ∧
    l.st.tx_buf[SPI_MSG_LEN * j + 1]? = some (SPI_TB_READ (channel_address c))

/-- The batch entry of the `j`-th selected channel `c`: the request frame of its register
address at offset `5 * j`, its response slot at offset `5 * j`, length 5. -/
def expected_entry (j : Nat) (c : Nat) : batch_entry :=
  { controlByte := SPI_CB (channel_address c),
    transactionByte := SPI_TB_READ (channel_address c),
    tx_off := SPI_MSG_LEN * j, rx_off := SPI_MSG_LEN * j, len := SPI_MSG_LEN }

/-- The batch that belongs to a list of selected channel ids `c_0, c_1, ...`: entry `j` is
the entry of `c_j` at offset `5 * j`. -/
def expected_batch (sel : List Nat) : List (Option batch_entry) :=
  (List.range sel.length).map (fun j => sel[j]?.map (expected_entry j))

/-! ## Frame codec: decode (lines 620-623 and 580-584) -/

/-- The 32-bit word at byte offset `p` of a buffer, `*(u32 *)&buf[p]`, on the little-endian
host of the driver (the x86 Clanton SoC); `none` when the word is not inside the buffer. -/
def load_u32 (buf : List Nat) (p : Nat) : Option Nat := do
  let b0 ← buf[p]?
  let b1 ← buf[p + 1]?
  let b2 ← buf[p + 2]?
  let b3 ← buf[p + 3]?
  pure (b0 + b1 * 2 ^ 8 + b2 * 2 ^ 16 + b3 * 2 ^ 24)

/-- The store `*(u32 *)&buf[p] = v` on the same host. -/
def store_u32 (buf : List Nat) (p : Nat) (v : Nat) : Option (List Nat) :=
  if p + 3 < buf.length then
    some ((((buf.set p (v % 256)).set (p + 1) (v / 2 ^ 8 % 256)).set (p + 2)
      (v / 2 ^ 16 % 256)).set (p + 3) (v / 2 ^ 24 % 256))
  else none

/-- Modelled from the spec: the kernel helper `be32_to_cpu` is declared in a kernel header
that is not among the sources; the spec says the bytes are interpreted "as a big-endian"
value. On the little-endian host it reverses the four bytes of a 32-bit word. -/
def be32_to_cpu (x : Nat) : Nat :=
  x % 256 * 2 ^ 24 + x / 2 ^ 8 % 256 * 2 ^ 16 + x / 2 ^ 16 % 256 * 2 ^ 8 + x / 2 ^ 24 % 256

/-- The decode statements of `max78m6610_lmu_scan_direct` (lines 620-623) and of the loop of
the trigger handler (lines 581-584), for the word pointer `rx_buf_32 = &rx_buf[rx_bit]`:
`*rx_buf_32 = be32_to_cpu(*rx_buf_32) & DATA_BIT_MASK;` followed by
`sign_extend32(*rx_buf_32, SIGN_BIT_NUM)`, which reads the word just stored. The result is
the decoded sample and the buffer after the in-place store. -/
def decode_at (rx_buf : List Nat) (rx_bit : Nat) : Option (Int × List Nat) := do
  let w ← load_u32 rx_buf rx_bit
  let v := be32_to_cpu w &&& DATA_BIT_MASK
  let rx_buf ← store_u32 rx_buf rx_bit v
  pure (sign_extend32 v SIGN_BIT_NUM, rx_buf)

/-- The sample decoded from one response slot: `decode_at` with the slot as the buffer and
`rx_bit = RX_OFFSET`, as in `max78m6610_lmu_scan_direct`. -/
def decodeSample (slot : List Nat) : Option Int :=
  (decode_at slot RX_OFFSET).map (fun r => r.1)

/-- The two's-complement reading of a 24-bit pattern (bit 23 is the sign). -/
def signed24 (v : Nat) : Int := if 2 ^ 23 ≤ v then (v : Int) - 2 ^ 24 else (v : Int)

/-! ## Kernel constants and collaborators of the acquisition engine -/

/-- Modelled from the spec: the errno of the error kind "Busy" (`-EBUSY` in the source); the
errno header is not among the sources. -/
def EBUSY : Int := 16

/-- Modelled from the spec: the errno of the error kind "TransportError" (`-EIO` in the
source); the errno header is not among the sources. -/
def EIO : Int := 5

/-- Modelled from the spec: the errno the source returns for a request it does not serve
(`-EINVAL`); the errno header is not among the sources. -/
def EINVAL : Int := 22

/-- Modelled from the spec: the IIO value-type code of a plain integer result, from the IIO
header that is not among the sources. -/
def IIO_VAL_INT : Int := 1

/-- Modelled from the spec: the IIO value-type code of an "(integerPart, nanoFraction)"
result, from the IIO header that is not among the sources. -/
def IIO_VAL_INT_PLUS_NANO : Int := 3

/-- Modelled from the spec: the read mask of a raw reading (`readDirect`), from the IIO header
that is not among the sources. -/
def IIO_CHAN_INFO_RAW : Int := 0

/-- Modelled from the spec: the read mask of the fixed scale-factor constants, from the IIO
header that is not among the sources. -/
def IIO_CHAN_INFO_SCALE : Int := 2

/-- Modelled from the spec: the mode "Direct", from the IIO header that is not among the
sources. -/
def INDIO_DIRECT_MODE : Int := 1

/-- Modelled from the spec: the mode "Triggered", from the IIO header that is not among the
sources. -/
def INDIO_BUFFER_TRIGGERED : Int := 2

/-- Modelled from the spec: the value an interrupt handler returns, from the interrupt header
that is not among the sources. -/
def IRQ_HANDLED : Int := 1

/-- Conversion to `u32`: the value modulo 2^32. -/
def to_u32 (x : Int) : Nat := (x % 2 ^ 32).toNat

/-- The fields of `struct iio_dev` the driver reads or writes: the mode, the mode lock
`mlock` (`true` while held), the active scan mask with its length, the timestamp flag, the
row length `scan_bytes`, and the driver state `iio_priv(indio_dev)`. -/
structure iio_dev where
  currentmode : Int
  mlock : Bool
  active_scan_mask : Nat
  masklength : Nat
  scan_timestamp : Bool
  scan_bytes : Nat
  priv : max78m6610_lmu_state
  deriving DecidableEq, Repr

/-- What the external collaborators have seen so far: the request bytes of every transport
transaction (`spi_sync`), the rows pushed to the sink (`iio_push_to_buffers`), and the
number of acknowledgements of the trigger (`iio_trigger_notify_done`). -/
structure collaborators where
  spi_log : List (List Nat)
  pushed : List (List Nat)
  notify_done : Nat
  deriving DecidableEq, Repr

/-- Modelled from the spec: the transport collaborator, "transact(requestBytes,
responseBuffer) -> Result<(), TransportError>, synchronous": from the request bytes to a
status (0 on success) and the response bytes. -/
abbrev spi_bus := List Nat → Int × List Nat

/-- Modelled from the spec: `mutex_lock(&indio_dev->mlock)`, the "single exclusive lock"; the
mutex code is not among the sources. `none` when the lock is held: the caller waits and
does not return. -/
def mutex_lock (indio_dev : iio_dev) : Option iio_dev :=
  if indio_dev.mlock then none else some { indio_dev with mlock := true }

/-- Modelled from the spec: `mutex_unlock(&indio_dev->mlock)`, the release of the "single
exclusive lock"; the mutex code is not among the sources. -/
def mutex_unlock (indio_dev : iio_dev) : iio_dev := { indio_dev with mlock := false }

/-- The copy `memcpy(&dst[p], src, n)` with `n` the length of `src`; `none` when it does not
fit in `dst`. -/
def memcpy (dst : List Nat) (p : Nat) (src : List Nat) : Option (List Nat) :=
  if p + src.length ≤ dst.length then some (dst.take p ++ src ++ dst.drop (p + src.length))
  else none

/-- The transfers queued in a message; `none` for a dangling pointer. -/
def resolve_msg (st : max78m6610_lmu_state) : List xfer_ref → Option (List spi_transfer)
  | [] => some []
  | r :: rs => do
    let x ← xfer_of st r
    let xs ← resolve_msg st rs
    pure (x :: xs)

/-- The bytes a list of transfers sends: `len` bytes at each `tx_buf` pointer, in queue
order. -/
def gather_tx (tx_buf : List Nat) : List spi_transfer → Option (List Nat)
  | [] => some []
  | x :: xs => do
    let tx ← x.tx_buf
    if tx + x.len ≤ tx_buf.length then
      let rest ← gather_tx tx_buf xs
      pure ((tx_buf.drop tx).take x.len ++ rest)
    else none

/-- The response bytes stored by a list of transfers: the next `len` bytes of the response at
each `rx_buf` pointer, in queue order. -/
def scatter_rx (rx_buf : List Nat) (resp : List Nat) : List spi_transfer → Option (List Nat)
  | [] => some rx_buf
  | x :: xs => do
    let rx ← x.rx_buf
    let rx_buf ← memcpy rx_buf rx (resp.take x.len)
    scatter_rx rx_buf (resp.drop x.len) xs

/-- Modelled from the spec: `spi_sync(st->spi, msg)`, one synchronous full-duplex transport
transaction; the SPI core is not among the sources. The request bytes of the queued
transfers go to the bus in one transaction; on status 0 the response bytes are stored at the
`rx_buf` pointers of the transfers, otherwise the state is left as it is. The result is the
status, the state and the collaborators. -/
def spi_sync (bus : spi_bus) (env : collaborators) (st : max78m6610_lmu_state)
    (msg : List xfer_ref) : Option (Int × max78m6610_lmu_state × collaborators) := do
  let xs ← resolve_msg st msg
  let req ← gather_tx st.tx_buf xs
  let env := { env with spi_log := env.spi_log ++ [req] }
  let r := bus req
  if r.1 ≠ 0 then
    pure (r.1, st, env)
  else
    let rx_buf ← scatter_rx st.rx_buf r.2 xs
    pure (0, { st with rx_buf := rx_buf }, env)

/-! ## Probe: the default message (lines 741-747) -/

/-- The statements "Setup default message" of `max78m6610_lmu_probe` (lines 741-747), on the
state `iio_priv(indio_dev)`; the rest of the function allocates and registers the device. -/
def probe_default_message (st : max78m6610_lmu_state) : max78m6610_lmu_state :=
  let x := st.scan_single_xfer
  let x := { x with tx_buf := some 0 }
  let x := { x with rx_buf := some 0 }
  let x := { x with len := SPI_MSG_LEN }
  let st := { st with scan_single_xfer := x }
  let st := { st with scan_single_msg := [] }
  { st with scan_single_msg := st.scan_single_msg ++ [xfer_ref.single] }

/-- The state of a probed device: the default message is set up. -/
def single_message_ready (st : max78m6610_lmu_state) : Prop :=
  st.scan_single_msg = [xfer_ref.single] ∧
  st.scan_single_xfer.tx_buf = some 0 ∧
  st.scan_single_xfer.rx_buf = some 0 ∧
  st.scan_single_xfer.len = SPI_MSG_LEN

instance (st : max78m6610_lmu_state) : Decidable (single_message_ready st) := by
  unfold single_message_ready
  infer_instance

/-! ## Direct read (lines 603-704) -/

/-- The function `max78m6610_lmu_scan_direct(st, addr)`: the returned `int`, the state and
the collaborators. -/
def max78m6610_lmu_scan_direct (bus : spi_bus) (env : collaborators)
    (st : max78m6610_lmu_state) (addr : Nat) :
    Option (Int × max78m6610_lmu_state × collaborators) := do
  let tx_buf ← write_u8 st.tx_buf 0 (SPI_CB addr)
  let tx_buf ← write_u8 tx_buf 1 (SPI_TB_READ addr)
  let st := { st with tx_buf := tx_buf }
  let r ← spi_sync bus env st st.scan_single_msg
  if r.1 ≠ 0 then
    pure (- EIO, r.2.1, r.2.2)
  else
    let d ← decode_at r.2.1.rx_buf RX_OFFSET
    pure (d.1, { r.2.1 with rx_buf := d.2 }, r.2.2)

/-- What `max78m6610_lmu_read_raw` leaves: the returned `int`, the values of `*val` and
`*val2`, the device and the collaborators. -/
structure read_raw_result where
  ret : Int
  val : Int
  val2 : Int
  indio_dev : iio_dev
  env : collaborators
  deriving DecidableEq, Repr

/-- The function `max78m6610_lmu_read_raw(indio_dev, chan, val, val2, m)`; `val` and `val2`
are the values of `*val` and `*val2` on entry. -/
def max78m6610_lmu_read_raw (bus : spi_bus) (env : collaborators) (indio_dev : iio_dev)
    (chan : iio_chan_spec) (val val2 : Int) (m : Int) : Option read_raw_result :=
  if m = IIO_CHAN_INFO_RAW then do
    let indio_dev ← mutex_lock indio_dev
    if indio_dev.currentmode = INDIO_BUFFER_TRIGGERED then
      let ret := - EBUSY
      pure { ret := ret, val := val, val2 := val2, indio_dev := indio_dev, env := env }
    else
      let r ← max78m6610_lmu_scan_direct bus env indio_dev.priv chan.address
      let ret := r.1
      let indio_dev := mutex_unlock { indio_dev with priv := r.2.1 }
      let val := ret
      let val2 : Int := (chan.scan_type.shift : Nat)
      let n := ret_fraction_log2 val val2
      pure { ret := IIO_VAL_INT_PLUS_NANO, val := n.1, val2 := n.2, indio_dev := indio_dev,
             env := r.2.2 }
  else if m = IIO_CHAN_INFO_SCALE then
    match chan.type with
    | .IIO_CURRENT =>
      some { ret := IIO_VAL_INT, val := 250, val2 := val2, indio_dev := indio_dev, env := env }
    | .IIO_VOLTAGE =>
      some { ret := IIO_VAL_INT, val := 250, val2 := val2, indio_dev := indio_dev, env := env }
    | .IIO_POWER =>
      some { ret := IIO_VAL_INT, val := 250 * 250, val2 := val2, indio_dev := indio_dev,
             env := env }
    | _ =>
      some { ret := - EINVAL, val := val, val2 := val2, indio_dev := indio_dev, env := env }
  else
    some { ret := - EINVAL, val := val, val2 := val2, indio_dev := indio_dev, env := env }

/-! ## Triggered scan (lines 551-592) -/

/-- Modelled from the spec: the kernel helper `bitmap_weight(src, nbits)`, the number of set
bits among the first `nbits` bits of a bitmap ("number of selected channels"); the bitmap
code is not among the sources. -/
def bitmap_weight (src : Nat) (nbits : Nat) : Nat :=
  ((List.range nbits).filter (fun i => test_bit i src)).length

/-- The number of bytes of the local array `scan_buf`:
`((sizeof(u32) * MAX_CHAN_NUM) + sizeof(s64)) / sizeof(u32)` words of 4 bytes. -/
def SCAN_BUF_BYTES : Nat := ((4 * MAX_CHAN_NUM + 8) / 4) * 4

/-- The bytes of a value of `n` bytes in memory, least significant first (the little-endian
host). -/
def le_bytes (n : Nat) (v : Nat) : List Nat :=
  (List.range n).map (fun i => v / 2 ^ (8 * i) % 256)

/-- The buffers the decode loop of the trigger handler works on. -/
structure trigger_locals where
  rx_buf : List Nat
  scan_buf : List Nat

/-- One iteration of the loop `for (i = 0; i < scan_count; i++)` (lines 578-585); `scan_buf`
is kept as bytes, `scan_buf[i]` is the word at byte offset `4 * i`. -/
def trigger_decode_body (l : trigger_locals) (i : Nat) : Option trigger_locals := do
  let rx_bit := i * SPI_MSG_LEN + RX_OFFSET
  let d ← decode_at l.rx_buf rx_bit
  let scan_buf ← store_u32 l.scan_buf (4 * i) (to_u32 d.1)
  pure { rx_buf := d.2, scan_buf := scan_buf }

/-- The decode loop of the trigger handler after the iterations `i = 0 .. n - 1`. -/
def trigger_decode_loop (l : trigger_locals) (n : Nat) : Option trigger_locals :=
  (List.range n).foldlM trigger_decode_body l

/-- Modelled from the spec: the sink collaborator `iio_push_to_buffers(indio_dev, data)`,
"push(rowBytes), fixed-size row per current ScanSet layout": the sink takes the first
`scan_bytes` bytes at `data` as one row; the IIO core is not among the sources. -/
def iio_push_to_buffers (env : collaborators) (indio_dev : iio_dev) (data : List Nat) :
    collaborators :=
  { env with pushed := env.pushed ++ [data.take indio_dev.scan_bytes] }

/-- Modelled from the spec: the trigger collaborator's `acknowledge()`,
`iio_trigger_notify_done(indio_dev->trig)`; the IIO core is not among the sources. -/
def iio_trigger_notify_done (env : collaborators) : collaborators :=
  { env with notify_done := env.notify_done + 1 }

/-- The timestamp statements of the trigger handler (lines 572-576): when
`indio_dev->scan_timestamp` is set, `time_ns = iio_get_time_ns()` and the 8 bytes of
`time_ns` are copied to `(u8 *)scan_buf + indio_dev->scan_bytes - sizeof(s64)`; `none` when
that place is not inside `scan_buf`. -/
def trigger_stamp (indio_dev : iio_dev) (time_now : Int) (scan_buf : List Nat) :
    Option (List Nat) :=
  if indio_dev.scan_timestamp then
    let time_ns := to_s64 time_now
    if 8 ≤ indio_dev.scan_bytes then
      memcpy scan_buf (indio_dev.scan_bytes - 8) (le_bytes 8 (to_u64 time_ns))
    else none
  else some scan_buf

/-- The function `max78m6610_lmu_trigger_handler(irq, p)` for the device
`pf->indio_dev`. `time_now` is what the timestamp collaborator `iio_get_time_ns()` returns
during the call, `junk i` is the byte found at offset `i` of the uninitialised local array
`scan_buf`. The result is the returned value, the device and the collaborators. -/
def max78m6610_lmu_trigger_handler (bus : spi_bus) (time_now : Int) (junk : Nat → Nat)
    (env : collaborators) (indio_dev : iio_dev) : Option (Int × iio_dev × collaborators) := do
  let st := indio_dev.priv
  let scan_buf := (List.range SCAN_BUF_BYTES).map (fun i => junk i % 256)
  let r ← spi_sync bus env st st.ring_msg
  if r.1 ≠ 0 then
    pure (IRQ_HANDLED, { indio_dev with priv := r.2.1 }, iio_trigger_notify_done r.2.2)
  else
    let scan_count := bitmap_weight indio_dev.active_scan_mask indio_dev.masklength
    let scan_buf ← trigger_stamp indio_dev time_now scan_buf
    let l ← trigger_decode_loop { rx_buf := r.2.1.rx_buf, scan_buf := scan_buf } scan_count
    let env := iio_push_to_buffers r.2.2 indio_dev l.scan_buf
    pure (IRQ_HANDLED, { indio_dev with priv := { r.2.1 with rx_buf := l.rx_buf } },
      iio_trigger_notify_done env)

/-- The array `st->tx_buf` after the two stores of `max78m6610_lmu_scan_direct(st, addr)`
(lines 611-612). -/
def scan_direct_tx (st : max78m6610_lmu_state) (addr : Nat) : List Nat :=
  (st.tx_buf.set 0 (SPI_CB addr % 256)).set 1 (SPI_TB_READ addr % 256)

/-- The request bytes of the transaction of `max78m6610_lmu_scan_direct(st, addr)`: the five
bytes at `tx_buf[0]` after the stores of lines 611-612. -/
def scan_direct_request (st : max78m6610_lmu_state) (addr : Nat) : List Nat :=
  (scan_direct_tx st addr).take SPI_MSG_LEN

/-- The result of `max78m6610_lmu_read_raw` for the read mask `IIO_CHAN_INFO_SCALE`, by kind
of channel. -/
def scale_result (env : collaborators) (indio_dev : iio_dev) (chan : iio_chan_spec)
    (val val2 : Int) : read_raw_result :=
  if chan.type = .IIO_VOLTAGE ∨ chan.type = .IIO_CURRENT then
    { ret := IIO_VAL_INT, val := 250, val2 := val2, indio_dev := indio_dev, env := env }
  else if chan.type = .IIO_POWER then
    { ret := IIO_VAL_INT, val := 62500, val2 := val2, indio_dev := indio_dev, env := env }
  else
    { ret := - EINVAL, val := val, val2 := val2, indio_dev := indio_dev, env := env }

/-- A transport whose every transaction fails with the status `-EIO`. -/
def failing_bus : spi_bus := fun _ => (- EIO, [])

/-- A probed, idle device in direct mode: zero-filled state with the default message set up,
mode lock free, no channel selected. -/
def idle_device : iio_dev :=
  { currentmode := INDIO_DIRECT_MODE, mlock := false, active_scan_mask := 0,
    masklength := MAX_CHAN_NUM, scan_timestamp := false, scan_bytes := 0,
    priv := probe_default_message zeroed_state }

/-- The same device with triggered acquisition armed. -/
def armed_device : iio_dev := { idle_device with currentmode := INDIO_BUFFER_TRIGGERED }

/-- No transaction, no row, no acknowledgement yet. -/
def fresh_collaborators : collaborators := { spi_log := [], pushed := [], notify_done := 0 }

/-- The first entry of the channel table (id 0, `INSTAN_VA`). -/
def channel_zero : iio_chan_spec :=
  { type := .IIO_VOLTAGE, indexed := 1, channel := 0, extend_name := some "inst",
    address := INSTAN_VA, scan_index := 0,
    scan_type := { sign := 's', realbits := 32, storagebits := 32, shift := 23 } }

/-- A transport whose every transaction succeeds with the response `resp`. -/
def answering_bus (resp : List Nat) : spi_bus := fun _ => (0, resp)

/-- The transfer `ring_xfer[j]` as `max78m6610_lmu_update_scan_mode` fills it: request and
response slot at byte offset `SPI_MSG_LEN * j`, length `SPI_MSG_LEN`, `cs_change = 1`. -/
def ring_transfer (j : Nat) : spi_transfer :=
  ⟨some (SPI_MSG_LEN * j), some (SPI_MSG_LEN * j), SPI_MSG_LEN, 1⟩

/-- The ring message is the one `max78m6610_lmu_update_scan_mode` builds for the mask: it
queues `ring_xfer[0 .. n-1]` in order, `n` being the number of selected ids, transfer `j` is
`ring_transfer j`, and the two byte arrays have their declared sizes. The function
establishes it on every state of the declared sizes (`update_scan_mode_ring_ready`), and the
trigger handler keeps it (`trigger_handler_success`). -/
def ring_ready (mask : Nat) (st : max78m6610_lmu_state) : Prop :=
  st.ring_msg = (List.range (bitmap_weight mask MAX_CHAN_NUM)).map xfer_ref.ring ∧
  (∀ j, j < bitmap_weight mask MAX_CHAN_NUM → st.ring_xfer[j]? = some (ring_transfer j)) ∧
  st.tx_buf.length = SPI_MSG_LEN * MAX_CHAN_NUM ∧
  st.rx_buf.length = SPI_MSG_LEN * MAX_CHAN_NUM + 8

instance (mask : Nat) (st : max78m6610_lmu_state) : Decidable (ring_ready mask st) := by
  unfold ring_ready
  infer_instance

/-- The state of a probed device after `max78m6610_lmu_update_scan_mode` for the mask `5`
(channels 0 and 2). -/
def two_channel_state : max78m6610_lmu_state :=
  ((max78m6610_lmu_update_scan_mode (probe_default_message zeroed_state) 5).map
    (fun r => r.2)).getD zeroed_state

/-- A device armed for triggered acquisition of channels 0 and 2 with the timestamp: the row
has two 4-byte samples and the 8-byte timestamp. -/
def two_channel_device : iio_dev :=
  { currentmode := INDIO_BUFFER_TRIGGERED, mlock := false, active_scan_mask := 5,
    masklength := MAX_CHAN_NUM, scan_timestamp := true, scan_bytes := 16,
    priv := two_channel_state }

/-! ## PHY address table of the stmmac PCI glue (stmmac_pci.c, lines 47-127) -/

/-- Modelled from the spec: the type `cln_plat_id_t` is declared in the platform header
`linux/platform_data/clanton.h`, which is not among the sources. It is an enumeration of
board ids: the six enumerators that `phy_data` names, and `unlisted` for any other value of
the type. -/
inductive cln_plat_id_t where
  | CLANTON_EMULATION
  | CLANTON_PEAK
  | KIPS_BAY
  | CROSS_HILL
  | CLANTON_HILL
  | IZMIR
  | unlisted (id : Nat)
  deriving DecidableEq, Repr

structure stmmac_cln_mac_data where
  phy_addr : Int
  bus_id : Int
  plat_id : cln_plat_id_t
  deriving DecidableEq, Repr

/-- The table `phy_data`; a `phy_addr` of -1 is an interface that is not connected. -/
def phy_data : List stmmac_cln_mac_data := [
  { phy_addr := -1, bus_id := 1, plat_id := .CLANTON_EMULATION },
  { phy_addr := 1, bus_id := 2, plat_id := .CLANTON_EMULATION },
  { phy_addr := 3, bus_id := 1, plat_id := .CLANTON_PEAK },
  { phy_addr := 1, bus_id := 2, plat_id := .CLANTON_PEAK },
  { phy_addr := 1, bus_id := 1, plat_id := .KIPS_BAY },
  { phy_addr := -1, bus_id := 2, plat_id := .KIPS_BAY },
  { phy_addr := 1, bus_id := 1, plat_id := .CROSS_HILL },
  { phy_addr := 1, bus_id := 2, plat_id := .CROSS_HILL },
  { phy_addr := 1, bus_id := 1, plat_id := .CLANTON_HILL },
  { phy_addr := 1, bus_id := 2, plat_id := .CLANTON_HILL },
  { phy_addr := 1, bus_id := 1, plat_id := .IZMIR },
  { phy_addr := -1, bus_id := 2, plat_id := .IZMIR }
]

/-- The loop of `stmmac_find_phy_addr` over the entries from index `i` on: the first entry
with the wanted platform and bus returns its `phy_addr`, the end of the table returns -1. -/
def stmmac_find_phy_addr_from (mdio_bus_id : Int) (cln_plat_id : cln_plat_id_t) :
    List stmmac_cln_mac_data → Int
  | [] => -1
  | e :: rest =>
    if e.plat_id = cln_plat_id ∧ e.bus_id = mdio_bus_id then e.phy_addr
    else stmmac_find_phy_addr_from mdio_bus_id cln_plat_id rest

/-- The function `stmmac_find_phy_addr(mdio_bus_id, cln_plat_id)`. -/
def stmmac_find_phy_addr (mdio_bus_id : Int) (cln_plat_id : cln_plat_id_t) : Int :=
  stmmac_find_phy_addr_from mdio_bus_id cln_plat_id phy_data

/-- A probed device in direct mode whose ring message was built by
`max78m6610_lmu_update_scan_mode` for the mask `6` (channels 1 and 2). -/
def rebuilt_idle_device : iio_dev :=
  { idle_device with
    active_scan_mask := 6,
    priv := ((max78m6610_lmu_update_scan_mode (probe_default_message zeroed_state) 6).map
      (fun r => r.2)).getD zeroed_state }

/-! ## The calls on the mode lock and on the transport, in program order -/

/-- A call of the engine on the mode lock or on the transport: `mutex_lock` has returned,
`mutex_unlock`, or one `spi_sync` with its request bytes. -/
inductive lock_event where
  | acquire
  | release
  | transact (req : List Nat)
  deriving DecidableEq, Repr

/-- The transactions issued between two states of the collaborators: the entries added to the
transport log. -/
def transactions_since (env env2 : collaborators) : List lock_event :=
  (env2.spi_log.drop env.spi_log.length).map lock_event.transact

/-- The call `mutex_lock(&indio_dev->mlock)`, recorded in the list of calls `ev` when it
returns. -/
def mutex_lock_logged (indio_dev : iio_dev) (ev : List lock_event) :
    Option (iio_dev × List lock_event) :=
  (mutex_lock indio_dev).map (fun d => (d, ev ++ [lock_event.acquire]))

/-- The call `mutex_unlock(&indio_dev->mlock)`, recorded in the list of calls `ev`. -/
def mutex_unlock_logged (indio_dev : iio_dev) (ev : List lock_event) :
    iio_dev × List lock_event :=
  (mutex_unlock indio_dev, ev ++ [lock_event.release])

/-- The call `spi_sync(st->spi, msg)`, recorded in the list of calls `ev` with the request
bytes it has put on the bus. -/
def spi_sync_logged (bus : spi_bus) (env : collaborators) (st : max78m6610_lmu_state)
    (msg : List xfer_ref) (ev : List lock_event) :
    Option ((Int × max78m6610_lmu_state × collaborators) × List lock_event) :=
  (spi_sync bus env st msg).map (fun r => (r, ev ++ transactions_since env r.2.2))

/-- The function `max78m6610_lmu_scan_direct(st, addr)` with its calls on the lock and the
transport recorded in program order. -/
def max78m6610_lmu_scan_direct_logged (bus : spi_bus) (env : collaborators)
    (st : max78m6610_lmu_state) (addr : Nat) (ev : List lock_event) :
    Option ((Int × max78m6610_lmu_state × collaborators) × List lock_event) := do
  let tx_buf ← write_u8 st.tx_buf 0 (SPI_CB addr)
  let tx_buf ← write_u8 tx_buf 1 (SPI_TB_READ addr)
  let st := { st with tx_buf := tx_buf }
  let s ← spi_sync_logged bus env st st.scan_single_msg ev
  if s.1.1 ≠ 0 then
    pure ((- EIO, s.1.2.1, s.1.2.2), s.2)
  else
    let d ← decode_at s.1.2.1.rx_buf RX_OFFSET
    pure ((d.1, { s.1.2.1 with rx_buf := d.2 }, s.1.2.2), s.2)

/-- The function `max78m6610_lmu_read_raw(indio_dev, chan, val, val2, m)` with its calls on
the lock and the transport recorded in program order; the cases other than
`IIO_CHAN_INFO_RAW` make no such call. -/
def max78m6610_lmu_read_raw_logged (bus : spi_bus) (env : collaborators) (indio_dev : iio_dev)
    (chan : iio_chan_spec) (val val2 : Int) (m : Int) (ev : List lock_event) :
    Option (read_raw_result × List lock_event) :=
  if m = IIO_CHAN_INFO_RAW then do
    let l ← mutex_lock_logged indio_dev ev
    if l.1.currentmode = INDIO_BUFFER_TRIGGERED then
      let ret := - EBUSY
      pure ({ ret := ret, val := val, val2 := val2, indio_dev := l.1, env := env }, l.2)
    else
      let s ← max78m6610_lmu_scan_direct_logged bus env l.1.priv chan.address l.2
      let ret := s.1.1
      let u := mutex_unlock_logged { l.1 with priv := s.1.2.1 } s.2
      let val := ret
      let val2 : Int := (chan.scan_type.shift : Nat)
      let n := ret_fraction_log2 val val2
      pure ({ ret := IIO_VAL_INT_PLUS_NANO, val := n.1, val2 := n.2, indio_dev := u.1,
              env := s.1.2.2 }, u.2)
  else
    (max78m6610_lmu_read_raw bus env indio_dev chan val val2 m).map (fun r => (r, ev))

/-- The function `max78m6610_lmu_trigger_handler(irq, p)` with its calls on the lock and the
transport recorded in program order. -/
def max78m6610_lmu_trigger_handler_logged (bus : spi_bus) (time_now : Int) (junk : Nat → Nat)
    (env : collaborators) (indio_dev : iio_dev) (ev : List lock_event) :
    Option ((Int × iio_dev × collaborators) × List lock_event) := do
  let st := indio_dev.priv
  let scan_buf := (List.range SCAN_BUF_BYTES).map (fun i => junk i % 256)
  let s ← spi_sync_logged bus env st st.ring_msg ev
  if s.1.1 ≠ 0 then
    pure ((IRQ_HANDLED, { indio_dev with priv := s.1.2.1 }, iio_trigger_notify_done s.1.2.2),
      s.2)
  else
    let scan_count := bitmap_weight indio_dev.active_scan_mask indio_dev.masklength
    let scan_buf ← trigger_stamp indio_dev time_now scan_buf
    let l ← trigger_decode_loop { rx_buf := s.1.2.1.rx_buf, scan_buf := scan_buf } scan_count
    let env := iio_push_to_buffers s.1.2.2 indio_dev l.scan_buf
    pure ((IRQ_HANDLED, { indio_dev with priv := { s.1.2.1 with rx_buf := l.rx_buf } },
      iio_trigger_notify_done env), s.2)

/-- Whether the lock is held after a list of calls, `held` telling whether it is held
before. -/
def lock_after : Bool → List lock_event → Bool
  | held, [] => held
  | _, lock_event.acquire :: es => lock_after true es
  | _, lock_event.release :: es => lock_after false es
  | held, lock_event.transact _ :: es => lock_after held es

/-- Whether every transaction of a list of calls is issued while the lock is held, `held`
telling whether it is held before the first call. -/
def transacts_under_lock : Bool → List lock_event → Bool
  | _, [] => true
  | _, lock_event.acquire :: es => transacts_under_lock true es
  | _, lock_event.release :: es => transacts_under_lock false es
  | held, lock_event.transact _ :: es => held && transacts_under_lock held es

/-! ## Theorems -/

/-! ### Arithmetic of the normaliser -/

theorem xor_all_ones (n x : Nat) (hx : x < 2 ^ n) : x ^^^ (2 ^ n - 1) = 2 ^ n - 1 - x := by
  apply Nat.eq_of_testBit_eq
  intro i
  have e : 2 ^ n - 1 - x = 2 ^ n - (x + 1) := by omega
  rw [Nat.testBit_xor, Nat.testBit_two_pow_sub_one, e, Nat.testBit_two_pow_sub_succ hx]
  by_cases h : i < n
  · simp [h]
  · have hle : 2 ^ n ≤ 2 ^ i := Nat.pow_le_pow_right (by decide) (by omega)
    have : x.testBit i = false := Nat.testBit_lt_two_pow (by omega)
    simp [h, this]

theorem xor_SIGN_CONVERT (x : Nat) (hx : x < 2 ^ 64) :
    ((x ^^^ SIGN_CONVERT : Nat) : Int) = 2 ^ 64 - 1 - (x : Int) := by
  have h := xor_all_ones 64 x hx
  have e : SIGN_CONVERT = 2 ^ 64 - 1 := by decide
  rw [e, h]
  omega

theorem to_u64_cast (x : Int) : ((to_u64 x : Nat) : Int) = x % 2 ^ 64 := by
  unfold to_u64
  omega

theorem to_u64_lt (x : Int) : to_u64 x < 2 ^ 64 := by
  unfold to_u64
  omega


theorem to_s64_of_range (x : Int) (h0 : -2 ^ 63 ≤ x) (h1 : x < 2 ^ 63) : to_s64 x = x := by
  unfold to_s64
  omega

theorem to_s32_of_range (x : Int) (h0 : -2 ^ 31 ≤ x) (h1 : x < 2 ^ 31) : to_s32 x = x := by
  unfold to_s32
  omega

theorem scaled_step (m : Int) (fb : Nat) (h0 : 0 ≤ m) (h1 : m ≤ 2 ^ 31) :
    to_s64 (m * 1000000000) >>> fb = m * 1000000000 / 2 ^ fb := by
  rw [to_s64_of_range _ (by omega) (by omega), Int.shiftRight_eq_div_pow]
  norm_cast

theorem scaled_bounds (m : Int) (fb : Nat) (h0 : 0 ≤ m) (h1 : m ≤ 2 ^ 31) :
    0 ≤ m * 1000000000 / 2 ^ fb ∧ m * 1000000000 / 2 ^ fb ≤ m * 1000000000 := by
  have hp : (0 : Int) < 2 ^ fb := by positivity
  constructor
  · exact Int.ediv_nonneg (by omega) hp.le
  · exact Int.ediv_le_self _ (by omega)

theorem do_div_nonneg (n : Int) (h0 : 0 ≤ n) (h1 : n < 2 ^ 63) :
    (do_div n 1000000000).1 = n / 1000000000 ∧
    (((do_div n 1000000000).2 : Nat) : Int) = n % 1000000000 := by
  have hu : ((to_u64 n : Nat) : Int) = n := by rw [to_u64_cast]; omega
  unfold do_div
  constructor
  · show to_s64 ((to_u64 n / 1000000000 : Nat) : Int) = n / 1000000000
    have e : ((to_u64 n / 1000000000 : Nat) : Int) = n / 1000000000 := by
      rw [Int.natCast_ediv, hu]; rfl
    rw [e]
    exact to_s64_of_range _ (by omega) (by omega)
  · show ((to_u64 n % 1000000000 % 2 ^ 32 : Nat) : Int) = n % 1000000000
    omega

/-- Closed form of the branch `*val >= 0` of `ret_fraction_log2`. -/
theorem ret_fraction_log2_nonneg (raw : Int) (fb : Nat) (h0 : 0 ≤ raw) (h1 : raw < 2 ^ 31) :
    ret_fraction_log2 raw fb
      = (to_s32 (raw * 1000000000 / 2 ^ fb / 1000000000),
         raw * 1000000000 / 2 ^ fb % 1000000000) := by
  have hn : ¬ raw < 0 := by omega
  have hb := scaled_bounds raw fb h0 (by omega)
  have hd := do_div_nonneg (raw * 1000000000 / 2 ^ fb) hb.1 (by omega)
  unfold ret_fraction_log2
  simp only [if_neg hn, Int.toNat_ofNat, scaled_step raw fb h0 (by omega), hd.1, hd.2]
  rw [to_s32_of_range (raw * 1000000000 / 2 ^ fb % 1000000000) (by omega) (by omega)]

/-- Closed form of the branch `*val < 0` of `ret_fraction_log2`. -/
theorem ret_fraction_log2_neg (raw : Int) (fb : Nat) (h0 : -2 ^ 31 ≤ raw) (h1 : raw < 0) :
    ret_fraction_log2 raw fb
      = (to_s32 ((-raw) * 1000000000 / 2 ^ fb / 1000000000),
         -((-raw) * 1000000000 / 2 ^ fb % 1000000000) - 1) := by
  have hb := scaled_bounds (-raw) fb (by omega) (by omega)
  have hd := do_div_nonneg ((-raw) * 1000000000 / 2 ^ fb) hb.1 (by omega)
  have hneg : to_s64 (((to_u64 raw ^^^ SIGN_CONVERT) + 1 : Nat) : Int) = -raw := by
    have hx := xor_SIGN_CONVERT (to_u64 raw) (to_u64_lt raw)
    have hu := to_u64_cast raw
    rw [Nat.cast_add, hx, hu]
    unfold to_s64
    omega
  have hr : to_s32 ((-raw) * 1000000000 / 2 ^ fb % 1000000000)
      = (-raw) * 1000000000 / 2 ^ fb % 1000000000 :=
    to_s32_of_range _ (by omega) (by omega)
  have hc : to_s32 ((to_u64 ((-raw) * 1000000000 / 2 ^ fb % 1000000000) ^^^ SIGN_CONVERT : Nat) : Int)
      = -((-raw) * 1000000000 / 2 ^ fb % 1000000000) - 1 := by
    have hx := xor_SIGN_CONVERT _ (to_u64_lt ((-raw) * 1000000000 / 2 ^ fb % 1000000000))
    have hu := to_u64_cast ((-raw) * 1000000000 / 2 ^ fb % 1000000000)
    rw [hx, hu]
    unfold to_s32
    omega
  unfold ret_fraction_log2
  simp only [if_pos h1, Int.toNat_ofNat, hneg, scaled_step (-raw) fb (by omega) (by omega),
    hd.1, hd.2, hr, hc]

/-! ### Decode -/

theorem sign_extend32_masked (v : Nat) (hv : v < 2 ^ 24) :
    sign_extend32 v SIGN_BIT_NUM = signed24 v := by
  have hs : ((31 - ((SIGN_BIT_NUM : Nat) : Int)) % 256).toNat = 8 := by decide
  unfold sign_extend32 signed24
  simp only [hs, Nat.shiftLeft_eq, Int.shiftRight_eq_div_pow]
  have e : v * 2 ^ 8 % 2 ^ 32 = v * 256 := by omega
  rw [e]
  unfold to_s32
  split <;> push_cast <;> omega

theorem mask_DATA_BIT_MASK (w : Nat) : w &&& DATA_BIT_MASK = w % 2 ^ 24 := by
  have e : DATA_BIT_MASK = 2 ^ 24 - 1 := by decide
  rw [e, Nat.and_pow_two_sub_one_eq_mod]

theorem be32_to_cpu_bytes (b0 b1 b2 b3 : Nat) (h0 : b0 ≤ 255) (h1 : b1 ≤ 255) (h2 : b2 ≤ 255)
    (h3 : b3 ≤ 255) :
    be32_to_cpu (b0 + b1 * 2 ^ 8 + b2 * 2 ^ 16 + b3 * 2 ^ 24)
      = b0 * 2 ^ 24 + b1 * 2 ^ 16 + b2 * 2 ^ 8 + b3 := by
  unfold be32_to_cpu
  omega

/-- The decode of a 5-byte slot keeps the last three bytes. -/
theorem decodeSample_slot (b0 b1 b2 b3 b4 : Nat) (h1 : b1 ≤ 255) (h2 : b2 ≤ 255)
    (h3 : b3 ≤ 255) (h4 : b4 ≤ 255) :
    decodeSample [b0, b1, b2, b3, b4] = some (signed24 (b2 * 2 ^ 16 + b3 * 2 ^ 8 + b4)) := by
  have hl : load_u32 [b0, b1, b2, b3, b4] 1
      = some (b1 + b2 * 2 ^ 8 + b3 * 2 ^ 16 + b4 * 2 ^ 24) := rfl
  have hv : be32_to_cpu (b1 + b2 * 2 ^ 8 + b3 * 2 ^ 16 + b4 * 2 ^ 24) &&& DATA_BIT_MASK
      = b2 * 2 ^ 16 + b3 * 2 ^ 8 + b4 := by
    rw [mask_DATA_BIT_MASK, be32_to_cpu_bytes b1 b2 b3 b4 h1 h2 h3 h4]
    omega
  have hlt : b2 * 2 ^ 16 + b3 * 2 ^ 8 + b4 < 2 ^ 24 := by omega
  have hs : ∀ v, (store_u32 [b0, b1, b2, b3, b4] 1 v).isSome = true := by
    intro v
    simp [store_u32]
  unfold decodeSample decode_at
  rw [show RX_OFFSET = 1 from rfl, hl]
  simp only [Option.bind_eq_bind, Option.some_bind, hv, sign_extend32_masked _ hlt]
  cases h : store_u32 [b0, b1, b2, b3, b4] 1 (b2 * 2 ^ 16 + b3 * 2 ^ 8 + b4) with
  | none => have := hs (b2 * 2 ^ 16 + b3 * 2 ^ 8 + b4); rw [h] at this; cases this
  | some r => rfl

/-- The decode at any word offset of a buffer: the sample is the signed reading of the three
bytes after the first byte of the word, and the store keeps the size of the buffer. -/
theorem decode_at_value (buf : List Nat) (p b0 b1 b2 b3 : Nat) (e0 : buf[p]? = some b0)
    (e1 : buf[p + 1]? = some b1) (e2 : buf[p + 2]? = some b2) (e3 : buf[p + 3]? = some b3)
    (h0 : b0 ≤ 255) (h1 : b1 ≤ 255) (h2 : b2 ≤ 255) (h3 : b3 ≤ 255) :
    ∃ buf2, decode_at buf p = some (signed24 (b1 * 2 ^ 16 + b2 * 2 ^ 8 + b3), buf2) ∧
      buf2.length = buf.length := by
  have hl : load_u32 buf p = some (b0 + b1 * 2 ^ 8 + b2 * 2 ^ 16 + b3 * 2 ^ 24) := by
    unfold load_u32
    rw [e0, e1, e2, e3]
    rfl
  have hv : be32_to_cpu (b0 + b1 * 2 ^ 8 + b2 * 2 ^ 16 + b3 * 2 ^ 24) &&& DATA_BIT_MASK
      = b1 * 2 ^ 16 + b2 * 2 ^ 8 + b3 := by
    rw [mask_DATA_BIT_MASK, be32_to_cpu_bytes b0 b1 b2 b3 h0 h1 h2 h3]
    omega
  have hlt : b1 * 2 ^ 16 + b2 * 2 ^ 8 + b3 < 2 ^ 24 := by omega
  have hp : p + 3 < buf.length := by
    by_contra hge
    rw [List.getElem?_eq_none (by omega)] at e3
    cases e3
  refine ⟨(((buf.set p ((b1 * 2 ^ 16 + b2 * 2 ^ 8 + b3) % 256)).set (p + 1)
      ((b1 * 2 ^ 16 + b2 * 2 ^ 8 + b3) / 2 ^ 8 % 256)).set (p + 2)
      ((b1 * 2 ^ 16 + b2 * 2 ^ 8 + b3) / 2 ^ 16 % 256)).set (p + 3)
      ((b1 * 2 ^ 16 + b2 * 2 ^ 8 + b3) / 2 ^ 24 % 256), ?_, ?_⟩
  · unfold decode_at
    rw [hl]
    simp only [Option.bind_eq_bind, Option.some_bind, hv, sign_extend32_masked _ hlt]
    unfold store_u32
    rw [if_pos hp]
    rfl
  · simp only [List.length_set]

/-! ### Scan-set builder -/

theorem selected_below_succ (mask n : Nat) :
    selected_below mask (n + 1)
      = selected_below mask n ++ (if test_bit n mask then [n] else []) := by
  unfold selected_below
  rw [List.range_succ, List.filter_append]
  by_cases h : test_bit n mask <;> simp [h]

theorem selected_below_length_le (mask n : Nat) : (selected_below mask n).length ≤ n := by
  unfold selected_below
  exact (List.length_filter_le _ _).trans (by simp)

theorem update_scan_mode_loop_succ (st : max78m6610_lmu_state) (mask n : Nat) :
    update_scan_mode_loop st mask (n + 1)
      = (update_scan_mode_loop st mask n).bind (fun l => update_scan_mode_body mask l n) := by
  unfold update_scan_mode_loop
  rw [List.range_succ, List.foldlM_append]
  simp

theorem table_entry (n : Nat) (hn : n < MAX_CHAN_NUM) :
    ∃ chan, max78m6610_lmu_channels[n]? = some chan ∧ chan.address = channel_address n ∧
      SPI_CB chan.address % 256 = SPI_CB chan.address ∧
      SPI_TB_READ chan.address % 256 = SPI_TB_READ chan.address := by
  have key : ∀ m < 21, ∃ chan, max78m6610_lmu_channels[m]? = some chan ∧
      chan.address = channel_address m ∧
      SPI_CB chan.address % 256 = SPI_CB chan.address ∧
      SPI_TB_READ chan.address % 256 = SPI_TB_READ chan.address := by
    intro m hm
    interval_cases m <;> exact ⟨_, rfl, rfl, by decide, by decide⟩
  exact key n hn

/-- One iteration of the loop keeps the invariant and does not fail. -/
theorem scan_inv_step (st0 : max78m6610_lmu_state) (hs : state_sized st0) (mask n : Nat)
    (hn : n < MAX_CHAN_NUM) (l : scan_mode_locals) (hl : scan_inv st0 mask n l) :
    ∃ l2, update_scan_mode_body mask l n = some l2 ∧ scan_inv st0 mask (n + 1) l2 := by
  obtain ⟨hk, htx, hmsg, hxl, htl, hrx, hsx, hsm, hent⟩ := hl
  obtain ⟨hs1, hs2, -⟩ := hs
  have hM : MAX_CHAN_NUM = 21 := rfl
  have hL : SPI_MSG_LEN = 5 := rfl
  rw [hL] at htx
  rw [hM] at hn hs1
  rw [hL, hM] at hs2
  simp only [hL] at hent
  have hkn : l.k ≤ n := hk ▸ selected_below_length_le mask n
  by_cases hb : test_bit n mask
  · obtain ⟨chan, hch, hadr, hcb, htb⟩ := table_entry n hn
    have hw1 : write_u8 l.st.tx_buf l.tx (SPI_CB chan.address)
        = some (l.st.tx_buf.set l.tx (SPI_CB chan.address)) := by
      unfold write_u8
      rw [if_pos (by omega), hcb]
    have hw2 : write_u8 (l.st.tx_buf.set l.tx (SPI_CB chan.address)) (l.tx + 1)
          (SPI_TB_READ chan.address)
        = some ((l.st.tx_buf.set l.tx (SPI_CB chan.address)).set (l.tx + 1)
            (SPI_TB_READ chan.address)) := by
      unfold write_u8
      rw [if_pos (by rw [List.length_set]; omega), htb]
    obtain ⟨x, hx⟩ : ∃ x, l.st.ring_xfer[l.k]? = some x :=
      ⟨_, List.getElem?_eq_getElem (by omega)⟩
    refine ⟨{ st := { l.st with
                tx_buf := (l.st.tx_buf.set l.tx (SPI_CB chan.address)).set (l.tx + 1)
                  (SPI_TB_READ chan.address),
                ring_xfer := l.st.ring_xfer.set l.k ⟨some l.tx, some l.tx, SPI_MSG_LEN, 1⟩,
                ring_msg := l.st.ring_msg ++ [xfer_ref.ring l.k] },
              tx := l.tx + SPI_MSG_LEN, k := l.k + 1 }, ?_, ?_⟩
    · unfold update_scan_mode_body
      rw [if_pos hb]
      simp only [hch, hw1, hw2, hx, Option.bind_eq_bind, Option.some_bind, Option.pure_def]
    · have hsel : selected_below mask (n + 1) = selected_below mask n ++ [n] := by
        rw [selected_below_succ, if_pos hb]
      refine ⟨?_, ?_, ?_, ?_, ?_, hrx, hsx, hsm, ?_⟩
      · simp [hsel, hk]
      · show l.tx + 5 = 5 * (l.k + 1)
        omega
      · show l.st.ring_msg ++ [xfer_ref.ring l.k] = (List.range (l.k + 1)).map xfer_ref.ring
        rw [hmsg, List.range_succ, List.map_append]
        rfl
      · show (l.st.ring_xfer.set l.k _).length = _
        rw [List.length_set, hxl]
      · show ((l.st.tx_buf.set l.tx _).set (l.tx + 1) _).length = _
        rw [List.length_set, List.length_set, htl]
      · intro j c hj
        rw [hsel] at hj
        show (l.st.ring_xfer.set l.k _)[j]?
            = some ⟨some (5 * j), some (5 * j), 5, 1⟩ ∧
          ((l.st.tx_buf.set l.tx _).set (l.tx + 1) _)[5 * j]? = _ ∧
          ((l.st.tx_buf.set l.tx _).set (l.tx + 1) _)[5 * j + 1]? = _
        by_cases hjk : j < l.k
        · rw [List.getElem?_append_left (by omega)] at hj
          obtain ⟨e1, e2, e3⟩ := hent j c hj
          refine ⟨?_, ?_, ?_⟩
          · rw [List.getElem?_set_ne (by omega), e1]
          · rw [List.getElem?_set_ne (by omega), List.getElem?_set_ne (by omega), e2]
          · rw [List.getElem?_set_ne (by omega), List.getElem?_set_ne (by omega), e3]
        · have hjk2 : j = l.k := by
            by_contra hne
            rw [List.getElem?_append_right (by omega)] at hj
            have : j - (selected_below mask n).length ≠ 0 := by omega
            cases hd : j - (selected_below mask n).length with
            | zero => exact this hd
            | succ d => rw [hd] at hj; simp at hj
          subst hjk2
          rw [List.getElem?_append_right (by omega), ← hk, Nat.sub_self] at hj
          have hc : c = n := by simpa using hj.symm
          subst hc
          refine ⟨?_, ?_, ?_⟩
          · rw [List.getElem?_set_self (by omega), htx]
            rfl
          · rw [List.getElem?_set_ne (by omega), ← htx, List.getElem?_set_self (by omega), hadr]
          · rw [← htx, List.getElem?_set_self (by rw [List.length_set]; omega), hadr]
  · refine ⟨l, ?_, ?_⟩
    · unfold update_scan_mode_body
      rw [if_neg hb]
      rfl
    · have hsel : selected_below mask (n + 1) = selected_below mask n := by
        rw [selected_below_succ, if_neg hb, List.append_nil]
      rw [scan_inv, hsel]
      exact ⟨hk, htx, hmsg, hxl, htl, hrx, hsx, hsm, hent⟩

/-- The loop runs to its end on every mask, and the invariant holds all along. -/
theorem scan_inv_loop (st0 : max78m6610_lmu_state) (hs : state_sized st0) (mask n : Nat)
    (hn : n ≤ MAX_CHAN_NUM) :
    ∃ l, update_scan_mode_loop st0 mask n = some l ∧ scan_inv st0 mask n l := by
  induction n with
  | zero =>
    refine ⟨_, rfl, ?_⟩
    refine ⟨rfl, rfl, rfl, rfl, rfl, rfl, rfl, rfl, ?_⟩
    intro j c hj
    simp [selected_below] at hj
  | succ n ih =>
    obtain ⟨l, hl, hinv⟩ := ih (by omega)
    obtain ⟨l2, hl2, hinv2⟩ := scan_inv_step st0 hs mask n (by omega) l hinv
    refine ⟨l2, ?_, hinv2⟩
    rw [update_scan_mode_loop_succ, hl]
    exact hl2

theorem expected_batch_append (sel : List Nat) (c : Nat) :
    expected_batch (sel ++ [c]) = expected_batch sel ++ [some (expected_entry sel.length c)] := by
  unfold expected_batch
  rw [List.length_append, List.length_singleton, List.range_succ, List.map_append]
  congr 1
  · apply List.map_congr_left
    intro j hj
    rw [List.getElem?_append_left (List.mem_range.mp hj)]
  · simp

theorem expected_batch_get (sel : List Nat) (k c : Nat) (h : sel[k]? = some c) :
    (expected_batch sel)[k]? = some (some (expected_entry k c)) := by
  have hk : k < sel.length := by
    by_contra hge
    rw [List.getElem?_eq_none (by omega)] at h
    cases h
  unfold expected_batch
  rw [List.getElem?_map, List.getElem?_range hk, Option.map_some', h, Option.map_some']

/-- The effect of `max78m6610_lmu_update_scan_mode` on a state of the declared sizes: it
returns 0, the message holds one transfer per selected id, in ascending id order, and the
batch is the expected one. -/
theorem update_scan_mode_batch (st0 : max78m6610_lmu_state) (hs : state_sized st0)
    (mask : Nat) :
    ∃ st1, max78m6610_lmu_update_scan_mode st0 mask = some (0, st1) ∧
      st1.ring_msg = (List.range (selected mask).length).map xfer_ref.ring ∧
      ring_batch st1 = expected_batch (selected mask) ∧
      ring_batch_len st1 = SPI_MSG_LEN * (selected mask).length ∧
      (∀ j c, (selected mask)[j]? = some c →
        st1.tx_buf[SPI_MSG_LEN * j]? = some (SPI_CB (channel_address c)) ∧
        st1.tx_buf[SPI_MSG_LEN * j + 1]? = some (SPI_TB_READ (channel_address c))) := by
  obtain ⟨l, hl, hk, htx, hmsg, hxl, htl, hrx, hsx, hsm, hent⟩ :=
    scan_inv_loop st0 hs mask MAX_CHAN_NUM (le_refl _)
  have hsel : selected mask = selected_below mask MAX_CHAN_NUM := rfl
  rw [← hsel] at hk hent
  rw [hk] at hmsg
  refine ⟨l.st, ?_, hmsg, ?_, ?_, ?_⟩
  · unfold max78m6610_lmu_update_scan_mode
    rw [hl]
    rfl
  · unfold ring_batch expected_batch
    rw [hmsg, List.map_map]
    apply List.map_congr_left
    intro j hj
    have hj2 : j < (selected mask).length := List.mem_range.mp hj
    have hc : (selected mask)[j]? = some ((selected mask)[j]) := List.getElem?_eq_getElem hj2
    obtain ⟨e1, e2, e3⟩ := hent j _ hc
    rw [hc]
    simp [batch_entry_of, xfer_of, e1, e2, e3, expected_entry]
  · unfold ring_batch_len
    rw [hmsg, List.filterMap_map]
    have hf : List.filterMap (xfer_of l.st ∘ xfer_ref.ring) (List.range (selected mask).length)
        = (List.range (selected mask).length).map
            (fun j => (⟨some (SPI_MSG_LEN * j), some (SPI_MSG_LEN * j), SPI_MSG_LEN, 1⟩ :
              spi_transfer)) := by
      rw [← List.filterMap_eq_map]
      apply List.filterMap_congr
      intro j hj
      have hj2 : j < (selected mask).length := List.mem_range.mp hj
      have hc : (selected mask)[j]? = some ((selected mask)[j]) := List.getElem?_eq_getElem hj2
      exact (hent j _ hc).1
    rw [hf, List.map_map]
    simp [Function.comp_def, Nat.mul_comm]
  · intro j c hj
    exact (hent j c hj).2

theorem popcount_zero : popcount 0 = 0 := by
  rw [popcount]
  rfl

theorem popcount_pos (m : Nat) (h : m ≠ 0) : popcount m = m % 2 + popcount (m / 2) := by
  rw [popcount, dif_neg h]

/-- The set bits below `n` of a mask below `2^n` are all its set bits. -/
theorem selected_below_length (n : Nat) :
    ∀ mask, mask < 2 ^ n → (selected_below mask n).length = popcount mask := by
  induction n with
  | zero =>
    intro mask h
    have : mask = 0 := by simpa using h
    subst this
    rw [popcount_zero]
    rfl
  | succ n ih =>
    intro mask h
    have hhalf : mask / 2 < 2 ^ n := by
      rw [pow_succ] at h
      omega
    have hrec := ih (mask / 2) hhalf
    unfold selected_below at hrec ⊢
    rw [← List.countP_eq_length_filter] at hrec ⊢
    rw [List.range_succ_eq_map, List.countP_cons, List.countP_map]
    have hfun : ((fun i => test_bit i mask) ∘ Nat.succ) = (fun i => test_bit i (mask / 2)) := by
      funext i
      simp [test_bit, Nat.testBit_succ]
    rw [hfun, hrec]
    by_cases h0 : mask = 0
    · subst h0
      simp [popcount_zero, test_bit]
    · rw [popcount_pos mask h0]
      have hm : mask % 2 = 0 ∨ mask % 2 = 1 := by omega
      rcases hm with h2 | h2 <;> simp [test_bit, Nat.testBit_zero, h2, Nat.add_comm]

theorem selected_pairwise (mask : Nat) : List.Pairwise (fun a b => a < b) (selected mask) :=
  List.Pairwise.filter _ (List.pairwise_lt_range _)

theorem mem_selected (mask i : Nat) :
    i ∈ selected mask ↔ i < MAX_CHAN_NUM ∧ mask.testBit i = true := by
  simp [selected, selected_below, test_bit]

theorem testBit_clear_bit_below (nr mask i : Nat) (hi : i < nr) :
    (clear_bit nr mask).testBit i = mask.testBit i := by
  unfold clear_bit
  by_cases h : mask.testBit nr = true
  · rw [if_pos h]
    have hge : 2 ^ nr ≤ mask := Nat.testBit_implies_ge h
    have e := Nat.testBit_two_pow_add_gt hi (mask - 2 ^ nr)
    rw [Nat.add_sub_cancel' hge] at e
    exact e.symm
  · rw [if_neg h]

theorem testBit_clear_bit_self (nr mask : Nat) : (clear_bit nr mask).testBit nr = false := by
  unfold clear_bit
  by_cases h : mask.testBit nr = true
  · rw [if_pos h]
    have hge : 2 ^ nr ≤ mask := Nat.testBit_implies_ge h
    have e := Nat.testBit_two_pow_add_eq (mask - 2 ^ nr) nr
    rw [Nat.add_sub_cancel' hge, h] at e
    simpa using e.symm
  · rw [if_neg h]
    simpa using h

theorem selected_bit20_set (mask : Nat) (h : test_bit 20 mask = true) :
    selected mask = selected_below mask 20 ++ [20] := by
  show selected_below mask (20 + 1) = _
  rw [selected_below_succ, if_pos h]

theorem selected_bit20_cleared (mask : Nat) :
    selected (clear_bit 20 mask) = selected_below mask 20 := by
  show selected_below (clear_bit 20 mask) (20 + 1) = _
  have h : ¬ (test_bit 20 (clear_bit 20 mask) = true) := by
    simp [test_bit, testBit_clear_bit_self]
  rw [selected_below_succ, if_neg h, List.append_nil]
  unfold selected_below
  apply List.filter_congr
  intro i hi
  exact testBit_clear_bit_below 20 mask i (List.mem_range.mp hi)

theorem expected_batch_entries (sel : List Nat) :
    ∀ e ∈ expected_batch sel, ∃ b, e = some b ∧ b.len = SPI_MSG_LEN := by
  intro e he
  unfold expected_batch at he
  obtain ⟨j, hj, rfl⟩ := List.mem_map.mp he
  rw [List.getElem?_eq_getElem (List.mem_range.mp hj)]
  exact ⟨_, rfl, rfl⟩

theorem expected_batch_length (sel : List Nat) : (expected_batch sel).length = sel.length := by
  simp [expected_batch]

/-! ### Buffers and transport -/

theorem memcpy_spec (dst : List Nat) (p : Nat) (src : List Nat)
    (h : p + src.length ≤ dst.length) :
    ∃ d, memcpy dst p src = some d ∧ d.length = dst.length ∧
      ∀ q, d[q]? = if q < p then dst[q]? else if q < p + src.length then src[q - p]?
        else dst[q]? := by
  refine ⟨dst.take p ++ src ++ dst.drop (p + src.length), ?_, ?_, ?_⟩
  · unfold memcpy
    rw [if_pos h]
  · simp only [List.length_append, List.length_take, List.length_drop]
    omega
  · intro q
    have hmin : min p dst.length = p := by omega
    rw [List.append_assoc, List.getElem?_append, List.length_take, hmin,
      List.getElem?_append, List.getElem?_take, List.getElem?_drop]
    by_cases h1 : q < p
    · simp only [h1, if_true]
    · simp only [h1, if_false]
      by_cases h2 : q < p + src.length
      · have h3 : q - p < src.length := by omega
        simp only [h2, h3, if_true]
      · have h3 : ¬ (q - p < src.length) := by omega
        simp only [h2, h3, if_false]
        congr 1
        omega

theorem load_u32_congr (a b : List Nat) (p : Nat)
    (h : ∀ q, p ≤ q → q ≤ p + 3 → a[q]? = b[q]?) : load_u32 a p = load_u32 b p := by
  unfold load_u32
  rw [h p (by omega) (by omega), h (p + 1) (by omega) (by omega),
    h (p + 2) (by omega) (by omega), h (p + 3) (by omega) (by omega)]

theorem store_u32_spec (buf : List Nat) (p v : Nat) (hp : p + 3 < buf.length) :
    ∃ b2, store_u32 buf p v = some b2 ∧ b2.length = buf.length ∧
      (∀ q, q < p ∨ p + 3 < q → b2[q]? = buf[q]?) ∧
      (v < 2 ^ 32 → load_u32 b2 p = some v) := by
  refine ⟨(((buf.set p (v % 256)).set (p + 1) (v / 2 ^ 8 % 256)).set (p + 2)
      (v / 2 ^ 16 % 256)).set (p + 3) (v / 2 ^ 24 % 256), ?_, ?_, ?_, ?_⟩
  · unfold store_u32
    rw [if_pos hp]
  · simp only [List.length_set]
  · intro q hq
    rw [List.getElem?_set_ne (by omega), List.getElem?_set_ne (by omega),
      List.getElem?_set_ne (by omega), List.getElem?_set_ne (by omega)]
  · intro hv
    have e0 : ((((buf.set p (v % 256)).set (p + 1) (v / 2 ^ 8 % 256)).set (p + 2)
        (v / 2 ^ 16 % 256)).set (p + 3) (v / 2 ^ 24 % 256))[p]? = some (v % 256) := by
      rw [List.getElem?_set_ne (by omega), List.getElem?_set_ne (by omega),
        List.getElem?_set_ne (by omega), List.getElem?_set_self (by omega)]
    have e1 : ((((buf.set p (v % 256)).set (p + 1) (v / 2 ^ 8 % 256)).set (p + 2)
        (v / 2 ^ 16 % 256)).set (p + 3) (v / 2 ^ 24 % 256))[p + 1]?
          = some (v / 2 ^ 8 % 256) := by
      rw [List.getElem?_set_ne (by omega), List.getElem?_set_ne (by omega),
        List.getElem?_set_self (by simp only [List.length_set]; omega)]
    have e2 : ((((buf.set p (v % 256)).set (p + 1) (v / 2 ^ 8 % 256)).set (p + 2)
        (v / 2 ^ 16 % 256)).set (p + 3) (v / 2 ^ 24 % 256))[p + 2]?
          = some (v / 2 ^ 16 % 256) := by
      rw [List.getElem?_set_ne (by omega),
        List.getElem?_set_self (by simp only [List.length_set]; omega)]
    have e3 : ((((buf.set p (v % 256)).set (p + 1) (v / 2 ^ 8 % 256)).set (p + 2)
        (v / 2 ^ 16 % 256)).set (p + 3) (v / 2 ^ 24 % 256))[p + 3]?
          = some (v / 2 ^ 24 % 256) := by
      rw [List.getElem?_set_self (by simp only [List.length_set]; omega)]
    unfold load_u32
    rw [e0, e1, e2, e3]
    simp only [Option.bind_eq_bind, Option.some_bind, Option.pure_def, Option.some.injEq]
    omega

/-- The decode at a word inside the buffer returns, keeps the size of the buffer, changes
no byte outside the word, and its sample is the signed reading of the last three bytes of
the word. -/
theorem decode_at_spec (buf : List Nat) (p : Nat) (hp : p + 3 < buf.length) :
    ∃ v b2, decode_at buf p = some (v, b2) ∧ b2.length = buf.length ∧
      (∀ q, q < p ∨ p + 3 < q → b2[q]? = buf[q]?) ∧
      (∀ c0 c1 c2 c3, buf[p]? = some c0 → buf[p + 1]? = some c1 → buf[p + 2]? = some c2 →
        buf[p + 3]? = some c3 → c0 ≤ 255 → c1 ≤ 255 → c2 ≤ 255 → c3 ≤ 255 →
        v = signed24 (c1 * 2 ^ 16 + c2 * 2 ^ 8 + c3)) := by
  obtain ⟨a0, e0⟩ : ∃ x, buf[p]? = some x := ⟨_, List.getElem?_eq_getElem (by omega)⟩
  obtain ⟨a1, e1⟩ : ∃ x, buf[p + 1]? = some x := ⟨_, List.getElem?_eq_getElem (by omega)⟩
  obtain ⟨a2, e2⟩ : ∃ x, buf[p + 2]? = some x := ⟨_, List.getElem?_eq_getElem (by omega)⟩
  obtain ⟨a3, e3⟩ : ∃ x, buf[p + 3]? = some x := ⟨_, List.getElem?_eq_getElem (by omega)⟩
  have hl : load_u32 buf p = some (a0 + a1 * 2 ^ 8 + a2 * 2 ^ 16 + a3 * 2 ^ 24) := by
    unfold load_u32
    rw [e0, e1, e2, e3]
    rfl
  obtain ⟨b2, hst, hlen, hframe, -⟩ := store_u32_spec buf p
    (be32_to_cpu (a0 + a1 * 2 ^ 8 + a2 * 2 ^ 16 + a3 * 2 ^ 24) &&& DATA_BIT_MASK) hp
  have hd : decode_at buf p = some (sign_extend32
      (be32_to_cpu (a0 + a1 * 2 ^ 8 + a2 * 2 ^ 16 + a3 * 2 ^ 24) &&& DATA_BIT_MASK)
      SIGN_BIT_NUM, b2) := by
    unfold decode_at
    rw [hl]
    simp only [Option.bind_eq_bind, Option.some_bind, hst, Option.pure_def]
  refine ⟨_, b2, hd, hlen, hframe, ?_⟩
  intro c0 c1 c2 c3 f0 f1 f2 f3 h0 h1 h2 h3
  obtain ⟨b3, hv, -⟩ := decode_at_value buf p c0 c1 c2 c3 f0 f1 f2 f3 h0 h1 h2 h3
  rw [hd] at hv
  exact (Prod.mk.inj (Option.some.inj hv)).1

theorem to_u32_lt (x : Int) : to_u32 x < 2 ^ 32 := by
  unfold to_u32
  omega

/-- The transaction of the default message: five request bytes from `tx_buf[0]`, and on
success the first five response bytes stored at `rx_buf[0]`. -/
theorem spi_sync_single (bus : spi_bus) (env : collaborators) (st : max78m6610_lmu_state)
    (hp : single_message_ready st) (htx : 5 ≤ st.tx_buf.length) (hrx : 5 ≤ st.rx_buf.length) :
    ∃ rx, memcpy st.rx_buf 0 ((bus (st.tx_buf.take 5)).2.take 5) = some rx ∧
      spi_sync bus env st st.scan_single_msg
        = some (if (bus (st.tx_buf.take 5)).1 ≠ 0 then
            ((bus (st.tx_buf.take 5)).1, st,
              { env with spi_log := env.spi_log ++ [st.tx_buf.take 5] })
          else
            (0, { st with rx_buf := rx },
              { env with spi_log := env.spi_log ++ [st.tx_buf.take 5] })) := by
  obtain ⟨h1, h2, h3, h4⟩ := hp
  have hL : SPI_MSG_LEN = 5 := rfl
  rw [hL] at h4
  obtain ⟨rx, hrx1, -, -⟩ := memcpy_spec st.rx_buf 0 ((bus (st.tx_buf.take 5)).2.take 5)
    (by simp only [List.length_take]; omega)
  refine ⟨rx, hrx1, ?_⟩
  have hres : resolve_msg st st.scan_single_msg = some [st.scan_single_xfer] := by
    rw [h1]
    rfl
  have hg : gather_tx st.tx_buf [st.scan_single_xfer] = some (st.tx_buf.take 5) := by
    simp [gather_tx, h2, h4, htx]
  have hsc : ∀ resp, scatter_rx st.rx_buf resp [st.scan_single_xfer]
      = memcpy st.rx_buf 0 (resp.take 5) := by
    intro resp
    simp only [scatter_rx, h3, h4, Option.bind_eq_bind, Option.some_bind]
    cases memcpy st.rx_buf 0 (resp.take 5) <;> rfl
  unfold spi_sync
  rw [hres]
  simp only [Option.bind_eq_bind, Option.some_bind, hg, hsc, hrx1, Option.pure_def]
  split <;> rfl

/-- A successful direct scan: one transaction, the sample is decoded from the last three
bytes of the five response bytes. -/
theorem scan_direct_success (bus : spi_bus) (env : collaborators) (st : max78m6610_lmu_state)
    (addr r0 r1 r2 r3 r4 : Nat) (hs : state_sized st) (hp : single_message_ready st)
    (h1 : r1 ≤ 255) (h2 : r2 ≤ 255) (h3 : r3 ≤ 255) (h4 : r4 ≤ 255)
    (hbus : bus (scan_direct_request st addr) = (0, [r0, r1, r2, r3, r4])) :
    ∃ st2, max78m6610_lmu_scan_direct bus env st addr
      = some (signed24 (r2 * 2 ^ 16 + r3 * 2 ^ 8 + r4), st2,
          { env with spi_log := env.spi_log ++ [scan_direct_request st addr] }) ∧
      st2.scan_single_msg = st.scan_single_msg ∧ st2.scan_single_xfer = st.scan_single_xfer ∧
      st2.ring_msg = st.ring_msg ∧ st2.ring_xfer = st.ring_xfer := by
  obtain ⟨hs1, hs2, hs3⟩ := hs
  have hM : MAX_CHAN_NUM = 21 := rfl
  have hL : SPI_MSG_LEN = 5 := rfl
  rw [hL, hM] at hs2 hs3
  have hw1 : write_u8 st.tx_buf 0 (SPI_CB addr) = some (st.tx_buf.set 0 (SPI_CB addr % 256)) := by
    unfold write_u8
    rw [if_pos (by omega)]
  have hw2 : write_u8 (st.tx_buf.set 0 (SPI_CB addr % 256)) 1 (SPI_TB_READ addr)
      = some (scan_direct_tx st addr) := by
    unfold write_u8
    rw [if_pos (by rw [List.length_set]; omega)]
    rfl
  have htl : (scan_direct_tx st addr).length = 105 := by
    unfold scan_direct_tx
    simp only [List.length_set]
    exact hs2
  have hp2 : single_message_ready { st with tx_buf := scan_direct_tx st addr } := hp
  obtain ⟨rx, hrx, hsync⟩ := spi_sync_single bus env
    { st with tx_buf := scan_direct_tx st addr } hp2
    (by show 5 ≤ (scan_direct_tx st addr).length; omega)
    (by show 5 ≤ st.rx_buf.length; omega)
  have hreq : (scan_direct_tx st addr).take 5 = scan_direct_request st addr := rfl
  simp only [hreq, hbus] at hrx hsync
  obtain ⟨d, hd, hdl, hdi⟩ := memcpy_spec st.rx_buf 0 [r0, r1, r2, r3, r4]
    (by simp only [List.length_cons, List.length_nil]; omega)
  have hrd : rx = d := by
    have : List.take 5 [r0, r1, r2, r3, r4] = [r0, r1, r2, r3, r4] := rfl
    rw [this] at hrx
    exact Option.some.inj (hrx.symm.trans hd)
  subst hrd
  have e1 : rx[1]? = some r1 := by rw [hdi 1]; rfl
  have e2 : rx[1 + 1]? = some r2 := by rw [hdi (1 + 1)]; rfl
  have e3 : rx[1 + 2]? = some r3 := by rw [hdi (1 + 2)]; rfl
  have e4 : rx[1 + 3]? = some r4 := by rw [hdi (1 + 3)]; rfl
  obtain ⟨buf2, hdec, -⟩ := decode_at_value rx 1 r1 r2 r3 r4 e1 e2 e3 e4 h1 h2 h3 h4
  refine ⟨{ st with tx_buf := scan_direct_tx st addr, rx_buf := buf2 },
    ?_, rfl, rfl, rfl, rfl⟩
  unfold max78m6610_lmu_scan_direct
  simp only [hw1, hw2, Option.bind_eq_bind, Option.some_bind, hsync]
  simp [RX_OFFSET, hdec]

/-! ### Triggered scan -/

theorem update_scan_mode_layout (st0 : max78m6610_lmu_state) (hs : state_sized st0)
    (mask : Nat) (st1 : max78m6610_lmu_state)
    (hu : max78m6610_lmu_update_scan_mode st0 mask = some (0, st1)) :
    st1.ring_msg = (List.range (bitmap_weight mask MAX_CHAN_NUM)).map xfer_ref.ring ∧
    (∀ j, j < bitmap_weight mask MAX_CHAN_NUM → st1.ring_xfer[j]? = some (ring_transfer j)) ∧
    st1.tx_buf.length = 105 ∧ st1.rx_buf.length = 113 ∧
    bitmap_weight mask MAX_CHAN_NUM ≤ 21 ∧
    st1.scan_single_xfer = st0.scan_single_xfer ∧
    st1.scan_single_msg = st0.scan_single_msg := by
  obtain ⟨l, hl, hk, -, hmsg, -, htl, hrx, hsx, hsm, hent⟩ :=
    scan_inv_loop st0 hs mask MAX_CHAN_NUM (le_refl _)
  have hst : l.st = st1 := by
    unfold max78m6610_lmu_update_scan_mode at hu
    rw [hl] at hu
    exact (Prod.mk.inj (Option.some.inj hu)).2
  subst hst
  have hbw : bitmap_weight mask MAX_CHAN_NUM = (selected_below mask MAX_CHAN_NUM).length := rfl
  obtain ⟨-, hs2, hs3⟩ := hs
  rw [hbw, ← hk]
  refine ⟨hmsg, ?_, ?_, ?_, ?_, hsx, hsm⟩
  · intro j hj
    obtain ⟨c, hc⟩ : ∃ c, (selected_below mask MAX_CHAN_NUM)[j]? = some c :=
      ⟨_, List.getElem?_eq_getElem (by omega)⟩
    exact (hent j c hc).1
  · rw [htl, hs2]
    rfl
  · rw [hrx, hs3]
    rfl
  · rw [hk]
    exact selected_below_length_le mask MAX_CHAN_NUM

/-- The function `max78m6610_lmu_update_scan_mode` makes the ring message ready for its
mask. -/
theorem update_scan_mode_ring_ready (st0 : max78m6610_lmu_state) (hs : state_sized st0)
    (mask : Nat) (st1 : max78m6610_lmu_state)
    (hu : max78m6610_lmu_update_scan_mode st0 mask = some (0, st1)) : ring_ready mask st1 := by
  obtain ⟨hmsg, hx, htl, hrl, -, -, -⟩ := update_scan_mode_layout st0 hs mask st1 hu
  exact ⟨hmsg, hx, htl, hrl⟩

theorem bitmap_weight_le (mask n : Nat) : bitmap_weight mask n ≤ n :=
  selected_below_length_le mask n

theorem resolve_ring (st : max78m6610_lmu_state) (n : Nat) :
    ∀ a, (∀ j, a ≤ j → j < a + n → st.ring_xfer[j]? = some (ring_transfer j)) →
      resolve_msg st ((List.range' a n).map xfer_ref.ring)
        = some ((List.range' a n).map ring_transfer) := by
  induction n with
  | zero => intro a _; rfl
  | succ n ih =>
    intro a h
    have h1 := ih (a + 1) (fun j hj1 hj2 => h j (by omega) (by omega))
    have h0 : xfer_of st (xfer_ref.ring a) = some (ring_transfer a) := h a (le_refl _) (by omega)
    rw [List.range'_succ, List.map_cons, List.map_cons]
    simp only [resolve_msg, h0, h1, Option.bind_eq_bind, Option.some_bind, Option.pure_def]

theorem gather_ring (tx_buf : List Nat) (n : Nat) :
    ∀ a, 5 * (a + n) ≤ tx_buf.length →
      gather_tx tx_buf ((List.range' a n).map ring_transfer)
        = some ((tx_buf.drop (5 * a)).take (5 * n)) := by
  induction n with
  | zero => intro a _; rfl
  | succ n ih =>
    intro a h
    have h1 := ih (a + 1) (by omega)
    have hlen : 5 * a + 5 ≤ tx_buf.length := by omega
    have e : 5 * (n + 1) = 5 + 5 * n := by omega
    rw [List.range'_succ, List.map_cons, e, List.take_add, List.drop_drop]
    simp only [gather_tx, ring_transfer, h1, Option.bind_eq_bind, Option.some_bind,
      Option.pure_def, show SPI_MSG_LEN = 5 from rfl, if_pos hlen]
    rfl

theorem scatter_ring (n : Nat) :
    ∀ (a : Nat) (rx resp : List Nat), 5 * (a + n) ≤ rx.length →
      ∃ rx2, scatter_rx rx resp ((List.range' a n).map ring_transfer) = some rx2 ∧
        rx2.length = rx.length ∧
        (∀ q, q < 5 * a → rx2[q]? = rx[q]?) ∧
        (5 * n ≤ resp.length → ∀ q, 5 * a ≤ q → q < 5 * (a + n) →
          rx2[q]? = resp[q - 5 * a]?) := by
  induction n with
  | zero =>
    intro a rx resp _
    exact ⟨rx, rfl, rfl, fun _ _ => rfl, fun _ q h1 h2 => by omega⟩
  | succ n ih =>
    intro a rx resp h
    have hl5 : (resp.take 5).length ≤ 5 := by
      rw [List.length_take]
      omega
    obtain ⟨d, hd, hdl, hdi⟩ := memcpy_spec rx (5 * a) (resp.take 5) (by omega)
    obtain ⟨rx2, hsc, hlen, hfr, hval⟩ := ih (a + 1) d (resp.drop 5) (by omega)
    refine ⟨rx2, ?_, by omega, ?_, ?_⟩
    · rw [List.range'_succ, List.map_cons]
      simp only [scatter_rx, ring_transfer, Option.bind_eq_bind, Option.some_bind,
        show SPI_MSG_LEN = 5 from rfl, hd]
      exact hsc
    · intro q hq
      rw [hfr q (by omega), hdi q, if_pos hq]
    · intro hresp q hq1 hq2
      have hl5e : (resp.take 5).length = 5 := by
        rw [List.length_take]
        omega
      by_cases hq : q < 5 * a + 5
      · rw [hfr q (by omega), hdi q, if_neg (by omega), if_pos (by omega),
          List.getElem?_take_of_lt (by omega)]
      · rw [hval (by rw [List.length_drop]; omega) q (by omega) (by omega), List.getElem?_drop]
        congr 1
        omega

theorem trigger_decode_loop_succ (l : trigger_locals) (n : Nat) :
    trigger_decode_loop l (n + 1)
      = (trigger_decode_loop l n).bind (fun l2 => trigger_decode_body l2 n) := by
  unfold trigger_decode_loop
  rw [List.range_succ, List.foldlM_append]
  simp

/-- The decode loop of the trigger handler: it runs to its end, keeps the sizes of the two
buffers, leaves the response slots it has not reached and the bytes of `scan_buf` behind the
decoded words as they were, and word `k` of `scan_buf` is the sample of slot `k`. -/
theorem trigger_decode_loop_spec (rx0 sb0 : List Nat) (n : Nat) (hrx : 5 * n ≤ rx0.length)
    (hsb : 4 * n ≤ sb0.length) :
    ∃ l, trigger_decode_loop { rx_buf := rx0, scan_buf := sb0 } n = some l ∧
      l.rx_buf.length = rx0.length ∧ l.scan_buf.length = sb0.length ∧
      (∀ q, 5 * n ≤ q → l.rx_buf[q]? = rx0[q]?) ∧
      (∀ q, 4 * n ≤ q → l.scan_buf[q]? = sb0[q]?) ∧
      (∀ k c1 c2 c3 c4, k < n → rx0[5 * k + 1]? = some c1 → rx0[5 * k + 2]? = some c2 →
        rx0[5 * k + 3]? = some c3 → rx0[5 * k + 4]? = some c4 →
        c1 ≤ 255 → c2 ≤ 255 → c3 ≤ 255 → c4 ≤ 255 →
        load_u32 l.scan_buf (4 * k)
          = some (to_u32 (signed24 (c2 * 2 ^ 16 + c3 * 2 ^ 8 + c4)))) := by
  induction n with
  | zero =>
    exact ⟨_, rfl, rfl, rfl, fun _ _ => rfl, fun _ _ => rfl,
      fun k _ _ _ _ hk => absurd hk (Nat.not_lt_zero k)⟩
  | succ n ih =>
    obtain ⟨l, hl, hlr, hls, hfr, hfs, hval⟩ := ih (by omega) (by omega)
    obtain ⟨v, b2, hdec, hb2l, hb2f, hb2v⟩ := decode_at_spec l.rx_buf (5 * n + 1) (by omega)
    obtain ⟨s2, hst, hs2l, hs2f, hs2v⟩ := store_u32_spec l.scan_buf (4 * n) (to_u32 v)
      (by omega)
    refine ⟨{ rx_buf := b2, scan_buf := s2 }, ?_, by show b2.length = _; omega,
      by show s2.length = _; omega, ?_, ?_, ?_⟩
    · rw [trigger_decode_loop_succ, hl]
      show trigger_decode_body l n = _
      unfold trigger_decode_body
      have e : n * SPI_MSG_LEN + RX_OFFSET = 5 * n + 1 := by
        show n * 5 + 1 = 5 * n + 1
        omega
      simp only [e, hdec, Option.bind_eq_bind, Option.some_bind, hst, Option.pure_def]
    · intro q hq
      show b2[q]? = _
      rw [hb2f q (by omega), hfr q (by omega)]
    · intro q hq
      show s2[q]? = _
      rw [hs2f q (by omega), hfs q (by omega)]
    · intro k c1 c2 c3 c4 hk e1 e2 e3 e4 h1 h2 h3 h4
      show load_u32 s2 (4 * k) = _
      by_cases hkn : k < n
      · rw [load_u32_congr s2 l.scan_buf (4 * k) (fun q hq1 hq2 => hs2f q (by omega))]
        exact hval k c1 c2 c3 c4 hkn e1 e2 e3 e4 h1 h2 h3 h4
      · have hke : k = n := by omega
        subst hke
        rw [hs2v (to_u32_lt v)]
        have f1 : l.rx_buf[5 * k + 1]? = some c1 := by rw [hfr _ (by omega)]; exact e1
        have f2 : l.rx_buf[5 * k + 1 + 1]? = some c2 := by rw [hfr _ (by omega)]; exact e2
        have f3 : l.rx_buf[5 * k + 1 + 2]? = some c3 := by rw [hfr _ (by omega)]; exact e3
        have f4 : l.rx_buf[5 * k + 1 + 3]? = some c4 := by rw [hfr _ (by omega)]; exact e4
        rw [hb2v c1 c2 c3 c4 f1 f2 f3 f4 h1 h2 h3 h4]

/-- The transaction of the ring message built by `max78m6610_lmu_update_scan_mode`: its request
is the first `5 * n` bytes of `tx_buf`, and on success the response bytes land at the same
offsets of `rx_buf`. -/
theorem ring_sync (bus : spi_bus) (env : collaborators) (mask : Nat)
    (st1 : max78m6610_lmu_state) (hr : ring_ready mask st1) (n : Nat)
    (hn : n = bitmap_weight mask MAX_CHAN_NUM) :
    ∃ rx2, spi_sync bus env st1 st1.ring_msg
        = some (if (bus (st1.tx_buf.take (5 * n))).1 ≠ 0 then
            ((bus (st1.tx_buf.take (5 * n))).1, st1,
              { env with spi_log := env.spi_log ++ [st1.tx_buf.take (5 * n)] })
          else
            (0, { st1 with rx_buf := rx2 },
              { env with spi_log := env.spi_log ++ [st1.tx_buf.take (5 * n)] })) ∧
      rx2.length = 113 ∧
      (5 * n ≤ (bus (st1.tx_buf.take (5 * n))).2.length → ∀ q, q < 5 * n →
        rx2[q]? = (bus (st1.tx_buf.take (5 * n))).2[q]?) := by
  obtain ⟨hmsg, hx, htl, hrl⟩ := hr
  have hle : bitmap_weight mask MAX_CHAN_NUM ≤ 21 := bitmap_weight_le mask MAX_CHAN_NUM
  have htl2 : st1.tx_buf.length = 105 := htl
  have hrl2 : st1.rx_buf.length = 113 := hrl
  rw [← hn] at hmsg hx hle
  have hres : resolve_msg st1 st1.ring_msg = some ((List.range' 0 n).map ring_transfer) := by
    rw [hmsg, List.range_eq_range']
    exact resolve_ring st1 n 0 (fun j _ hj => hx j (by omega))
  have hg : gather_tx st1.tx_buf ((List.range' 0 n).map ring_transfer)
      = some (st1.tx_buf.take (5 * n)) := by
    rw [gather_ring st1.tx_buf n 0 (by omega)]
    rfl
  obtain ⟨rx2, hsc, hlen, -, hval⟩ := scatter_ring n 0 st1.rx_buf
    (bus (st1.tx_buf.take (5 * n))).2 (by omega)
  refine ⟨rx2, ?_, by omega, ?_⟩
  · unfold spi_sync
    rw [hres]
    simp only [Option.bind_eq_bind, Option.some_bind, hg, hsc, Option.pure_def]
    split <;> rfl
  · intro hresp q hq
    rw [hval hresp q (by omega) (by omega)]
    rfl

theorem le_bytes_length (n v : Nat) : (le_bytes n v).length = n := by
  simp [le_bytes]

/-- A trigger cycle whose transaction fails: one acknowledgement, no row. -/
theorem trigger_handler_failure (bus : spi_bus) (time_now : Int) (junk : Nat → Nat)
    (env : collaborators) (mask : Nat) (indio_dev : iio_dev)
    (hr : ring_ready mask indio_dev.priv) (n : Nat)
    (hn : n = bitmap_weight mask MAX_CHAN_NUM)
    (hfail : (bus (indio_dev.priv.tx_buf.take (5 * n))).1 ≠ 0) :
    max78m6610_lmu_trigger_handler bus time_now junk env indio_dev
      = some (IRQ_HANDLED, indio_dev, iio_trigger_notify_done
          { env with spi_log := env.spi_log ++ [indio_dev.priv.tx_buf.take (5 * n)] }) := by
  obtain ⟨rx2, hsync, -, -⟩ := ring_sync bus env mask indio_dev.priv hr n hn
  rw [if_pos hfail] at hsync
  unfold max78m6610_lmu_trigger_handler
  simp only [hsync, Option.bind_eq_bind, Option.some_bind, hfail, ne_eq, not_false_eq_true,
    if_true, Option.pure_def]

/-- A trigger cycle whose transaction succeeds: one acknowledgement, one row, taken from a
`scan_buf` that holds the timestamp bytes (when enabled and clear of the samples) and the
decoded samples. -/
theorem trigger_handler_success (bus : spi_bus) (time_now : Int) (junk : Nat → Nat)
    (env : collaborators) (mask : Nat) (indio_dev : iio_dev)
    (hr : ring_ready mask indio_dev.priv) (n : Nat)
    (hmask : indio_dev.active_scan_mask = mask) (hml : indio_dev.masklength = MAX_CHAN_NUM)
    (hn : n = bitmap_weight mask MAX_CHAN_NUM)
    (hts : indio_dev.scan_timestamp = true →
      8 ≤ indio_dev.scan_bytes ∧ indio_dev.scan_bytes ≤ SCAN_BUF_BYTES)
    (hok : (bus (indio_dev.priv.tx_buf.take (5 * n))).1 = 0) :
    ∃ dev2 sb, max78m6610_lmu_trigger_handler bus time_now junk env indio_dev
        = some (IRQ_HANDLED, dev2, iio_trigger_notify_done (iio_push_to_buffers
            { env with spi_log := env.spi_log ++ [indio_dev.priv.tx_buf.take (5 * n)] }
            indio_dev sb)) ∧
      ring_ready mask dev2.priv ∧
      sb.length = SCAN_BUF_BYTES ∧
      (indio_dev.scan_timestamp = true → ∀ q, 4 * n ≤ q → indio_dev.scan_bytes - 8 ≤ q →
        q < indio_dev.scan_bytes →
        sb[q]? = (le_bytes 8 (to_u64 (to_s64 time_now)))[q - (indio_dev.scan_bytes - 8)]?) ∧
      (5 * n ≤ (bus (indio_dev.priv.tx_buf.take (5 * n))).2.length →
        ∀ k c1 c2 c3 c4, k < n →
        (bus (indio_dev.priv.tx_buf.take (5 * n))).2[5 * k + 1]? = some c1 →
        (bus (indio_dev.priv.tx_buf.take (5 * n))).2[5 * k + 2]? = some c2 →
        (bus (indio_dev.priv.tx_buf.take (5 * n))).2[5 * k + 3]? = some c3 →
        (bus (indio_dev.priv.tx_buf.take (5 * n))).2[5 * k + 4]? = some c4 →
        c1 ≤ 255 → c2 ≤ 255 → c3 ≤ 255 → c4 ≤ 255 →
        load_u32 sb (4 * k) = some (to_u32 (signed24 (c2 * 2 ^ 16 + c3 * 2 ^ 8 + c4)))) := by
  obtain ⟨rx2, hsync, hrl, hrv⟩ := ring_sync bus env mask indio_dev.priv hr n hn
  have hle : bitmap_weight mask MAX_CHAN_NUM ≤ 21 := bitmap_weight_le mask MAX_CHAN_NUM
  rw [← hn] at hle
  rw [if_neg (by rw [hok]; decide)] at hsync
  have hSB : SCAN_BUF_BYTES = 92 := rfl
  have hsb0 : ((List.range SCAN_BUF_BYTES).map (fun i => junk i % 256)).length = 92 := by
    simp [hSB]
  have hstamp : ∃ sb1,
      trigger_stamp indio_dev time_now ((List.range SCAN_BUF_BYTES).map (fun i => junk i % 256))
        = some sb1 ∧
      sb1.length = 92 ∧
      (indio_dev.scan_timestamp = true → ∀ q, indio_dev.scan_bytes - 8 ≤ q →
        q < indio_dev.scan_bytes →
        sb1[q]? = (le_bytes 8 (to_u64 (to_s64 time_now)))[q - (indio_dev.scan_bytes - 8)]?) := by
    unfold trigger_stamp
    by_cases ht : indio_dev.scan_timestamp = true
    · obtain ⟨h8, h92⟩ := hts ht
      rw [hSB] at h92
      obtain ⟨d, hd, hdl, hdi⟩ := memcpy_spec
        ((List.range SCAN_BUF_BYTES).map (fun i => junk i % 256))
        (indio_dev.scan_bytes - 8) (le_bytes 8 (to_u64 (to_s64 time_now)))
        (by rw [le_bytes_length, hsb0]; omega)
      refine ⟨d, ?_, by omega, ?_⟩
      · rw [if_pos ht]
        simp only [if_pos h8, hd]
      · intro _ q hq1 hq2
        rw [hdi q, if_neg (by omega), if_pos (by rw [le_bytes_length]; omega)]
    · exact ⟨_, by rw [if_neg ht], hsb0, fun h => absurd h ht⟩
  obtain ⟨sb1, hsb1, hsb1l, hsb1v⟩ := hstamp
  obtain ⟨l, hloop, hlrl, hlsl, -, hlsf, hlv⟩ := trigger_decode_loop_spec rx2 sb1 n
    (by omega) (by omega)
  refine ⟨{ indio_dev with priv := { indio_dev.priv with rx_buf := l.rx_buf } }, l.scan_buf,
    ?_, ⟨hr.1, hr.2.1, hr.2.2.1, ?_⟩, by omega, ?_, ?_⟩
  · unfold max78m6610_lmu_trigger_handler
    have hcount : bitmap_weight indio_dev.active_scan_mask indio_dev.masklength = n := by
      rw [hmask, hml, hn]
    simp only [hsync, Option.bind_eq_bind, Option.some_bind, ne_eq, not_true_eq_false,
      if_false, hsb1, hcount, hloop, Option.pure_def]
  · show l.rx_buf.length = SPI_MSG_LEN * MAX_CHAN_NUM + 8
    rw [hlrl, hrl]
    rfl
  · intro ht q hq0 hq1 hq2
    rw [hlsf q hq0, hsb1v ht q hq1 hq2]
  · intro hresp k c1 c2 c3 c4 hk e1 e2 e3 e4 h1 h2 h3 h4
    exact hlv k c1 c2 c3 c4 hk
      (by rw [hrv hresp _ (by omega)]; exact e1) (by rw [hrv hresp _ (by omega)]; exact e2)
      (by rw [hrv hresp _ (by omega)]; exact e3) (by rw [hrv hresp _ (by omega)]; exact e4)
      h1 h2 h3 h4

theorem to_u64_to_s64 (x : Int) : to_u64 (to_s64 x) = to_u64 x := by
  unfold to_u64 to_s64
  congr 1
  omega

theorem bitmap_weight_measurement (mask : Nat) (hm : mask < 2 ^ 20) :
    bitmap_weight mask MAX_CHAN_NUM = popcount mask ∧ popcount mask ≤ 20 := by
  constructor
  · exact selected_below_length MAX_CHAN_NUM mask
      (lt_trans hm (by decide : (2 : Nat) ^ 20 < 2 ^ MAX_CHAN_NUM))
  · rw [← selected_below_length 20 mask hm]
    exact selected_below_length_le mask 20

theorem find_phy_addr_from_spec (b : Int) (p : cln_plat_id_t) (l : List stmmac_cln_mac_data)
    (hnd : (l.map (fun e => (e.plat_id, e.bus_id))).Nodup) :
    (∀ e ∈ l, e.bus_id = b → e.plat_id = p → stmmac_find_phy_addr_from b p l = e.phy_addr) ∧
    ((∀ e ∈ l, ¬ (e.bus_id = b ∧ e.plat_id = p)) → stmmac_find_phy_addr_from b p l = -1) := by
  induction l with
  | nil => exact ⟨fun e he => absurd he (List.not_mem_nil e), fun _ => rfl⟩
  | cons x xs ih =>
    rw [List.map_cons, List.nodup_cons] at hnd
    obtain ⟨ih1, ih2⟩ := ih hnd.2
    constructor
    · intro e he hb hp
      by_cases hx : x.plat_id = p ∧ x.bus_id = b
      · have hfind : stmmac_find_phy_addr_from b p (x :: xs) = x.phy_addr := by
          show (if x.plat_id = p ∧ x.bus_id = b then x.phy_addr
            else stmmac_find_phy_addr_from b p xs) = x.phy_addr
          rw [if_pos hx]
        rw [hfind]
        rcases List.mem_cons.mp he with rfl | hmem
        · rfl
        · exfalso
          apply hnd.1
          have hk : (x.plat_id, x.bus_id) = (e.plat_id, e.bus_id) := by
            rw [hx.1, hx.2, hb, hp]
          rw [hk]
          exact List.mem_map_of_mem (fun e => (e.plat_id, e.bus_id)) hmem
      · have hfind : stmmac_find_phy_addr_from b p (x :: xs)
            = stmmac_find_phy_addr_from b p xs := by
          show (if x.plat_id = p ∧ x.bus_id = b then x.phy_addr
            else stmmac_find_phy_addr_from b p xs) = _
          rw [if_neg hx]
        rw [hfind]
        rcases List.mem_cons.mp he with rfl | hmem
        · exact absurd ⟨hp, hb⟩ hx
        · exact ih1 e hmem hb hp
    · intro hnone
      have hx : ¬ (x.plat_id = p ∧ x.bus_id = b) := fun h =>
        hnone x (List.mem_cons_self x xs) ⟨h.2, h.1⟩
      show (if x.plat_id = p ∧ x.bus_id = b then x.phy_addr
        else stmmac_find_phy_addr_from b p xs) = -1
      rw [if_neg hx]
      exact ih2 (fun e he => hnone e (List.mem_cons_of_mem x he))

theorem phy_data_keys_nodup : (phy_data.map (fun e => (e.plat_id, e.bus_id))).Nodup := by
  decide

theorem phy_data_values : ∀ e ∈ phy_data, e.phy_addr = -1 ∨ e.phy_addr = 1 ∨ e.phy_addr = 3 := by
  decide

/-! ### Exactness of the normaliser -/

/-- The negation `tmp = (tmp ^ SIGN_CONVERT) + 1` is exact on every signed 32-bit value. -/
theorem negate_exact (raw : Int) (h0 : -2 ^ 31 ≤ raw) (h1 : raw < 2 ^ 31) :
    to_s64 (((to_u64 raw ^^^ SIGN_CONVERT) + 1 : Nat) : Int) = -raw := by
  have hx := xor_SIGN_CONVERT (to_u64 raw) (to_u64_lt raw)
  have hu := to_u64_cast raw
  rw [Nat.cast_add, hx, hu]
  unfold to_s64
  omega

/-- The floor quotient `m * 10^9 / 2^fb` brackets the rational quotient. -/
theorem scaled_rational (m : Int) (fb : Nat) :
    ((m * 1000000000 / 2 ^ fb : Int) : ℚ) ≤ (m : ℚ) * 1000000000 / 2 ^ fb ∧
    (m : ℚ) * 1000000000 / 2 ^ fb < ((m * 1000000000 / 2 ^ fb : Int) : ℚ) + 1 := by
  have hp : (0 : Int) < 2 ^ fb := by positivity
  have hD : (0 : ℚ) < 2 ^ fb := by positivity
  have h1 : m * 1000000000 / 2 ^ fb * 2 ^ fb ≤ m * 1000000000 :=
    Int.ediv_mul_le _ (ne_of_gt hp)
  have h2 : m * 1000000000 < (m * 1000000000 / 2 ^ fb + 1) * 2 ^ fb :=
    Int.lt_ediv_add_one_mul_self _ hp
  have q1 : ((m * 1000000000 / 2 ^ fb : Int) : ℚ) * 2 ^ fb ≤ (m : ℚ) * 1000000000 := by
    exact_mod_cast h1
  have q2 : (m : ℚ) * 1000000000 < (((m * 1000000000 / 2 ^ fb : Int) : ℚ) + 1) * 2 ^ fb := by
    exact_mod_cast h2
  exact ⟨(le_div_iff₀ hD).mpr q1, (div_lt_iff₀ hD).mpr q2⟩

/-! ### Direct read on a state that holds a batch -/

/-- The two stores of `max78m6610_lmu_scan_direct` change bytes 0 and 1 of `tx_buf` and no
other byte. -/
theorem scan_direct_tx_spec (st : max78m6610_lmu_state) (addr : Nat)
    (htl : 2 ≤ st.tx_buf.length) :
    (scan_direct_tx st addr).length = st.tx_buf.length ∧
    (scan_direct_tx st addr)[0]? = some (SPI_CB addr % 256) ∧
    (scan_direct_tx st addr)[1]? = some (SPI_TB_READ addr % 256) ∧
    ∀ q, 2 ≤ q → (scan_direct_tx st addr)[q]? = st.tx_buf[q]? := by
  unfold scan_direct_tx
  refine ⟨by simp only [List.length_set], ?_, ?_, ?_⟩
  · rw [List.getElem?_set_ne (by omega), List.getElem?_set_self (by omega)]
  · rw [List.getElem?_set_self (by rw [List.length_set]; omega)]
  · intro q hq
    rw [List.getElem?_set_ne (by omega), List.getElem?_set_ne (by omega)]

/-- Whatever the transport answers, `max78m6610_lmu_scan_direct` on a probed state of the
declared sizes returns, after one transaction; it leaves `tx_buf` with its two request bytes
stored and does not touch the ring message. -/
theorem scan_direct_effect (bus : spi_bus) (env : collaborators) (st : max78m6610_lmu_state)
    (addr : Nat) (hp : single_message_ready st) (htx : st.tx_buf.length = 105)
    (hrx : st.rx_buf.length = 113) :
    ∃ ret st2, max78m6610_lmu_scan_direct bus env st addr
      = some (ret, st2, { env with spi_log := env.spi_log ++ [scan_direct_request st addr] }) ∧
      st2.tx_buf = scan_direct_tx st addr ∧ st2.rx_buf.length = 113 ∧
      st2.ring_msg = st.ring_msg ∧ st2.ring_xfer = st.ring_xfer ∧
      st2.scan_single_msg = st.scan_single_msg ∧
      st2.scan_single_xfer = st.scan_single_xfer := by
  have hw1 : write_u8 st.tx_buf 0 (SPI_CB addr) = some (st.tx_buf.set 0 (SPI_CB addr % 256)) := by
    unfold write_u8
    rw [if_pos (by omega)]
  have hw2 : write_u8 (st.tx_buf.set 0 (SPI_CB addr % 256)) 1 (SPI_TB_READ addr)
      = some (scan_direct_tx st addr) := by
    unfold write_u8
    rw [if_pos (by rw [List.length_set]; omega)]
    rfl
  have htl : (scan_direct_tx st addr).length = 105 := by
    rw [(scan_direct_tx_spec st addr (by omega)).1]
    exact htx
  have hp2 : single_message_ready { st with tx_buf := scan_direct_tx st addr } := hp
  obtain ⟨rx, hrx1, hsync⟩ := spi_sync_single bus env
    { st with tx_buf := scan_direct_tx st addr } hp2
    (by show 5 ≤ (scan_direct_tx st addr).length; omega)
    (by show 5 ≤ st.rx_buf.length; omega)
  have hreq : (scan_direct_tx st addr).take 5 = scan_direct_request st addr := rfl
  simp only [hreq] at hrx1 hsync
  obtain ⟨d, hd, hdl, -⟩ := memcpy_spec st.rx_buf 0
    ((bus (scan_direct_request st addr)).2.take 5)
    (by simp only [List.length_take]; omega)
  have hrd : rx = d := Option.some.inj (hrx1.symm.trans hd)
  subst hrd
  by_cases hst : (bus (scan_direct_request st addr)).1 = 0
  · obtain ⟨v, b2, hdec, hb2, -⟩ := decode_at_spec rx 1 (by omega)
    refine ⟨v, { st with tx_buf := scan_direct_tx st addr, rx_buf := b2 }, ?_, rfl,
      by show b2.length = 113; omega, rfl, rfl, rfl, rfl⟩
    unfold max78m6610_lmu_scan_direct
    simp only [hw1, hw2, Option.bind_eq_bind, Option.some_bind, hsync]
    simp [RX_OFFSET, hdec, hst]
  · refine ⟨- EIO, { st with tx_buf := scan_direct_tx st addr }, ?_, rfl, hrx, rfl, rfl, rfl,
      rfl⟩
    unfold max78m6610_lmu_scan_direct
    simp only [hw1, hw2, Option.bind_eq_bind, Option.some_bind, hsync]
    simp [hst]

/-- In a mode other than Triggered and with the mode lock free, the raw read is
`max78m6610_lmu_scan_direct` on the state of the locked device, followed by the unlock and
the normalisation. -/
theorem read_raw_direct (bus : spi_bus) (env : collaborators) (indio_dev : iio_dev)
    (chan : iio_chan_spec) (val val2 : Int)
    (hmode : indio_dev.currentmode ≠ INDIO_BUFFER_TRIGGERED) (hlock : indio_dev.mlock = false) :
    max78m6610_lmu_read_raw bus env indio_dev chan val val2 IIO_CHAN_INFO_RAW
      = (max78m6610_lmu_scan_direct bus env indio_dev.priv chan.address).map (fun r =>
          { ret := IIO_VAL_INT_PLUS_NANO,
            val := (ret_fraction_log2 r.1 (chan.scan_type.shift : Nat)).1,
            val2 := (ret_fraction_log2 r.1 (chan.scan_type.shift : Nat)).2,
            indio_dev := mutex_unlock { indio_dev with mlock := true, priv := r.2.1 },
            env := r.2.2 }) := by
  unfold max78m6610_lmu_read_raw mutex_lock
  simp only [if_true, hlock, Bool.false_eq_true, if_false, Option.bind_eq_bind,
    Option.some_bind, hmode, Option.pure_def]
  cases max78m6610_lmu_scan_direct bus env indio_dev.priv chan.address <;> rfl

/-- A state that differs from a ring-ready one in the bytes 0 and 1 of `tx_buf` only has
the same batch entries from the second on. -/
theorem ring_batch_tail (mask : Nat) (st1 st2 : max78m6610_lmu_state)
    (hr : ring_ready mask st1) (hmsg : st2.ring_msg = st1.ring_msg)
    (hx : st2.ring_xfer = st1.ring_xfer)
    (htx : ∀ q, 2 ≤ q → st2.tx_buf[q]? = st1.tx_buf[q]?) :
    ∀ k, 1 ≤ k → (ring_batch st2)[k]? = (ring_batch st1)[k]? := by
  intro k hk
  obtain ⟨h1, h2, -, -⟩ := hr
  unfold ring_batch
  rw [List.getElem?_map, List.getElem?_map, hmsg, h1, List.getElem?_map]
  by_cases hkn : k < bitmap_weight mask MAX_CHAN_NUM
  · rw [List.getElem?_range hkn]
    show some (batch_entry_of st2 (xfer_ref.ring k)) = some (batch_entry_of st1 (xfer_ref.ring k))
    unfold batch_entry_of xfer_of
    have hL : SPI_MSG_LEN = 5 := rfl
    have e1 := htx (SPI_MSG_LEN * k) (by rw [hL]; omega)
    have e2 := htx (SPI_MSG_LEN * k + 1) (by rw [hL]; omega)
    simp only [hx, h2 k hkn, ring_transfer, Option.bind_eq_bind, Option.some_bind, e1, e2]
  · rw [List.getElem?_eq_none (by rw [List.length_range]; omega)]
    rfl

/-- The first batch entry of a ring-ready state with a non-empty selection is made of the
bytes 0 and 1 of `tx_buf`. -/
theorem ring_batch_head (mask : Nat) (st1 st2 : max78m6610_lmu_state) (cb tb : Nat)
    (hr : ring_ready mask st1) (hne : 0 < bitmap_weight mask MAX_CHAN_NUM)
    (hmsg : st2.ring_msg = st1.ring_msg) (hx : st2.ring_xfer = st1.ring_xfer)
    (h0 : st2.tx_buf[0]? = some cb) (h1 : st2.tx_buf[1]? = some tb) :
    (ring_batch st2)[0]? = some (some
      { controlByte := cb, transactionByte := tb, tx_off := 0, rx_off := 0, len := 5 }) := by
  obtain ⟨g1, g2, -, -⟩ := hr
  unfold ring_batch
  rw [List.getElem?_map, hmsg, g1, List.getElem?_map, List.getElem?_range hne]
  show some (batch_entry_of st2 (xfer_ref.ring 0)) = _
  unfold batch_entry_of xfer_of
  simp only [hx, g2 0 hne, ring_transfer, Option.bind_eq_bind, Option.some_bind,
    show SPI_MSG_LEN * 0 = 0 from rfl, show (0 : Nat) + 1 = 1 from rfl, h0, h1,
    Option.pure_def, show SPI_MSG_LEN = 5 from rfl]

/-! ### The mode lock and the trigger handler -/

/-- The trigger handler does not read the mode lock: on the device with the lock set to `b`
it does what it does on the device itself. -/
theorem trigger_handler_ignores_lock (bus : spi_bus) (time_now : Int) (junk : Nat → Nat)
    (env : collaborators) (indio_dev : iio_dev) (b : Bool) :
    max78m6610_lmu_trigger_handler bus time_now junk env { indio_dev with mlock := b }
      = (max78m6610_lmu_trigger_handler bus time_now junk env indio_dev).map
          (fun r => (r.1, { r.2.1 with mlock := b }, r.2.2)) := by
  have e1 : ∀ sb, trigger_stamp { indio_dev with mlock := b } time_now sb
      = trigger_stamp indio_dev time_now sb := fun _ => rfl
  have e2 : ∀ e d, iio_push_to_buffers e { indio_dev with mlock := b } d
      = iio_push_to_buffers e indio_dev d := fun _ _ => rfl
  unfold max78m6610_lmu_trigger_handler
  dsimp only
  simp only [e1, e2]
  cases spi_sync bus env indio_dev.priv indio_dev.priv.ring_msg with
  | none => rfl
  | some r =>
    simp only [Option.bind_eq_bind, Option.some_bind]
    split_ifs
    · rfl
    · cases trigger_stamp indio_dev time_now
        (List.map (fun i => junk i % 256) (List.range SCAN_BUF_BYTES)) with
      | none => rfl
      | some sb =>
        simp only [Option.some_bind]
        cases trigger_decode_loop { rx_buf := r.2.1.rx_buf, scan_buf := sb }
          (bitmap_weight indio_dev.active_scan_mask indio_dev.masklength) with
        | none => rfl
        | some l => rfl

/-- The trigger handler does not write the mode lock: it returns the device with the lock as
it found it. -/
theorem trigger_handler_keeps_lock (bus : spi_bus) (time_now : Int) (junk : Nat → Nat)
    (env : collaborators) (indio_dev : iio_dev) (r : Int × iio_dev × collaborators)
    (h : max78m6610_lmu_trigger_handler bus time_now junk env indio_dev = some r) :
    r.2.1.mlock = indio_dev.mlock := by
  unfold max78m6610_lmu_trigger_handler at h
  dsimp only at h
  cases hs : spi_sync bus env indio_dev.priv indio_dev.priv.ring_msg with
  | none =>
    rw [hs] at h
    cases h
  | some q =>
    rw [hs] at h
    simp only [Option.bind_eq_bind, Option.some_bind] at h
    split_ifs at h
    · cases h
      rfl
    · cases ht : trigger_stamp indio_dev time_now
        (List.map (fun i => junk i % 256) (List.range SCAN_BUF_BYTES)) with
      | none =>
        rw [ht] at h
        cases h
      | some sb =>
        rw [ht] at h
        simp only [Option.some_bind] at h
        cases hd : trigger_decode_loop { rx_buf := q.2.1.rx_buf, scan_buf := sb }
          (bitmap_weight indio_dev.active_scan_mask indio_dev.masklength) with
        | none =>
          rw [hd] at h
          cases h
        | some l =>
          rw [hd] at h
          cases h
          rfl

/-! ### The calls on the lock and the transport -/

/-- A transaction that returns has added exactly one entry to the transport log. -/
theorem spi_sync_log (bus : spi_bus) (env : collaborators) (st : max78m6610_lmu_state)
    (msg : List xfer_ref) (r : Int × max78m6610_lmu_state × collaborators)
    (h : spi_sync bus env st msg = some r) :
    ∃ req, r.2.2 = { env with spi_log := env.spi_log ++ [req] } := by
  unfold spi_sync at h
  cases h1 : resolve_msg st msg with
  | none =>
    rw [h1] at h
    cases h
  | some xs =>
    rw [h1] at h
    simp only [Option.bind_eq_bind, Option.some_bind] at h
    cases h2 : gather_tx st.tx_buf xs with
    | none =>
      rw [h2] at h
      cases h
    | some req =>
      rw [h2] at h
      simp only [Option.some_bind] at h
      refine ⟨req, ?_⟩
      split_ifs at h
      · cases h
        rfl
      · cases h3 : scatter_rx st.rx_buf (bus req).2 xs with
        | none =>
          rw [h3] at h
          cases h
        | some rx =>
          rw [h3] at h
          cases h
          rfl

theorem transactions_since_one (env : collaborators) (req : List Nat) :
    transactions_since env { env with spi_log := env.spi_log ++ [req] }
      = [lock_event.transact req] := by
  unfold transactions_since
  simp

/-- The recorded `max78m6610_lmu_scan_direct` is `max78m6610_lmu_scan_direct` together with
the transactions it has issued. -/
theorem scan_direct_logged_eq (bus : spi_bus) (env : collaborators)
    (st : max78m6610_lmu_state) (addr : Nat) (ev : List lock_event) :
    max78m6610_lmu_scan_direct_logged bus env st addr ev
      = (max78m6610_lmu_scan_direct bus env st addr).map
          (fun r => (r, ev ++ transactions_since env r.2.2)) := by
  unfold max78m6610_lmu_scan_direct_logged max78m6610_lmu_scan_direct spi_sync_logged
  cases write_u8 st.tx_buf 0 (SPI_CB addr) with
  | none => rfl
  | some t1 =>
    simp only [Option.bind_eq_bind, Option.some_bind]
    cases write_u8 t1 1 (SPI_TB_READ addr) with
    | none => rfl
    | some t2 =>
      simp only [Option.some_bind]
      cases spi_sync bus env { st with tx_buf := t2 } st.scan_single_msg with
      | none => rfl
      | some r =>
        simp only [Option.map_some', Option.some_bind]
        split_ifs
        · rfl
        · cases decode_at r.2.1.rx_buf RX_OFFSET with
          | none => rfl
          | some d => rfl

/-- A direct scan that returns has issued exactly one transaction. -/
theorem scan_direct_log (bus : spi_bus) (env : collaborators) (st : max78m6610_lmu_state)
    (addr : Nat) (r : Int × max78m6610_lmu_state × collaborators)
    (h : max78m6610_lmu_scan_direct bus env st addr = some r) :
    ∃ req, r.2.2 = { env with spi_log := env.spi_log ++ [req] } := by
  unfold max78m6610_lmu_scan_direct at h
  cases h1 : write_u8 st.tx_buf 0 (SPI_CB addr) with
  | none =>
    rw [h1] at h
    cases h
  | some t1 =>
    rw [h1] at h
    simp only [Option.bind_eq_bind, Option.some_bind] at h
    cases h2 : write_u8 t1 1 (SPI_TB_READ addr) with
    | none =>
      rw [h2] at h
      cases h
    | some t2 =>
      rw [h2] at h
      simp only [Option.some_bind] at h
      cases h3 : spi_sync bus env { st with tx_buf := t2 } st.scan_single_msg with
      | none =>
        rw [h3] at h
        cases h
      | some q =>
        rw [h3] at h
        simp only [Option.some_bind] at h
        obtain ⟨req, hreq⟩ := spi_sync_log bus env _ _ q h3
        refine ⟨req, ?_⟩
        split_ifs at h
        · cases h
          exact hreq
        · cases h4 : decode_at q.2.1.rx_buf RX_OFFSET with
          | none =>
            rw [h4] at h
            cases h
          | some d =>
            rw [h4] at h
            cases h
            exact hreq

/-- The recorded trigger handler is the trigger handler together with the transactions it
has issued: it makes no call on the lock. -/
theorem trigger_handler_logged_eq (bus : spi_bus) (time_now : Int) (junk : Nat → Nat)
    (env : collaborators) (indio_dev : iio_dev) (ev : List lock_event) :
    max78m6610_lmu_trigger_handler_logged bus time_now junk env indio_dev ev
      = (max78m6610_lmu_trigger_handler bus time_now junk env indio_dev).map
          (fun r => (r, ev ++ transactions_since env r.2.2)) := by
  unfold max78m6610_lmu_trigger_handler_logged max78m6610_lmu_trigger_handler spi_sync_logged
  dsimp only
  cases spi_sync bus env indio_dev.priv indio_dev.priv.ring_msg with
  | none => rfl
  | some r =>
    simp only [Option.bind_eq_bind, Option.some_bind, Option.map_some']
    split_ifs
    · rfl
    · cases trigger_stamp indio_dev time_now
        (List.map (fun i => junk i % 256) (List.range SCAN_BUF_BYTES)) with
      | none => rfl
      | some sb =>
        simp only [Option.some_bind]
        cases trigger_decode_loop { rx_buf := r.2.1.rx_buf, scan_buf := sb }
          (bitmap_weight indio_dev.active_scan_mask indio_dev.masklength) with
        | none => rfl
        | some l => rfl

/-- A trigger cycle that returns has issued exactly one transaction. -/
theorem trigger_handler_log (bus : spi_bus) (time_now : Int) (junk : Nat → Nat)
    (env : collaborators) (indio_dev : iio_dev) (r : Int × iio_dev × collaborators)
    (h : max78m6610_lmu_trigger_handler bus time_now junk env indio_dev = some r) :
    ∃ req, r.2.2.spi_log = env.spi_log ++ [req] := by
  unfold max78m6610_lmu_trigger_handler at h
  dsimp only at h
  cases hs : spi_sync bus env indio_dev.priv indio_dev.priv.ring_msg with
  | none =>
    rw [hs] at h
    cases h
  | some q =>
    rw [hs] at h
    simp only [Option.bind_eq_bind, Option.some_bind] at h
    obtain ⟨req, hreq⟩ := spi_sync_log bus env _ _ q hs
    refine ⟨req, ?_⟩
    split_ifs at h
    · cases h
      show q.2.2.spi_log = _
      rw [hreq]
    · cases ht : trigger_stamp indio_dev time_now
        (List.map (fun i => junk i % 256) (List.range SCAN_BUF_BYTES)) with
      | none =>
        rw [ht] at h
        cases h
      | some sb =>
        rw [ht] at h
        simp only [Option.some_bind] at h
        cases hd : trigger_decode_loop { rx_buf := q.2.1.rx_buf, scan_buf := sb }
          (bitmap_weight indio_dev.active_scan_mask indio_dev.masklength) with
        | none =>
          rw [hd] at h
          cases h
        | some l =>
          rw [hd] at h
          cases h
          show q.2.2.spi_log = _
          rw [hreq]

/-- The recorded raw read with the lock free, in a mode other than Triggered: the lock is
taken, `max78m6610_lmu_scan_direct` issues its transactions, the lock is released. -/
theorem read_raw_logged_direct (bus : spi_bus) (env : collaborators) (indio_dev : iio_dev)
    (chan : iio_chan_spec) (val val2 : Int) (ev : List lock_event)
    (hmode : indio_dev.currentmode ≠ INDIO_BUFFER_TRIGGERED) (hlock : indio_dev.mlock = false) :
    max78m6610_lmu_read_raw_logged bus env indio_dev chan val val2 IIO_CHAN_INFO_RAW ev
      = (max78m6610_lmu_scan_direct bus env indio_dev.priv chan.address).map (fun r =>
          ({ ret := IIO_VAL_INT_PLUS_NANO,
             val := (ret_fraction_log2 r.1 (chan.scan_type.shift : Nat)).1,
             val2 := (ret_fraction_log2 r.1 (chan.scan_type.shift : Nat)).2,
             indio_dev := mutex_unlock { indio_dev with mlock := true, priv := r.2.1 },
             env := r.2.2 },
           ev ++ [lock_event.acquire] ++ transactions_since env r.2.2
             ++ [lock_event.release])) := by
  unfold max78m6610_lmu_read_raw_logged mutex_lock_logged mutex_lock mutex_unlock_logged
  simp only [if_true, hlock, Bool.false_eq_true, if_false, Option.bind_eq_bind,
    Option.map_some', Option.some_bind, hmode, Option.pure_def, scan_direct_logged_eq]
  cases max78m6610_lmu_scan_direct bus env indio_dev.priv chan.address <;> rfl

/-- The recorded raw read with the lock free, in Triggered mode: the lock is taken and no
transaction is issued. -/
theorem read_raw_logged_busy (bus : spi_bus) (env : collaborators) (indio_dev : iio_dev)
    (chan : iio_chan_spec) (val val2 : Int) (ev : List lock_event)
    (hmode : indio_dev.currentmode = INDIO_BUFFER_TRIGGERED) (hlock : indio_dev.mlock = false) :
    max78m6610_lmu_read_raw_logged bus env indio_dev chan val val2 IIO_CHAN_INFO_RAW ev
      = some ({ ret := - EBUSY, val := val, val2 := val2,
                indio_dev := { indio_dev with mlock := true }, env := env },
              ev ++ [lock_event.acquire]) := by
  unfold max78m6610_lmu_read_raw_logged mutex_lock_logged mutex_lock
  simp [hmode, hlock]

/-- The recorded raw read with the lock held: the call waits in `mutex_lock`. -/
theorem read_raw_logged_blocked (bus : spi_bus) (env : collaborators) (indio_dev : iio_dev)
    (chan : iio_chan_spec) (val val2 : Int) (ev : List lock_event)
    (hlock : indio_dev.mlock = true) :
    max78m6610_lmu_read_raw_logged bus env indio_dev chan val val2 IIO_CHAN_INFO_RAW ev
      = none := by
  unfold max78m6610_lmu_read_raw_logged mutex_lock_logged mutex_lock
  simp [hlock]

/-- The recorded raw read is the raw read. -/
theorem read_raw_logged_erase (bus : spi_bus) (env : collaborators) (indio_dev : iio_dev)
    (chan : iio_chan_spec) (val val2 : Int) (ev : List lock_event) :
    (max78m6610_lmu_read_raw_logged bus env indio_dev chan val val2 IIO_CHAN_INFO_RAW ev).map
        (fun r => r.1)
      = max78m6610_lmu_read_raw bus env indio_dev chan val val2 IIO_CHAN_INFO_RAW := by
  cases hl : indio_dev.mlock with
  | true =>
    rw [read_raw_logged_blocked bus env indio_dev chan val val2 ev hl]
    unfold max78m6610_lmu_read_raw mutex_lock
    simp [hl]
  | false =>
    by_cases hm : indio_dev.currentmode = INDIO_BUFFER_TRIGGERED
    · rw [read_raw_logged_busy bus env indio_dev chan val val2 ev hm hl]
      unfold max78m6610_lmu_read_raw mutex_lock
      simp [hm, hl]
    · rw [read_raw_logged_direct bus env indio_dev chan val val2 ev hm hl,
        read_raw_direct bus env indio_dev chan val val2 hm hl]
      cases max78m6610_lmu_scan_direct bus env indio_dev.priv chan.address <;> rfl

/-- In triggered mode (`currentmode == INDIO_BUFFER_TRIGGERED`) with the mode lock free, for
every channel, `max78m6610_lmu_read_raw` with `IIO_CHAN_INFO_RAW` returns `-EBUSY`, issues no
transport transaction (the collaborators are unchanged) and does not write `*val` and
`*val2`; it returns with the lock held. -/
theorem read_raw_busy (bus : spi_bus) (env : collaborators) (indio_dev : iio_dev)
    (chan : iio_chan_spec) (val val2 : Int)
    (hmode : indio_dev.currentmode = INDIO_BUFFER_TRIGGERED) (hlock : indio_dev.mlock = false) :
    ∃ r, max78m6610_lmu_read_raw bus env indio_dev chan val val2 IIO_CHAN_INFO_RAW = some r ∧
      r.ret = - EBUSY ∧ r.env = env ∧ r.env.spi_log.length = env.spi_log.length ∧
      r.val = val ∧ r.val2 = val2 ∧ r.indio_dev.priv = indio_dev.priv ∧
      r.indio_dev.mlock = true := by
  refine ⟨{ ret := - EBUSY, val := val, val2 := val2,
            indio_dev := { indio_dev with mlock := true }, env := env }, ?_, rfl, rfl, rfl, rfl,
          rfl, rfl, rfl⟩
  unfold max78m6610_lmu_read_raw mutex_lock
  simp [hmode, hlock]

/-! ### Claims -/


/-- C1: for every 8-bit register address the request frame is
`controlByte = (0 << 4) | (((a >> 6) & 3) << 2) | 1` and
`transactionByte = ((a & 0x3F) << 2) | 0`; both are bytes, the control byte has
low bits `01` and a zero high nibble, the transaction byte has low bits `00`. -/
theorem C1_request_frame (a : Nat) (ha : a ≤ 255) :
    SPI_CB a = (((0 <<< 4) ||| (((a >>> 6) &&& 3) <<< 2)) ||| 1) ∧
    SPI_TB_READ a = (((a &&& 0x3F) <<< 2) ||| 0) ∧
    SPI_CB a ≤ 255 ∧ SPI_TB_READ a ≤ 255 ∧
    SPI_CB a % 4 = 1 ∧ SPI_CB a / 16 = 0 ∧ SPI_TB_READ a % 4 = 0 := by
  have key : ∀ b < 256,
      SPI_CB b = (((0 <<< 4) ||| (((b >>> 6) &&& 3) <<< 2)) ||| 1) ∧
      SPI_TB_READ b = (((b &&& 0x3F) <<< 2) ||| 0) ∧
      SPI_CB b ≤ 255 ∧ SPI_TB_READ b ≤ 255 ∧
      SPI_CB b % 4 = 1 ∧ SPI_CB b / 16 = 0 ∧ SPI_TB_READ b % 4 = 0 := by
    decide
  exact key a (by omega)

/-- C1 at the address of the first channel, `INSTAN_VA = 0x33`. -/
theorem C1_request_frame_witness :
    SPI_CB 0x33 = (((0 <<< 4) ||| (((0x33 >>> 6) &&& 3) <<< 2)) ||| 1) ∧
    SPI_TB_READ 0x33 = (((0x33 &&& 0x3F) <<< 2) ||| 0) ∧
    SPI_CB 0x33 ≤ 255 ∧ SPI_TB_READ 0x33 ≤ 255 ∧
    SPI_CB 0x33 % 4 = 1 ∧ SPI_CB 0x33 / 16 = 0 ∧ SPI_TB_READ 0x33 % 4 = 0 :=
  C1_request_frame 0x33 (by decide)


/-- C2 (as amended): for every 5-byte response slot `b`, the decode used by `scan_direct` and
the trigger handler returns the signed-24-bit reading of the big-endian value
`b[2]*2^16 + b[3]*2^8 + b[4]`: bytes 0 and 1 are both discarded and the three data bytes are
the last three of the slot. A slot `[x, y, 0x7F, 0xFF, 0xFF]` decodes to 8388607 and a slot
`[x, y, 0x80, 0x00, 0x00]` to -8388608, for every `x` and every byte `y`. -/
theorem C2_decode_last_three_bytes (b0 b1 b2 b3 b4 : Nat) (h1 : b1 ≤ 255) (h2 : b2 ≤ 255)
    (h3 : b3 ≤ 255) (h4 : b4 ≤ 255) :
    decodeSample [b0, b1, b2, b3, b4] = some (signed24 (b2 * 2 ^ 16 + b3 * 2 ^ 8 + b4)) ∧
    decodeSample [b0, b1, 0x7F, 0xFF, 0xFF] = some 8388607 ∧
    decodeSample [b0, b1, 0x80, 0x00, 0x00] = some (-8388608) := by
  refine ⟨decodeSample_slot b0 b1 b2 b3 b4 h1 h2 h3 h4, ?_, ?_⟩
  · rw [decodeSample_slot b0 b1 0x7F 0xFF 0xFF h1 (by decide) (by decide) (by decide)]
    decide
  · rw [decodeSample_slot b0 b1 0x80 0x00 0x00 h1 (by decide) (by decide) (by decide)]
    decide

/-- C2 (as amended) on the slot `[0x12, 0x34, 0x7F, 0xFF, 0xFF]`. -/
theorem C2_decode_last_three_bytes_witness :
    decodeSample [0x12, 0x34, 0x7F, 0xFF, 0xFF]
      = some (signed24 (0x7F * 2 ^ 16 + 0xFF * 2 ^ 8 + 0xFF)) ∧
    decodeSample [0x12, 0x34, 0x7F, 0xFF, 0xFF] = some 8388607 ∧
    decodeSample [0x12, 0x34, 0x80, 0x00, 0x00] = some (-8388608) :=
  C2_decode_last_three_bytes 0x12 0x34 0x7F 0xFF 0xFF (by decide) (by decide) (by decide)
    (by decide)

/-- C2 as stated fails: the slot `[0, 0x7F, 0xFF, 0xFF, 0]` does not decode to the
signed-24-bit reading 8388607 of its bytes 1..3; it decodes to -256, the reading of its
bytes 2..4. -/
theorem C2_counterexample :
    signed24 (0x7F * 2 ^ 16 + 0xFF * 2 ^ 8 + 0xFF) = 8388607 ∧
    decodeSample [0, 0x7F, 0xFF, 0xFF, 0] ≠ some 8388607 ∧
    decodeSample [0, 0x7F, 0xFF, 0xFF, 0] = some (-256) := by
  decide

/-- C3: for every word `w`, `sign_extend32(w & 0x00FFFFFF, 23)` is `v - 2^24` when bit 23 of
`v = w mod 2^24` is set and `v` otherwise; the decoded sample lies in
`[-8388608, 8388607]` and is congruent to `w` modulo `2^24`. -/
theorem C3_sign_extend_masked_word (w : Nat) :
    sign_extend32 (w &&& DATA_BIT_MASK) SIGN_BIT_NUM
      = (if (w % 2 ^ 24).testBit 23 then ((w % 2 ^ 24 : Nat) : Int) - 2 ^ 24
         else ((w % 2 ^ 24 : Nat) : Int)) ∧
    -8388608 ≤ sign_extend32 (w &&& DATA_BIT_MASK) SIGN_BIT_NUM ∧
    sign_extend32 (w &&& DATA_BIT_MASK) SIGN_BIT_NUM ≤ 8388607 ∧
    sign_extend32 (w &&& DATA_BIT_MASK) SIGN_BIT_NUM % 2 ^ 24 = (w : Int) % 2 ^ 24 := by
  have hlt : w % 2 ^ 24 < 2 ^ 24 := Nat.mod_lt _ (by decide)
  have hw : ((w % 2 ^ 24 : Nat) : Int) % 2 ^ 24 = (w : Int) % 2 ^ 24 := by omega
  rw [mask_DATA_BIT_MASK, sign_extend32_masked _ hlt, Nat.testBit_to_div_mod, ← hw]
  generalize w % 2 ^ 24 = v at hlt
  unfold signed24
  by_cases h : 2 ^ 23 ≤ v
  · have hb : v / 2 ^ 23 % 2 = 1 := by omega
    rw [if_pos h, hb]
    refine ⟨by simp, ?_, ?_, ?_⟩ <;> omega
  · have hb : v / 2 ^ 23 % 2 = 0 := by omega
    rw [if_neg h, hb]
    refine ⟨by simp, ?_, ?_, ?_⟩ <;> omega

/-- C4: for `raw >= 0` and `fb` in {22, 23}, `ret_fraction_log2` returns
`scaled / 10^9` and `scaled mod 10^9` with `scaled = floor(raw * 10^9 / 2^fb)`; the
fraction is in `[0, 10^9)` and the two parts recompose `scaled`;
`normalize(0, 23) = (0, 0)` and `normalize(4194304, 23) = (0, 500000000)`. -/
theorem C4_normalize_nonneg (raw : Int) (fb : Nat) (h0 : 0 ≤ raw) (h1 : raw < 2 ^ 31)
    (hfb : fb = 22 ∨ fb = 23) :
    ret_fraction_log2 raw fb
      = (raw * 1000000000 / 2 ^ fb / 1000000000, raw * 1000000000 / 2 ^ fb % 1000000000) ∧
    0 ≤ (ret_fraction_log2 raw fb).2 ∧ (ret_fraction_log2 raw fb).2 < 1000000000 ∧
    (ret_fraction_log2 raw fb).1 * 1000000000 + (ret_fraction_log2 raw fb).2
      = raw * 1000000000 / 2 ^ fb ∧
    ret_fraction_log2 0 23 = (0, 0) ∧
    ret_fraction_log2 4194304 23 = (0, 500000000) := by
  have hc := ret_fraction_log2_nonneg raw fb h0 h1
  have hq : to_s32 (raw * 1000000000 / 2 ^ fb / 1000000000)
      = raw * 1000000000 / 2 ^ fb / 1000000000 := by
    apply to_s32_of_range <;> rcases hfb with rfl | rfl <;> omega
  rw [hq] at hc
  rw [hc]
  refine ⟨rfl, ?_, ?_, ?_, by decide, by decide⟩
  · show 0 ≤ raw * 1000000000 / 2 ^ fb % 1000000000
    omega
  · show raw * 1000000000 / 2 ^ fb % 1000000000 < 1000000000
    omega
  · show raw * 1000000000 / 2 ^ fb / 1000000000 * 1000000000
      + raw * 1000000000 / 2 ^ fb % 1000000000 = raw * 1000000000 / 2 ^ fb
    omega

/-- C4 at `raw = 4194304` (one half in Q23). -/
theorem C4_normalize_nonneg_witness :
    ret_fraction_log2 4194304 (23 : Nat)
      = ((4194304 : Int) * 1000000000 / 2 ^ 23 / 1000000000,
         (4194304 : Int) * 1000000000 / 2 ^ 23 % 1000000000) ∧
    0 ≤ (ret_fraction_log2 4194304 (23 : Nat)).2 ∧
    (ret_fraction_log2 4194304 (23 : Nat)).2 < 1000000000 ∧
    (ret_fraction_log2 4194304 (23 : Nat)).1 * 1000000000
      + (ret_fraction_log2 4194304 (23 : Nat)).2 = (4194304 : Int) * 1000000000 / 2 ^ 23 ∧
    ret_fraction_log2 0 23 = (0, 0) ∧
    ret_fraction_log2 4194304 23 = (0, 500000000) :=
  C4_normalize_nonneg 4194304 23 (by decide) (by decide) (Or.inr rfl)

/-- C5: for `raw < 0` and `fb` in {22, 23}, `ret_fraction_log2` returns the non-negative
integer part `scaled / 10^9`, which does not carry the sign, and the fraction
`-(scaled mod 10^9) - 1`, the 32-bit bitwise complement of the remainder, where
`scaled = floor((-raw) * 10^9 / 2^fb)`; `normalize(-4194304, 23) = (0, -500000001)`. -/
theorem C5_normalize_neg (raw : Int) (fb : Nat) (h0 : -2 ^ 31 ≤ raw) (h1 : raw < 0)
    (hfb : fb = 22 ∨ fb = 23) :
    ret_fraction_log2 raw fb
      = ((-raw) * 1000000000 / 2 ^ fb / 1000000000,
         -((-raw) * 1000000000 / 2 ^ fb % 1000000000) - 1) ∧
    0 ≤ (ret_fraction_log2 raw fb).1 ∧
    (ret_fraction_log2 raw fb).2
      = to_s32 ((((-raw) * 1000000000 / 2 ^ fb % 1000000000).toNat ^^^ 0xFFFFFFFF : Nat) : Int) ∧
    ret_fraction_log2 (-4194304) 23 = (0, -500000001) := by
  have hc := ret_fraction_log2_neg raw fb h0 h1
  have hq : to_s32 ((-raw) * 1000000000 / 2 ^ fb / 1000000000)
      = (-raw) * 1000000000 / 2 ^ fb / 1000000000 := by
    apply to_s32_of_range <;> rcases hfb with rfl | rfl <;> omega
  have hb := scaled_bounds (-raw) fb (by omega) (by omega)
  rw [hq] at hc
  rw [hc]
  refine ⟨rfl, ?_, ?_, by decide⟩
  · show 0 ≤ (-raw) * 1000000000 / 2 ^ fb / 1000000000
    omega
  · show -((-raw) * 1000000000 / 2 ^ fb % 1000000000) - 1 = _
    have hx := xor_all_ones 32 ((-raw) * 1000000000 / 2 ^ fb % 1000000000).toNat (by omega)
    have e : (0xFFFFFFFF : Nat) = 2 ^ 32 - 1 := by decide
    rw [e, hx]
    unfold to_s32
    omega

/-- C5 at `raw = -4194304` (minus one half in Q23). -/
theorem C5_normalize_neg_witness :
    ret_fraction_log2 (-4194304) (23 : Nat)
      = ((-(-4194304 : Int)) * 1000000000 / 2 ^ 23 / 1000000000,
         -((-(-4194304 : Int)) * 1000000000 / 2 ^ 23 % 1000000000) - 1) ∧
    0 ≤ (ret_fraction_log2 (-4194304) (23 : Nat)).1 ∧
    (ret_fraction_log2 (-4194304) (23 : Nat)).2
      = to_s32 ((((-(-4194304 : Int)) * 1000000000 / 2 ^ 23 % 1000000000).toNat
          ^^^ 0xFFFFFFFF : Nat) : Int) ∧
    ret_fraction_log2 (-4194304) 23 = (0, -500000001) :=
  C5_normalize_neg (-4194304) 23 (by decide) (by decide) (Or.inr rfl)

/-- C6 (as amended): for `fb` in {22, 23} and every `raw` whose true value `raw / 2^fb` lies
strictly inside `(-1, 1)`, that is `-2^fb < raw < 2^fb`, `ret_fraction_log2` returns
`integerPart = 0`; at the lower end `raw = -2^fb` (true value exactly -1) it returns
`(1, -1)`, a non-zero integer part together with the negative-fraction encoding. -/
theorem C6_integer_part_zero_inside_range (raw : Int) (fb : Nat) (hfb : fb = 22 ∨ fb = 23)
    (hlo : -2 ^ fb < raw) (hhi : raw < 2 ^ fb) :
    (ret_fraction_log2 raw fb).1 = 0 ∧ ret_fraction_log2 (-2 ^ fb) fb = (1, -1) := by
  constructor
  · by_cases hneg : raw < 0
    · rw [ret_fraction_log2_neg raw fb (by rcases hfb with rfl | rfl <;> omega) hneg]
      show to_s32 ((-raw) * 1000000000 / 2 ^ fb / 1000000000) = 0
      have : (-raw) * 1000000000 / 2 ^ fb / 1000000000 = 0 := by
        rcases hfb with rfl | rfl <;> omega
      rw [this]
      rfl
    · rw [ret_fraction_log2_nonneg raw fb (by omega) (by rcases hfb with rfl | rfl <;> omega)]
      show to_s32 (raw * 1000000000 / 2 ^ fb / 1000000000) = 0
      have : raw * 1000000000 / 2 ^ fb / 1000000000 = 0 := by
        rcases hfb with rfl | rfl <;> omega
      rw [this]
      rfl
  · rcases hfb with rfl | rfl <;> decide

/-- C6 (as amended) at `raw = -8388607`, the least Q23 value above -1. -/
theorem C6_integer_part_zero_inside_range_witness :
    (ret_fraction_log2 (-8388607) (23 : Nat)).1 = 0 ∧
    ret_fraction_log2 (-2 ^ 23) (23 : Nat) = (1, -1) :=
  C6_integer_part_zero_inside_range (-8388607) 23 (Or.inr rfl) (by decide) (by decide)

/-- C6 as stated fails: `raw = -8388608` with `fb = 23` has the true value -1, inside
`[-1, 1)`, and `ret_fraction_log2` returns the integer part 1. -/
theorem C6_counterexample :
    ¬ (∀ (raw : Int) (fb : Nat), (fb = 22 ∨ fb = 23) → -2 ^ fb ≤ raw → raw < 2 ^ fb →
        (ret_fraction_log2 raw fb).1 = 0) := by
  intro h
  have h1 := h (-8388608) 23 (Or.inr rfl) (by decide) (by decide)
  revert h1
  decide

/-- C7: for every signed 32-bit `raw` and every `fb`, 22 and 23 among them, the fraction returned by
`ret_fraction_log2` is strictly negative if and only if `raw < 0`; for `raw < 0` it lies in
`[-10^9, -1]`, for `raw >= 0` in `[0, 10^9 - 1]`. -/
theorem C7_fraction_sign (raw : Int) (fb : Nat) (h0 : -2 ^ 31 ≤ raw) (h1 : raw < 2 ^ 31) :
    ((ret_fraction_log2 raw fb).2 < 0 ↔ raw < 0) ∧
    (raw < 0 → -1000000000 ≤ (ret_fraction_log2 raw fb).2 ∧ (ret_fraction_log2 raw fb).2 ≤ -1) ∧
    (0 ≤ raw → 0 ≤ (ret_fraction_log2 raw fb).2 ∧
      (ret_fraction_log2 raw fb).2 ≤ 1000000000 - 1) := by
  by_cases hneg : raw < 0
  · rw [ret_fraction_log2_neg raw fb h0 hneg]
    show (-((-raw) * 1000000000 / 2 ^ fb % 1000000000) - 1 < 0 ↔ raw < 0) ∧
      (raw < 0 → -1000000000 ≤ -((-raw) * 1000000000 / 2 ^ fb % 1000000000) - 1 ∧
        -((-raw) * 1000000000 / 2 ^ fb % 1000000000) - 1 ≤ -1) ∧
      (0 ≤ raw → 0 ≤ -((-raw) * 1000000000 / 2 ^ fb % 1000000000) - 1 ∧
        -((-raw) * 1000000000 / 2 ^ fb % 1000000000) - 1 ≤ 1000000000 - 1)
    omega
  · rw [ret_fraction_log2_nonneg raw fb (by omega) h1]
    show (raw * 1000000000 / 2 ^ fb % 1000000000 < 0 ↔ raw < 0) ∧
      (raw < 0 → -1000000000 ≤ raw * 1000000000 / 2 ^ fb % 1000000000 ∧
        raw * 1000000000 / 2 ^ fb % 1000000000 ≤ -1) ∧
      (0 ≤ raw → 0 ≤ raw * 1000000000 / 2 ^ fb % 1000000000 ∧
        raw * 1000000000 / 2 ^ fb % 1000000000 ≤ 1000000000 - 1)
    omega

/-- C7 at `raw = -1` with `fb = 23`: the magnitude rounds down to zero and the fraction is
still negative. -/
theorem C7_fraction_sign_witness :
    ((ret_fraction_log2 (-1) (23 : Nat)).2 < 0 ↔ (-1 : Int) < 0) ∧
    ((-1 : Int) < 0 → -1000000000 ≤ (ret_fraction_log2 (-1) (23 : Nat)).2 ∧
      (ret_fraction_log2 (-1) (23 : Nat)).2 ≤ -1) ∧
    (0 ≤ (-1 : Int) → 0 ≤ (ret_fraction_log2 (-1) (23 : Nat)).2 ∧
      (ret_fraction_log2 (-1) (23 : Nat)).2 ≤ 1000000000 - 1) :=
  C7_fraction_sign (-1) 23 (by decide) (by decide)

/-- C8: for every selection mask over the 20 measurement channels (bits 0..19), the batch
built by `max78m6610_lmu_update_scan_mode` has exactly `popcount(mask)` transfers of 5 bytes
each, so its length is `5 * popcount(mask)`; the empty selection gives a batch of length 0,
and the selection of channel 0 alone gives exactly one frame, `encodeRequest(0x33) =
(0x01, 0xCC)`, and a batch of length 5. -/
theorem C8_batch_length (st : max78m6610_lmu_state) (hs : state_sized st) (mask : Nat)
    (hm : mask < 2 ^ 20) :
    (∃ st1, max78m6610_lmu_update_scan_mode st mask = some (0, st1) ∧
      (ring_batch st1).length = popcount mask ∧
      (∀ e ∈ ring_batch st1, ∃ b, e = some b ∧ b.len = 5) ∧
      ring_batch_len st1 = 5 * popcount mask) ∧
    (∃ st1, max78m6610_lmu_update_scan_mode st 0 = some (0, st1) ∧
      ring_batch st1 = [] ∧ ring_batch_len st1 = 0) ∧
    (∃ st1, max78m6610_lmu_update_scan_mode st 1 = some (0, st1) ∧
      ring_batch st1 = [some ⟨0x01, 0xCC, 0, 0, 5⟩] ∧ ring_batch_len st1 = 5) ∧
    channel_address 0 = 0x33 ∧ SPI_CB 0x33 = 0x01 ∧ SPI_TB_READ 0x33 = 0xCC := by
  have hlen : (selected mask).length = popcount mask :=
    selected_below_length MAX_CHAN_NUM mask
      (lt_trans hm (by decide : (2 : Nat) ^ 20 < 2 ^ MAX_CHAN_NUM))
  refine ⟨?_, ?_, ?_, by decide, by decide, by decide⟩
  · obtain ⟨st1, h1, -, h3, h4, -⟩ := update_scan_mode_batch st hs mask
    refine ⟨st1, h1, ?_, ?_, ?_⟩
    · rw [h3, expected_batch_length, hlen]
    · rw [h3]
      exact expected_batch_entries _
    · rw [h4, hlen]
      rfl
  · obtain ⟨st1, h1, -, h3, h4, -⟩ := update_scan_mode_batch st hs 0
    have hsel : selected 0 = [] := by decide
    rw [hsel] at h3 h4
    exact ⟨st1, h1, h3, h4⟩
  · obtain ⟨st1, h1, -, h3, h4, -⟩ := update_scan_mode_batch st hs 1
    have hsel : selected 1 = [0] := by decide
    rw [hsel] at h3 h4
    refine ⟨st1, h1, ?_, h4⟩
    rw [h3]
    decide

/-- C8 on the zero-filled state with channels 0 and 2 selected. -/
theorem C8_batch_length_witness :
    (∃ st1, max78m6610_lmu_update_scan_mode zeroed_state 5 = some (0, st1) ∧
      (ring_batch st1).length = popcount 5 ∧
      (∀ e ∈ ring_batch st1, ∃ b, e = some b ∧ b.len = 5) ∧
      ring_batch_len st1 = 5 * popcount 5) ∧
    (∃ st1, max78m6610_lmu_update_scan_mode zeroed_state 0 = some (0, st1) ∧
      ring_batch st1 = [] ∧ ring_batch_len st1 = 0) ∧
    (∃ st1, max78m6610_lmu_update_scan_mode zeroed_state 1 = some (0, st1) ∧
      ring_batch st1 = [some ⟨0x01, 0xCC, 0, 0, 5⟩] ∧ ring_batch_len st1 = 5) ∧
    channel_address 0 = 0x33 ∧ SPI_CB 0x33 = 0x01 ∧ SPI_TB_READ 0x33 = 0xCC :=
  C8_batch_length zeroed_state (by decide) 5 (by decide)

/-- C9: if the selected channel ids in ascending order are `c_0 < c_1 < ...`, then the
`k`-th transfer of the batch built by `max78m6610_lmu_update_scan_mode` has the request
bytes `encodeRequest(address(c_k))` at `tx_buf` offsets `5k` and `5k+1`, its response slot
at `rx_buf` offset `5k`, and length 5; the list of selected ids is strictly ascending and
holds exactly the set bits of the mask below `MAX_CHAN_NUM`. -/
theorem C9_frames_in_channel_order (st : max78m6610_lmu_state) (hs : state_sized st)
    (mask k c : Nat) (hk : (selected mask)[k]? = some c) :
    (∃ st1, max78m6610_lmu_update_scan_mode st mask = some (0, st1) ∧
      (ring_batch st1)[k]? = some (some
        { controlByte := SPI_CB (channel_address c),
          transactionByte := SPI_TB_READ (channel_address c),
          tx_off := 5 * k, rx_off := 5 * k, len := 5 }) ∧
      st1.tx_buf[5 * k]? = some (SPI_CB (channel_address c)) ∧
      st1.tx_buf[5 * k + 1]? = some (SPI_TB_READ (channel_address c))) ∧
    List.Pairwise (fun a b => a < b) (selected mask) ∧
    (∀ i, i ∈ selected mask ↔ i < MAX_CHAN_NUM ∧ mask.testBit i = true) := by
  refine ⟨?_, selected_pairwise mask, mem_selected mask⟩
  obtain ⟨st1, h1, -, h3, -, h5⟩ := update_scan_mode_batch st hs mask
  refine ⟨st1, h1, ?_, (h5 k c hk).1, (h5 k c hk).2⟩
  rw [h3, expected_batch_get _ k c hk]
  rfl

/-- C9 on the zero-filled state with channels 0, 2 and 7 selected: the transfer of index 2
is that of channel 7. -/
theorem C9_frames_in_channel_order_witness :
    (∃ st1, max78m6610_lmu_update_scan_mode zeroed_state 0x85 = some (0, st1) ∧
      (ring_batch st1)[2]? = some (some
        { controlByte := SPI_CB (channel_address 7),
          transactionByte := SPI_TB_READ (channel_address 7),
          tx_off := 5 * 2, rx_off := 5 * 2, len := 5 }) ∧
      st1.tx_buf[5 * 2]? = some (SPI_CB (channel_address 7)) ∧
      st1.tx_buf[5 * 2 + 1]? = some (SPI_TB_READ (channel_address 7))) ∧
    List.Pairwise (fun a b => a < b) (selected 0x85) ∧
    (∀ i, i ∈ selected 0x85 ↔ i < MAX_CHAN_NUM ∧ (0x85 : Nat).testBit i = true) :=
  C9_frames_in_channel_order zeroed_state (by decide) 0x85 2 7 (by decide)

/-- C10 (as amended): for every selection mask `m` in which bit 20 is set,
`max78m6610_lmu_update_scan_mode` builds the batch it builds for `m` with bit 20 cleared,
followed by one more transfer of 5 bytes for table entry 20, the Timestamp entry: its request
frame is `encodeRequest` of that entry's address field and its offsets are 5 times the
number of selected measurement channels. The transaction is 5 bytes longer. -/
theorem C10_timestamp_bit_adds_transfer (st : max78m6610_lmu_state) (hs : state_sized st)
    (m : Nat) (h20 : test_bit 20 m = true) :
    ∃ st1 st2, max78m6610_lmu_update_scan_mode st m = some (0, st1) ∧
      max78m6610_lmu_update_scan_mode st (clear_bit 20 m) = some (0, st2) ∧
      ring_batch st1 = ring_batch st2 ++
        [some { controlByte := SPI_CB (channel_address 20),
                transactionByte := SPI_TB_READ (channel_address 20),
                tx_off := 5 * (ring_batch st2).length,
                rx_off := 5 * (ring_batch st2).length, len := 5 }] ∧
      ring_batch_len st1 = ring_batch_len st2 + 5 := by
  obtain ⟨st1, h1, -, h3, h4, -⟩ := update_scan_mode_batch st hs m
  obtain ⟨st2, k1, -, k3, k4, -⟩ := update_scan_mode_batch st hs (clear_bit 20 m)
  rw [selected_bit20_set m h20] at h3 h4
  rw [selected_bit20_cleared m] at k3 k4
  refine ⟨st1, st2, h1, k1, ?_, ?_⟩
  · rw [h3, k3, expected_batch_append, expected_batch_length]
    rfl
  · rw [h4, k4, List.length_append, List.length_singleton]
    show 5 * ((selected_below m 20).length + 1) = 5 * (selected_below m 20).length + 5
    omega

/-- C10 (as amended) on the zero-filled state with channel 0 and bit 20 selected. -/
theorem C10_timestamp_bit_adds_transfer_witness :
    ∃ st1 st2, max78m6610_lmu_update_scan_mode zeroed_state 0x100001 = some (0, st1) ∧
      max78m6610_lmu_update_scan_mode zeroed_state (clear_bit 20 0x100001) = some (0, st2) ∧
      ring_batch st1 = ring_batch st2 ++
        [some { controlByte := SPI_CB (channel_address 20),
                transactionByte := SPI_TB_READ (channel_address 20),
                tx_off := 5 * (ring_batch st2).length,
                rx_off := 5 * (ring_batch st2).length, len := 5 }] ∧
      ring_batch_len st1 = ring_batch_len st2 + 5 :=
  C10_timestamp_bit_adds_transfer zeroed_state (by decide) 0x100001 (by decide)

/-- C10 as stated fails: on the zero-filled state the mask with only bit 20 set gives a
batch of one transfer (5 bytes), the same mask with bit 20 cleared gives the empty batch. -/
theorem C10_counterexample :
    test_bit 20 (2 ^ 20) = true ∧ clear_bit 20 (2 ^ 20) = 0 ∧
    ∃ st1 st2, max78m6610_lmu_update_scan_mode zeroed_state (2 ^ 20) = some (0, st1) ∧
      max78m6610_lmu_update_scan_mode zeroed_state (clear_bit 20 (2 ^ 20)) = some (0, st2) ∧
      (ring_batch st1).length = 1 ∧ ring_batch_len st1 = 5 ∧
      ring_batch st2 = [] ∧ ring_batch_len st2 = 0 ∧
      ring_batch st1 ≠ ring_batch st2 := by
  have hs : state_sized zeroed_state := by decide
  obtain ⟨st1, h1, -, h3, h4, -⟩ := update_scan_mode_batch zeroed_state hs (2 ^ 20)
  obtain ⟨st2, k1, -, k3, k4, -⟩ := update_scan_mode_batch zeroed_state hs (clear_bit 20 (2 ^ 20))
  have e1 : selected (2 ^ 20) = [20] := by decide
  have e2 : selected (clear_bit 20 (2 ^ 20)) = [] := by decide
  rw [e1] at h3 h4
  rw [e2] at k3 k4
  refine ⟨by decide, by decide, st1, st2, h1, k1, ?_, h4, k3, k4, ?_⟩
  · rw [h3]
    rfl
  · rw [h3, k3]
    decide

/-- C11, the code at the failing input: on the armed device (Triggered mode, mode lock free)
a first `max78m6610_lmu_read_raw` with `IIO_CHAN_INFO_RAW` returns `-EBUSY` without a
transaction and without writing `*val` and `*val2`, and leaves the device in Triggered mode
with the lock held; the same call on the device it leaves does not return `-EBUSY`: it waits
in `mutex_lock` and does not return. -/
theorem C11_second_read_in_triggered_mode_waits :
    armed_device.currentmode = INDIO_BUFFER_TRIGGERED ∧ armed_device.mlock = false ∧
    (max78m6610_lmu_read_raw failing_bus fresh_collaborators armed_device channel_zero 7 8
        IIO_CHAN_INFO_RAW).map
      (fun r => (r.ret, r.val, r.val2, r.env, r.indio_dev.currentmode, r.indio_dev.mlock))
      = some (- EBUSY, 7, 8, fresh_collaborators, INDIO_BUFFER_TRIGGERED, true) ∧
    (max78m6610_lmu_read_raw failing_bus fresh_collaborators armed_device channel_zero 7 8
        IIO_CHAN_INFO_RAW).bind
      (fun r => max78m6610_lmu_read_raw failing_bus r.env r.indio_dev channel_zero 7 8
        IIO_CHAN_INFO_RAW) = none ∧
    ¬ (∀ (bus : spi_bus) (env : collaborators) (indio_dev : iio_dev) (chan : iio_chan_spec)
        (val val2 : Int), indio_dev.currentmode = INDIO_BUFFER_TRIGGERED →
        ∃ r, max78m6610_lmu_read_raw bus env indio_dev chan val val2 IIO_CHAN_INFO_RAW = some r ∧
          r.ret = - EBUSY) := by
  refine ⟨by decide, by decide, by decide, by decide, ?_⟩
  intro h
  obtain ⟨r, hr, -⟩ := h failing_bus fresh_collaborators { armed_device with mlock := true }
    channel_zero 7 8 (by decide)
  have hn : max78m6610_lmu_read_raw failing_bus fresh_collaborators
      { armed_device with mlock := true } channel_zero 7 8 IIO_CHAN_INFO_RAW = none := by
    decide
  rw [hn] at hr
  cases hr

/-- C12, the code at the failing input: in direct mode, with a transport whose transaction
fails, `max78m6610_lmu_read_raw` for channel 0 returns the value type
`IIO_VAL_INT_PLUS_NANO` with `(*val, *val2) = (0, -597)`, the normalisation of the errno
`-EIO` that `max78m6610_lmu_scan_direct` returned, and not a failure. -/
theorem C12_transport_failure_returned_as_value :
    max78m6610_lmu_channels[0]? = some channel_zero ∧
    (max78m6610_lmu_scan_direct failing_bus fresh_collaborators idle_device.priv
        channel_zero.address).map (fun r => r.1) = some (- EIO) ∧
    (max78m6610_lmu_read_raw failing_bus fresh_collaborators idle_device channel_zero 0 0
        IIO_CHAN_INFO_RAW).map (fun r => (r.ret, r.val, r.val2))
      = some (IIO_VAL_INT_PLUS_NANO, 0, -597) ∧
    ret_fraction_log2 (- EIO) 23 = (0, -597) := by
  decide

/-- C13, the code at the failing input: in triggered mode with the mode lock free,
`max78m6610_lmu_read_raw` returns `-EBUSY` with the mode lock still held, and the next call
waits on it without returning; in direct mode the same call leaves the lock free. -/
theorem C13_busy_return_keeps_lock :
    armed_device.mlock = false ∧
    (max78m6610_lmu_read_raw failing_bus fresh_collaborators armed_device channel_zero 0 0
        IIO_CHAN_INFO_RAW).map (fun r => (r.ret, r.indio_dev.mlock)) = some (- EBUSY, true) ∧
    max78m6610_lmu_read_raw failing_bus fresh_collaborators
        { armed_device with mlock := true } channel_zero 0 0 IIO_CHAN_INFO_RAW = none ∧
    (max78m6610_lmu_read_raw failing_bus fresh_collaborators idle_device channel_zero 0 0
        IIO_CHAN_INFO_RAW).map (fun r => r.indio_dev.mlock) = some false := by
  decide

/-- C18: for each of the 20 measurement entries of `max78m6610_lmu_channels`, the fractional
bit count `scan_type.shift` is 23, except the two PowerFactor entries (`extend_name`
"factor", ids 7 and 16, addresses `PFA` and `PFB`), for which it is 22. -/
theorem C18_fractional_bits (i : Nat) (hi : i < 20) :
    ∃ chan, max78m6610_lmu_channels[i]? = some chan ∧
      chan.scan_type.shift = (if chan.extend_name = some "factor" then 22 else 23) ∧
      (chan.extend_name = some "factor" ↔ i = 7 ∨ i = 16) ∧
      (i = 7 → chan.address = PFA) ∧ (i = 16 → chan.address = PFB) := by
  interval_cases i <;> exact ⟨_, rfl, by decide⟩

/-- C18 at id 7, the PowerFactor entry of source A. -/
theorem C18_fractional_bits_witness :
    ∃ chan, max78m6610_lmu_channels[7]? = some chan ∧
      chan.scan_type.shift = (if chan.extend_name = some "factor" then 22 else 23) ∧
      (chan.extend_name = some "factor" ↔ 7 = 7 ∨ 7 = 16) ∧
      (7 = 7 → chan.address = PFA) ∧ (7 = 16 → chan.address = PFB) :=
  C18_fractional_bits 7 (by decide)

/-- C19: the channel table has exactly 21 entries and the id (`scan_index`) of the entry at
index `i` is `i`, for every `i` in 0..20; the ids are pairwise distinct, and the entry of id 20
is the Timestamp slot, the only one of that kind. -/
theorem C19_ids_are_indices :
    max78m6610_lmu_channels.length = 21 ∧ MAX_CHAN_NUM = 21 ∧
    max78m6610_lmu_channels.map (fun c => c.scan_index)
      = (List.range 21).map (fun i => (i : Int)) ∧
    (max78m6610_lmu_channels.map (fun c => c.scan_index)).Nodup ∧
    max78m6610_lmu_channels.map (fun c => decide (c.type = .IIO_TIMESTAMP))
      = (List.range 21).map (fun i => decide (i = 20)) := by
  decide

/-- C20: `max78m6610_lmu_read_raw` with `IIO_CHAN_INFO_SCALE` returns the integer 250 for every
Voltage and every Current channel and 62500 (= 250 * 250) for every Power channel, and
`-EINVAL` for a channel of any other type, whatever the mode and the lock; the device and the
collaborators (so the transport) are left as they were. -/
theorem C20_scale_constants (bus : spi_bus) (env : collaborators) (indio_dev : iio_dev)
    (chan : iio_chan_spec) (val val2 : Int) :
    max78m6610_lmu_read_raw bus env indio_dev chan val val2 IIO_CHAN_INFO_SCALE
      = some (scale_result env indio_dev chan val val2) ∧
    (scale_result env indio_dev chan val val2).env = env ∧
    (scale_result env indio_dev chan val val2).indio_dev = indio_dev ∧
    (250 : Int) * 250 = 62500 := by
  refine ⟨?_, ?_, ?_, by decide⟩
  · unfold max78m6610_lmu_read_raw scale_result
    cases h : chan.type <;> simp [IIO_CHAN_INFO_SCALE, IIO_CHAN_INFO_RAW]
  · unfold scale_result
    split_ifs <;> rfl
  · unfold scale_result
    split_ifs <;> rfl

/-- C14: for every measurement channel `c` and every 5-byte transport response `r`, when the
mode is not Triggered and the transport succeeds, `max78m6610_lmu_read_raw` with
`IIO_CHAN_INFO_RAW` performs exactly one transport transaction, of 5 bytes, whose first two
request bytes are `encodeRequest(address(c))`, and returns
`normalize(decodeSample(r), fractionalBits(c))` as an `IIO_VAL_INT_PLUS_NANO` value; the mode
lock is free again. -/
theorem C14_direct_read (bus : spi_bus) (env : collaborators) (indio_dev : iio_dev) (c : Nat)
    (chan : iio_chan_spec) (val val2 : Int) (r0 r1 r2 r3 r4 : Nat)
    (hc : c < 20) (hchan : max78m6610_lmu_channels[c]? = some chan)
    (hmode : indio_dev.currentmode ≠ INDIO_BUFFER_TRIGGERED) (hlock : indio_dev.mlock = false)
    (hs : state_sized indio_dev.priv) (hp : single_message_ready indio_dev.priv)
    (h1 : r1 ≤ 255) (h2 : r2 ≤ 255) (h3 : r3 ≤ 255) (h4 : r4 ≤ 255)
    (hbus : bus (scan_direct_request indio_dev.priv chan.address) = (0, [r0, r1, r2, r3, r4])) :
    ∃ res d, max78m6610_lmu_read_raw bus env indio_dev chan val val2 IIO_CHAN_INFO_RAW
        = some res ∧
      decodeSample [r0, r1, r2, r3, r4] = some d ∧
      res.ret = IIO_VAL_INT_PLUS_NANO ∧
      (res.val, res.val2) = ret_fraction_log2 d (chan.scan_type.shift : Nat) ∧
      res.env.spi_log = env.spi_log ++ [scan_direct_request indio_dev.priv chan.address] ∧
      (scan_direct_request indio_dev.priv chan.address).length = 5 ∧
      (scan_direct_request indio_dev.priv chan.address)[0]? = some (SPI_CB (channel_address c)) ∧
      (scan_direct_request indio_dev.priv chan.address)[1]?
        = some (SPI_TB_READ (channel_address c)) ∧
      res.env.pushed = env.pushed ∧ res.env.notify_done = env.notify_done ∧
      res.indio_dev.mlock = false := by
  obtain ⟨st2, hscan, -⟩ := scan_direct_success bus env indio_dev.priv chan.address
    r0 r1 r2 r3 r4 hs hp h1 h2 h3 h4 hbus
  obtain ⟨chan2, hch2, hadr, hcb, htb⟩ := table_entry c (by show c < 21; omega)
  have hce : chan2 = chan := Option.some.inj (hch2.symm.trans hchan)
  subst hce
  obtain ⟨-, hs2, -⟩ := hs
  have hM : MAX_CHAN_NUM = 21 := rfl
  have hL : SPI_MSG_LEN = 5 := rfl
  rw [hL, hM] at hs2
  refine ⟨{ ret := IIO_VAL_INT_PLUS_NANO,
            val := (ret_fraction_log2 (signed24 (r2 * 2 ^ 16 + r3 * 2 ^ 8 + r4))
              (chan2.scan_type.shift : Nat)).1,
            val2 := (ret_fraction_log2 (signed24 (r2 * 2 ^ 16 + r3 * 2 ^ 8 + r4))
              (chan2.scan_type.shift : Nat)).2,
            indio_dev := mutex_unlock { indio_dev with mlock := true, priv := st2 },
            env := { env with spi_log := env.spi_log ++
              [scan_direct_request indio_dev.priv chan2.address] } },
          signed24 (r2 * 2 ^ 16 + r3 * 2 ^ 8 + r4), ?_,
          decodeSample_slot r0 r1 r2 r3 r4 h1 h2 h3 h4, rfl, rfl, rfl, ?_, ?_, ?_, rfl, rfl, rfl⟩
  · unfold max78m6610_lmu_read_raw mutex_lock
    simp only [if_true, hlock, Bool.false_eq_true, if_false, Option.bind_eq_bind,
      Option.some_bind, hmode, hscan, Option.pure_def]
  · unfold scan_direct_request scan_direct_tx
    simp only [List.length_take, List.length_set, hL]
    omega
  · unfold scan_direct_request scan_direct_tx
    rw [List.getElem?_take_of_lt (by rw [hL]; omega), List.getElem?_set_ne (by omega),
      List.getElem?_set_self (by omega), hcb, hadr]
  · unfold scan_direct_request scan_direct_tx
    rw [List.getElem?_take_of_lt (by rw [hL]; omega),
      List.getElem?_set_self (by rw [List.length_set]; omega), htb, hadr]

/-- C14 on the idle device, channel 0 and the response `[0x12, 0x34, 0x40, 0, 0]` (one half
in Q23). -/
theorem C14_direct_read_witness :
    ∃ res d, max78m6610_lmu_read_raw (answering_bus [0x12, 0x34, 0x40, 0, 0])
        fresh_collaborators idle_device channel_zero 0 0 IIO_CHAN_INFO_RAW = some res ∧
      decodeSample [0x12, 0x34, 0x40, 0, 0] = some d ∧
      res.ret = IIO_VAL_INT_PLUS_NANO ∧
      (res.val, res.val2) = ret_fraction_log2 d (channel_zero.scan_type.shift : Nat) ∧
      res.env.spi_log = fresh_collaborators.spi_log ++
        [scan_direct_request idle_device.priv channel_zero.address] ∧
      (scan_direct_request idle_device.priv channel_zero.address).length = 5 ∧
      (scan_direct_request idle_device.priv channel_zero.address)[0]?
        = some (SPI_CB (channel_address 0)) ∧
      (scan_direct_request idle_device.priv channel_zero.address)[1]?
        = some (SPI_TB_READ (channel_address 0)) ∧
      res.env.pushed = fresh_collaborators.pushed ∧
      res.env.notify_done = fresh_collaborators.notify_done ∧
      res.indio_dev.mlock = false :=
  C14_direct_read (answering_bus [0x12, 0x34, 0x40, 0, 0]) fresh_collaborators idle_device 0
    channel_zero 0 0 0x12 0x34 0x40 0 0 (by decide) (by decide) (by decide) (by decide)
    (by decide) (by decide) (by decide) (by decide) (by decide) (by decide) rfl

/-- C15: for every engine state whose ring message is the one of the active mask
(`ring_ready`, which `max78m6610_lmu_update_scan_mode` establishes and the handler keeps) and
every transport outcome, one invocation of `max78m6610_lmu_trigger_handler` performs one
transaction, calls `iio_trigger_notify_done` exactly once, and pushes no row when the
transaction fails and exactly one row when it succeeds. -/
theorem C15_acknowledge_once (bus : spi_bus) (time_now : Int) (junk : Nat → Nat)
    (env : collaborators) (mask : Nat) (indio_dev : iio_dev)
    (hr : ring_ready mask indio_dev.priv)
    (hmask : indio_dev.active_scan_mask = mask) (hml : indio_dev.masklength = MAX_CHAN_NUM)
    (hts : indio_dev.scan_timestamp = true →
      8 ≤ indio_dev.scan_bytes ∧ indio_dev.scan_bytes ≤ SCAN_BUF_BYTES) :
    ∃ dev2 env2 req, max78m6610_lmu_trigger_handler bus time_now junk env indio_dev
        = some (IRQ_HANDLED, dev2, env2) ∧
      ring_ready mask dev2.priv ∧
      env2.notify_done = env.notify_done + 1 ∧
      env2.spi_log = env.spi_log ++ [req] ∧
      ((bus req).1 ≠ 0 → env2.pushed = env.pushed) ∧
      ((bus req).1 = 0 → ∃ row, env2.pushed = env.pushed ++ [row]) := by
  by_cases hst : (bus (indio_dev.priv.tx_buf.take
      (5 * bitmap_weight mask MAX_CHAN_NUM))).1 = 0
  · obtain ⟨dev2, sb, hh, hr2, -⟩ := trigger_handler_success bus time_now junk env mask
      indio_dev hr (bitmap_weight mask MAX_CHAN_NUM) hmask hml rfl hts hst
    exact ⟨dev2, _, _, hh, hr2, rfl, rfl, fun h => absurd hst h, fun _ => ⟨_, rfl⟩⟩
  · have hh := trigger_handler_failure bus time_now junk env mask indio_dev hr
      (bitmap_weight mask MAX_CHAN_NUM) rfl hst
    exact ⟨indio_dev, _, _, hh, hr, rfl, rfl, fun _ => rfl, fun h => absurd h hst⟩

/-- C15 on the device armed for channels 0 and 2, with a transport that fails. -/
theorem C15_acknowledge_once_witness :
    ∃ dev2 env2 req, max78m6610_lmu_trigger_handler failing_bus 0 (fun _ => 0)
        fresh_collaborators two_channel_device = some (IRQ_HANDLED, dev2, env2) ∧
      ring_ready 5 dev2.priv ∧
      env2.notify_done = fresh_collaborators.notify_done + 1 ∧
      env2.spi_log = fresh_collaborators.spi_log ++ [req] ∧
      ((failing_bus req).1 ≠ 0 → env2.pushed = fresh_collaborators.pushed) ∧
      ((failing_bus req).1 = 0 → ∃ row, env2.pushed = fresh_collaborators.pushed ++ [row]) :=
  C15_acknowledge_once failing_bus 0 (fun _ => 0) fresh_collaborators 5 two_channel_device
    (by decide) (by decide) (by decide) (by decide)

/-- C17: for every selection of `n <= 20` measurement channels with the timestamp slot enabled
and the row length `scan_bytes = (4n rounded up to a multiple of 8) + 8`, the 8 bytes at
offset `scan_bytes - 8` of the row pushed by `max78m6610_lmu_trigger_handler` are the bytes of
the value returned by the timestamp collaborator during the cycle, after all samples have
been stored; with 20 channels the row has `4 * 20 + 8 = 88` bytes and the timestamp is at
bytes 80..87. -/
theorem C17_timestamp_in_row (bus : spi_bus) (time_now : Int) (junk : Nat → Nat)
    (env : collaborators) (mask n : Nat) (indio_dev : iio_dev)
    (R : List Nat) (hm : mask < 2 ^ 20) (hr : ring_ready mask indio_dev.priv)
    (hmask : indio_dev.active_scan_mask = mask) (hml : indio_dev.masklength = MAX_CHAN_NUM)
    (hn : n = bitmap_weight mask MAX_CHAN_NUM)
    (hts : indio_dev.scan_timestamp = true)
    (hsb : indio_dev.scan_bytes = (4 * n + 7) / 8 * 8 + 8)
    (hbus : bus (indio_dev.priv.tx_buf.take (5 * n)) = (0, R)) :
    n = popcount mask ∧ n ≤ 20 ∧
    (∃ dev2 env2 row, max78m6610_lmu_trigger_handler bus time_now junk env indio_dev
        = some (IRQ_HANDLED, dev2, env2) ∧
      env2.pushed = env.pushed ++ [row] ∧
      row.length = indio_dev.scan_bytes ∧
      (row.drop (indio_dev.scan_bytes - 8)).take 8 = le_bytes 8 (to_u64 time_now) ∧
      (n = 20 → row.length = 4 * 20 + 8 ∧
        (row.drop 80).take 8 = le_bytes 8 (to_u64 time_now))) := by
  obtain ⟨hpc, hle⟩ := bitmap_weight_measurement mask hm
  have hn20 : n ≤ 20 := by rw [hn, hpc]; exact hle
  have hSB : SCAN_BUF_BYTES = 92 := rfl
  have hst : (bus (indio_dev.priv.tx_buf.take (5 * n))).1 = 0 := by rw [hbus]
  obtain ⟨dev2, sb, hh, -, hsbl, hstamp, -⟩ := trigger_handler_success bus time_now junk env
    mask indio_dev hr n hmask hml hn (fun _ => by rw [hSB]; omega) hst
  rw [hSB] at hsbl
  have hrowlen : (sb.take indio_dev.scan_bytes).length = indio_dev.scan_bytes := by
    rw [List.length_take]
    omega
  have hbytes : ((sb.take indio_dev.scan_bytes).drop (indio_dev.scan_bytes - 8)).take 8
      = le_bytes 8 (to_u64 time_now) := by
    apply List.ext_getElem?
    intro i
    by_cases hi : i < 8
    · rw [List.getElem?_take_of_lt hi, List.getElem?_drop,
        List.getElem?_take_of_lt (by omega),
        hstamp hts _ (by omega) (by omega) (by omega), to_u64_to_s64]
      congr 1
      omega
    · rw [List.getElem?_take, if_neg hi, List.getElem?_eq_none (by rw [le_bytes_length]; omega)]
  refine ⟨by rw [hn, hpc], hn20, dev2, _, _, hh, rfl, hrowlen, hbytes, ?_⟩
  intro h20
  have e88 : indio_dev.scan_bytes = 88 := by omega
  refine ⟨by rw [hrowlen, e88], ?_⟩
  have e80 : indio_dev.scan_bytes - 8 = 80 := by omega
  rw [← e80]
  exact hbytes

/-- C17 on the device armed for channels 0 and 2 with the timestamp: the row has 16 bytes. -/
theorem C17_timestamp_in_row_witness :
    2 = popcount 5 ∧ 2 ≤ 20 ∧
    (∃ dev2 env2 row, max78m6610_lmu_trigger_handler
        (answering_bus [1, 2, 0x40, 0, 0, 3, 4, 0x80, 0, 1]) 0x0102030405060708 (fun _ => 0)
        fresh_collaborators two_channel_device = some (IRQ_HANDLED, dev2, env2) ∧
      env2.pushed = fresh_collaborators.pushed ++ [row] ∧
      row.length = two_channel_device.scan_bytes ∧
      (row.drop (two_channel_device.scan_bytes - 8)).take 8
        = le_bytes 8 (to_u64 0x0102030405060708) ∧
      (2 = 20 → row.length = 4 * 20 + 8 ∧
        (row.drop 80).take 8 = le_bytes 8 (to_u64 0x0102030405060708))) :=
  C17_timestamp_in_row (answering_bus [1, 2, 0x40, 0, 0, 3, 4, 0x80, 0, 1]) 0x0102030405060708
    (fun _ => 0) fresh_collaborators 5 2
    two_channel_device [1, 2, 0x40, 0, 0, 3, 4, 0x80, 0, 1] (by decide) (by decide)
    (by decide) (by decide) (by decide) (by decide) (by decide) rfl

/-- C25: the request-frame encoding is injective on 8-bit addresses: the address is recovered
from its frame as `(((SPI_CB(a) >> 2) & 3) << 6) | (SPI_TB_READ(a) >> 2) = a`, so two
different addresses never give the same frame. -/
theorem C25_frame_encoding_injective (a b : Nat) (ha : a ≤ 255) (hb : b ≤ 255) :
    ((((SPI_CB a >>> 2) &&& 3) <<< 6) ||| (SPI_TB_READ a >>> 2)) = a ∧
    (SPI_CB a = SPI_CB b → SPI_TB_READ a = SPI_TB_READ b → a = b) := by
  have key : ∀ x < 256, ((((SPI_CB x >>> 2) &&& 3) <<< 6) ||| (SPI_TB_READ x >>> 2)) = x := by
    decide
  refine ⟨key a (by omega), ?_⟩
  intro h1 h2
  rw [← key a (by omega), ← key b (by omega), h1, h2]

/-- C25 at the addresses `0x33` and `0x65`. -/
theorem C25_frame_encoding_injective_witness :
    ((((SPI_CB 0x33 >>> 2) &&& 3) <<< 6) ||| (SPI_TB_READ 0x33 >>> 2)) = 0x33 ∧
    (SPI_CB 0x33 = SPI_CB 0x65 → SPI_TB_READ 0x33 = SPI_TB_READ 0x65 → 0x33 = 0x65) :=
  C25_frame_encoding_injective 0x33 0x65 (by decide) (by decide)

/-- C26: the register addresses of the 20 measurement channels (ids 0..19) of
`max78m6610_lmu_channels` are pairwise distinct, and so are their request frames: two
distinct measurement channels never read the same sensor register. -/
theorem C26_measurement_addresses_distinct :
    ((max78m6610_lmu_channels.take 20).map (fun c => c.address)).Nodup ∧
    ((max78m6610_lmu_channels.take 20).map
      (fun c => (SPI_CB c.address, SPI_TB_READ c.address))).Nodup ∧
    (∀ i j : Fin 20, i ≠ j →
      channel_address i.val ≠ channel_address j.val ∧
      (SPI_CB (channel_address i.val), SPI_TB_READ (channel_address i.val))
        ≠ (SPI_CB (channel_address j.val), SPI_TB_READ (channel_address j.val))) := by
  decide

/-- C29: `stmmac_find_phy_addr(b, p)` returns the `phy_addr` of the `phy_data` entry with
`bus_id = b` and `plat_id = p` when there is one, and -1 when there is none; each
`(plat_id, bus_id)` pair occurs at most once in `phy_data`; the result is -1 exactly when no
entry matches or the matching entry is marked not connected, and otherwise it is 1 or 3. -/
theorem C29_find_phy_addr (b : Int) (p : cln_plat_id_t) :
    (∀ e ∈ phy_data, e.bus_id = b → e.plat_id = p → stmmac_find_phy_addr b p = e.phy_addr) ∧
    ((∀ e ∈ phy_data, ¬ (e.bus_id = b ∧ e.plat_id = p)) → stmmac_find_phy_addr b p = -1) ∧
    (phy_data.map (fun e => (e.plat_id, e.bus_id))).Nodup ∧
    (stmmac_find_phy_addr b p = -1 ↔
      (∀ e ∈ phy_data, ¬ (e.bus_id = b ∧ e.plat_id = p)) ∨
      (∃ e ∈ phy_data, e.bus_id = b ∧ e.plat_id = p ∧ e.phy_addr = -1)) ∧
    (stmmac_find_phy_addr b p ≠ -1 →
      stmmac_find_phy_addr b p = 1 ∨ stmmac_find_phy_addr b p = 3) := by
  obtain ⟨h1, h2⟩ := find_phy_addr_from_spec b p phy_data phy_data_keys_nodup
  have hcases : (∀ e ∈ phy_data, ¬ (e.bus_id = b ∧ e.plat_id = p)) ∨
      (∃ e ∈ phy_data, e.bus_id = b ∧ e.plat_id = p) := by
    by_cases h : ∃ e ∈ phy_data, e.bus_id = b ∧ e.plat_id = p
    · exact Or.inr h
    · left
      intro e he hm
      exact h ⟨e, he, hm⟩
  refine ⟨h1, h2, phy_data_keys_nodup, ?_, ?_⟩
  · constructor
    · intro hres
      rcases hcases with hn | ⟨e, he, hb, hp⟩
      · exact Or.inl hn
      · right
        refine ⟨e, he, hb, hp, ?_⟩
        rw [← h1 e he hb hp]
        exact hres
    · rintro (hn | ⟨e, he, hb, hp, hv⟩)
      · exact h2 hn
      · show stmmac_find_phy_addr_from b p phy_data = -1
        rw [h1 e he hb hp, hv]
  · intro hne
    rcases hcases with hn | ⟨e, he, hb, hp⟩
    · exact absurd (h2 hn) hne
    · have hv := phy_data_values e he
      have hr : stmmac_find_phy_addr b p = e.phy_addr := h1 e he hb hp
      rw [hr] at hne ⊢
      rcases hv with hv | hv | hv
      · exact absurd hv hne
      · exact Or.inl hv
      · exact Or.inr hv

/-- C22: for `fb` in {22, 23} and every `raw` with `-2^fb < raw < 2^fb`, `ret_fraction_log2`
returns `(i, n)` with `i = 0` and `|n - raw * 10^9 / 2^fb| <= 1` over the rationals, so that
`i + n / 10^9` is within `10^-9` of the true value `raw / 2^fb`; for `raw >= 0` the fraction
is the truncation (never above the exact value), for `raw < 0` it is strictly below the exact
value, by at most one nano-unit. -/
theorem C22_within_one_nano_unit (raw : Int) (fb : Nat) (hfb : fb = 22 ∨ fb = 23)
    (hlo : -2 ^ fb < raw) (hhi : raw < 2 ^ fb) :
    (ret_fraction_log2 raw fb).1 = 0 ∧
    |((ret_fraction_log2 raw fb).2 : ℚ) - (raw : ℚ) * 1000000000 / 2 ^ fb| ≤ 1 ∧
    |((ret_fraction_log2 raw fb).1 : ℚ) + ((ret_fraction_log2 raw fb).2 : ℚ) / 1000000000
        - (raw : ℚ) / 2 ^ fb| ≤ 1 / 1000000000 ∧
    (0 ≤ raw → ((ret_fraction_log2 raw fb).2 : ℚ) ≤ (raw : ℚ) * 1000000000 / 2 ^ fb ∧
      (raw : ℚ) * 1000000000 / 2 ^ fb < ((ret_fraction_log2 raw fb).2 : ℚ) + 1) ∧
    (raw < 0 → ((ret_fraction_log2 raw fb).2 : ℚ) < (raw : ℚ) * 1000000000 / 2 ^ fb ∧
      (raw : ℚ) * 1000000000 / 2 ^ fb ≤ ((ret_fraction_log2 raw fb).2 : ℚ) + 1) := by
  have hD : (0 : ℚ) < 2 ^ fb := by positivity
  have hx : (raw : ℚ) / 2 ^ fb = (raw : ℚ) * 1000000000 / 2 ^ fb / 1000000000 := by
    field_simp
    ring
  by_cases hneg : raw < 0
  · have hc := ret_fraction_log2_neg raw fb (by rcases hfb with rfl | rfl <;> omega) hneg
    have hi : to_s32 ((-raw) * 1000000000 / 2 ^ fb / 1000000000) = 0 := by
      have : (-raw) * 1000000000 / 2 ^ fb / 1000000000 = 0 := by
        rcases hfb with rfl | rfl <;> omega
      rw [this]
      rfl
    have hm : (-raw) * 1000000000 / 2 ^ fb % 1000000000 = (-raw) * 1000000000 / 2 ^ fb := by
      rcases hfb with rfl | rfl <;> omega
    rw [hi, hm] at hc
    obtain ⟨q1, q2⟩ := scaled_rational (-raw) fb
    have e : ((-raw : Int) : ℚ) * 1000000000 / 2 ^ fb = -((raw : ℚ) * 1000000000 / 2 ^ fb) := by
      push_cast
      ring
    rw [e] at q1 q2
    rw [hc, hx]
    simp only [Int.cast_zero, Int.cast_sub, Int.cast_neg, Int.cast_one]
    refine ⟨trivial, ?_, ?_, ?_, ?_⟩
    · rw [abs_le]
      constructor <;> linarith
    · rw [abs_le]
      constructor <;> linarith
    · intro h
      omega
    · intro _
      constructor <;> linarith
  · have hc := ret_fraction_log2_nonneg raw fb (by omega)
      (by rcases hfb with rfl | rfl <;> omega)
    have hi : to_s32 (raw * 1000000000 / 2 ^ fb / 1000000000) = 0 := by
      have : raw * 1000000000 / 2 ^ fb / 1000000000 = 0 := by
        rcases hfb with rfl | rfl <;> omega
      rw [this]
      rfl
    have hm : raw * 1000000000 / 2 ^ fb % 1000000000 = raw * 1000000000 / 2 ^ fb := by
      rcases hfb with rfl | rfl <;> omega
    rw [hi, hm] at hc
    obtain ⟨q1, q2⟩ := scaled_rational raw fb
    rw [hc, hx]
    simp only [Int.cast_zero]
    refine ⟨trivial, ?_, ?_, ?_, ?_⟩
    · rw [abs_le]
      constructor <;> linarith
    · rw [abs_le]
      constructor <;> linarith
    · intro _
      exact ⟨q1, q2⟩
    · intro h
      exact absurd h hneg

/-- C22 at `raw = -4194304`, `fb = 23` (true value -0.5). -/
theorem C22_within_one_nano_unit_witness :
    (ret_fraction_log2 (-4194304) (23 : Nat)).1 = 0 ∧
    |((ret_fraction_log2 (-4194304) (23 : Nat)).2 : ℚ)
        - ((-4194304 : Int) : ℚ) * 1000000000 / 2 ^ (23 : Nat)| ≤ 1 ∧
    |((ret_fraction_log2 (-4194304) (23 : Nat)).1 : ℚ)
        + ((ret_fraction_log2 (-4194304) (23 : Nat)).2 : ℚ) / 1000000000
        - ((-4194304 : Int) : ℚ) / 2 ^ (23 : Nat)| ≤ 1 / 1000000000 ∧
    (0 ≤ (-4194304 : Int) →
      ((ret_fraction_log2 (-4194304) (23 : Nat)).2 : ℚ)
        ≤ ((-4194304 : Int) : ℚ) * 1000000000 / 2 ^ (23 : Nat) ∧
      ((-4194304 : Int) : ℚ) * 1000000000 / 2 ^ (23 : Nat)
        < ((ret_fraction_log2 (-4194304) (23 : Nat)).2 : ℚ) + 1) ∧
    ((-4194304 : Int) < 0 →
      ((ret_fraction_log2 (-4194304) (23 : Nat)).2 : ℚ)
        < ((-4194304 : Int) : ℚ) * 1000000000 / 2 ^ (23 : Nat) ∧
      ((-4194304 : Int) : ℚ) * 1000000000 / 2 ^ (23 : Nat)
        ≤ ((ret_fraction_log2 (-4194304) (23 : Nat)).2 : ℚ) + 1) :=
  C22_within_one_nano_unit (-4194304) 23 (Or.inr rfl) (by decide) (by decide)

/-- C23: for every signed 32-bit `raw`, `-2^31` included, and every `fb` (0..31 among them),
the 64-bit intermediates of `ret_fraction_log2` do not overflow: the negation
`(tmp ^ 0xFFFFFFFFFFFFFFFF) + 1` is `-raw`, `|raw| * 10^9 < 2^63` so the product is not
wrapped, the shifted value is the floor of `|raw| * 10^9 / 2^fb`, and `do_div` splits it
into its exact quotient and remainder; for `fb` in {22, 23} both returned components are the
unbounded values and lie in the signed 32-bit range. -/
theorem C23_no_intermediate_overflow (raw : Int) (fb : Nat) (h0 : -2 ^ 31 ≤ raw)
    (h1 : raw < 2 ^ 31) :
    to_s64 (((to_u64 raw ^^^ SIGN_CONVERT) + 1 : Nat) : Int) = -raw ∧
    |raw| * 1000000000 < 2 ^ 63 ∧
    to_s64 (|raw| * 1000000000) = |raw| * 1000000000 ∧
    to_s64 (|raw| * 1000000000) >>> fb = |raw| * 1000000000 / 2 ^ fb ∧
    do_div (|raw| * 1000000000 / 2 ^ fb) 1000000000
      = (|raw| * 1000000000 / 2 ^ fb / 1000000000,
         (|raw| * 1000000000 / 2 ^ fb % 1000000000).toNat) ∧
    ret_fraction_log2 raw fb
      = (to_s32 (|raw| * 1000000000 / 2 ^ fb / 1000000000),
         if raw < 0 then -(|raw| * 1000000000 / 2 ^ fb % 1000000000) - 1
         else |raw| * 1000000000 / 2 ^ fb % 1000000000) ∧
    (fb = 22 ∨ fb = 23 →
      ret_fraction_log2 raw fb
        = (|raw| * 1000000000 / 2 ^ fb / 1000000000,
           if raw < 0 then -(|raw| * 1000000000 / 2 ^ fb % 1000000000) - 1
           else |raw| * 1000000000 / 2 ^ fb % 1000000000) ∧
      -2 ^ 31 ≤ (ret_fraction_log2 raw fb).1 ∧ (ret_fraction_log2 raw fb).1 < 2 ^ 31 ∧
      -2 ^ 31 ≤ (ret_fraction_log2 raw fb).2 ∧ (ret_fraction_log2 raw fb).2 < 2 ^ 31) := by
  have hm0 : 0 ≤ |raw| := abs_nonneg raw
  have hm1 : |raw| ≤ 2 ^ 31 := by
    rw [abs_le]
    constructor <;> omega
  have hb := scaled_bounds |raw| fb hm0 hm1
  have hd := do_div_nonneg (|raw| * 1000000000 / 2 ^ fb) hb.1 (by omega)
  have hclosed : ret_fraction_log2 raw fb
      = (to_s32 (|raw| * 1000000000 / 2 ^ fb / 1000000000),
         if raw < 0 then -(|raw| * 1000000000 / 2 ^ fb % 1000000000) - 1
         else |raw| * 1000000000 / 2 ^ fb % 1000000000) := by
    by_cases hneg : raw < 0
    · rw [if_pos hneg, abs_of_neg hneg]
      exact ret_fraction_log2_neg raw fb h0 hneg
    · rw [if_neg hneg, abs_of_nonneg (by omega)]
      exact ret_fraction_log2_nonneg raw fb (by omega) h1
  refine ⟨negate_exact raw h0 h1, by omega, to_s64_of_range _ (by omega) (by omega),
    scaled_step |raw| fb hm0 hm1, ?_, hclosed, ?_⟩
  · apply Prod.ext
    · exact hd.1
    · show (do_div (|raw| * 1000000000 / 2 ^ fb) 1000000000).2
        = (|raw| * 1000000000 / 2 ^ fb % 1000000000).toNat
      have h2 := hd.2
      omega
  · intro hfb
    have hq : to_s32 (|raw| * 1000000000 / 2 ^ fb / 1000000000)
        = |raw| * 1000000000 / 2 ^ fb / 1000000000 := by
      apply to_s32_of_range <;> rcases hfb with rfl | rfl <;> omega
    have hq2 : |raw| * 1000000000 / 2 ^ fb / 1000000000 ≤ 512 := by
      rcases hfb with rfl | rfl <;> omega
    have hq3 : 0 ≤ |raw| * 1000000000 / 2 ^ fb / 1000000000 := by
      rcases hfb with rfl | rfl <;> omega
    rw [hq] at hclosed
    rw [hclosed]
    refine ⟨rfl, ?_, ?_, ?_, ?_⟩
    · show -2 ^ 31 ≤ |raw| * 1000000000 / 2 ^ fb / 1000000000
      omega
    · show |raw| * 1000000000 / 2 ^ fb / 1000000000 < 2 ^ 31
      omega
    · show -2 ^ 31 ≤ (if raw < 0 then -(|raw| * 1000000000 / 2 ^ fb % 1000000000) - 1
        else |raw| * 1000000000 / 2 ^ fb % 1000000000)
      split_ifs <;> omega
    · show (if raw < 0 then -(|raw| * 1000000000 / 2 ^ fb % 1000000000) - 1
        else |raw| * 1000000000 / 2 ^ fb % 1000000000) < 2 ^ 31
      split_ifs <;> omega

/-- C23 at the most negative input `raw = -2^31` with `fb = 22`. -/
theorem C23_no_intermediate_overflow_witness :
    to_s64 (((to_u64 (-2147483648) ^^^ SIGN_CONVERT) + 1 : Nat) : Int) = -(-2147483648) ∧
    |(-2147483648 : Int)| * 1000000000 < 2 ^ 63 ∧
    to_s64 (|(-2147483648 : Int)| * 1000000000) = |(-2147483648 : Int)| * 1000000000 ∧
    to_s64 (|(-2147483648 : Int)| * 1000000000) >>> (22 : Nat)
      = |(-2147483648 : Int)| * 1000000000 / 2 ^ (22 : Nat) ∧
    do_div (|(-2147483648 : Int)| * 1000000000 / 2 ^ (22 : Nat)) 1000000000
      = (|(-2147483648 : Int)| * 1000000000 / 2 ^ (22 : Nat) / 1000000000,
         (|(-2147483648 : Int)| * 1000000000 / 2 ^ (22 : Nat) % 1000000000).toNat) ∧
    ret_fraction_log2 (-2147483648) (22 : Nat)
      = (to_s32 (|(-2147483648 : Int)| * 1000000000 / 2 ^ (22 : Nat) / 1000000000),
         if (-2147483648 : Int) < 0
         then -(|(-2147483648 : Int)| * 1000000000 / 2 ^ (22 : Nat) % 1000000000) - 1
         else |(-2147483648 : Int)| * 1000000000 / 2 ^ (22 : Nat) % 1000000000) ∧
    ((22 : Nat) = 22 ∨ (22 : Nat) = 23 →
      ret_fraction_log2 (-2147483648) (22 : Nat)
        = (|(-2147483648 : Int)| * 1000000000 / 2 ^ (22 : Nat) / 1000000000,
           if (-2147483648 : Int) < 0
           then -(|(-2147483648 : Int)| * 1000000000 / 2 ^ (22 : Nat) % 1000000000) - 1
           else |(-2147483648 : Int)| * 1000000000 / 2 ^ (22 : Nat) % 1000000000) ∧
      -2 ^ 31 ≤ (ret_fraction_log2 (-2147483648) (22 : Nat)).1 ∧
      (ret_fraction_log2 (-2147483648) (22 : Nat)).1 < 2 ^ 31 ∧
      -2 ^ 31 ≤ (ret_fraction_log2 (-2147483648) (22 : Nat)).2 ∧
      (ret_fraction_log2 (-2147483648) (22 : Nat)).2 < 2 ^ 31) :=
  C23_no_intermediate_overflow (-2147483648) 22 (by decide) (by decide)

/-- C24: for every selection mask, the empty one and the full set of 21 bits among them,
`max78m6610_lmu_update_scan_mode` on a state of the declared sizes returns 0, and every
index of its loop is in bounds: in each iteration `i < 21` the body is defined, and where
bit `i` is selected the offsets `tx` and `tx + 1` are at most 104, inside `tx_buf` (and
`rx_buf`), and the transfer index `k` is at most 20, inside `ring_xfer`. -/
theorem C24_scan_builder_in_bounds (st : max78m6610_lmu_state) (hs : state_sized st)
    (mask : Nat) :
    (∃ st1, max78m6610_lmu_update_scan_mode st mask = some (0, st1) ∧
      st1.ring_msg.length ≤ MAX_CHAN_NUM) ∧
    (∀ i, i < MAX_CHAN_NUM → ∃ l l2, update_scan_mode_loop st mask i = some l ∧
      update_scan_mode_body mask l i = some l2 ∧
      (test_bit i mask = true →
        l.tx + 1 ≤ 104 ∧ l.tx + 1 < l.st.tx_buf.length ∧ l.tx + 1 < l.st.rx_buf.length ∧
        l.k ≤ 20 ∧ l.k < l.st.ring_xfer.length)) ∧
    (∃ st1, max78m6610_lmu_update_scan_mode st 0 = some (0, st1) ∧ st1.ring_msg = []) ∧
    (∃ st1, max78m6610_lmu_update_scan_mode st (2 ^ 21 - 1) = some (0, st1) ∧
      st1.ring_msg.length = 21) := by
  have hM : MAX_CHAN_NUM = 21 := rfl
  have hL : SPI_MSG_LEN = 5 := rfl
  refine ⟨?_, ?_, ?_, ?_⟩
  · obtain ⟨st1, h1, h2, -⟩ := update_scan_mode_batch st hs mask
    refine ⟨st1, h1, ?_⟩
    rw [h2, List.length_map, List.length_range]
    exact selected_below_length_le mask MAX_CHAN_NUM
  · intro i hi
    obtain ⟨l, hl, hinv⟩ := scan_inv_loop st hs mask i (le_of_lt hi)
    obtain ⟨l2, hl2, -⟩ := scan_inv_step st hs mask i hi l hinv
    refine ⟨l, l2, hl, hl2, ?_⟩
    intro _
    obtain ⟨hk, htx, -, hxl, htl, hrx, -⟩ := hinv
    obtain ⟨hs1, hs2, hs3⟩ := hs
    have hle := selected_below_length_le mask i
    rw [hL] at htx
    rw [hM] at hi hs1
    rw [hL, hM] at hs2 hs3
    rw [hrx]
    omega
  · obtain ⟨st1, h1, h2, -⟩ := update_scan_mode_batch st hs 0
    have hsel : selected 0 = [] := by decide
    rw [hsel] at h2
    exact ⟨st1, h1, h2⟩
  · obtain ⟨st1, h1, h2, -⟩ := update_scan_mode_batch st hs (2 ^ 21 - 1)
    have hsel : (selected (2 ^ 21 - 1)).length = 21 := by decide
    refine ⟨st1, h1, ?_⟩
    rw [h2, List.length_map, List.length_range, hsel]

/-- C24 on the zero-filled state with channels 0 and 2 selected. -/
theorem C24_scan_builder_in_bounds_witness :
    (∃ st1, max78m6610_lmu_update_scan_mode zeroed_state 5 = some (0, st1) ∧
      st1.ring_msg.length ≤ MAX_CHAN_NUM) ∧
    (∀ i, i < MAX_CHAN_NUM → ∃ l l2, update_scan_mode_loop zeroed_state 5 i = some l ∧
      update_scan_mode_body 5 l i = some l2 ∧
      (test_bit i 5 = true →
        l.tx + 1 ≤ 104 ∧ l.tx + 1 < l.st.tx_buf.length ∧ l.tx + 1 < l.st.rx_buf.length ∧
        l.k ≤ 20 ∧ l.k < l.st.ring_xfer.length)) ∧
    (∃ st1, max78m6610_lmu_update_scan_mode zeroed_state 0 = some (0, st1) ∧
      st1.ring_msg = []) ∧
    (∃ st1, max78m6610_lmu_update_scan_mode zeroed_state (2 ^ 21 - 1) = some (0, st1) ∧
      st1.ring_msg.length = 21) :=
  C24_scan_builder_in_bounds zeroed_state (by decide) 5

/-- C28: for every count `n <= 21` of set bits in the active scan mask, every buffer access
of `max78m6610_lmu_trigger_handler` is in bounds: the word at `rx_buf` offsets
`5i+1 .. 5i+4` for `i < n` lies inside `rx_buf` (113 bytes), `scan_buf[i]` for `i < n` lies
inside `scan_buf` (92 bytes), and with the timestamp enabled, `n <= 20` and
`scan_bytes = (4n rounded up to a multiple of 8) + 8`, the 8-byte write at
`scan_bytes - 8` ends at or before byte 92; so the handler, its decode loop and its timestamp
step are defined whatever the transport answers. -/
theorem C28_handler_in_bounds (bus : spi_bus) (time_now : Int) (junk : Nat → Nat)
    (env : collaborators) (mask : Nat) (indio_dev : iio_dev)
    (hr : ring_ready mask indio_dev.priv)
    (hmask : indio_dev.active_scan_mask = mask) (hml : indio_dev.masklength = MAX_CHAN_NUM)
    (hts : indio_dev.scan_timestamp = true →
      bitmap_weight mask MAX_CHAN_NUM ≤ 20 ∧
      indio_dev.scan_bytes = (4 * bitmap_weight mask MAX_CHAN_NUM + 7) / 8 * 8 + 8) :
    bitmap_weight indio_dev.active_scan_mask indio_dev.masklength ≤ 21 ∧
    indio_dev.priv.rx_buf.length = 5 * 21 + 8 ∧ SCAN_BUF_BYTES = 92 ∧
    (∀ i, i < bitmap_weight indio_dev.active_scan_mask indio_dev.masklength →
      i * SPI_MSG_LEN + RX_OFFSET + 4 ≤ indio_dev.priv.rx_buf.length ∧
      4 * i + 4 ≤ SCAN_BUF_BYTES) ∧
    (indio_dev.scan_timestamp = true →
      8 ≤ indio_dev.scan_bytes ∧ indio_dev.scan_bytes - 8 + 8 ≤ SCAN_BUF_BYTES) ∧
    (∀ rx0 sb0 : List Nat, rx0.length = 5 * 21 + 8 → sb0.length = SCAN_BUF_BYTES →
      (∃ sb1, trigger_stamp indio_dev time_now sb0 = some sb1 ∧
        sb1.length = SCAN_BUF_BYTES) ∧
      (∃ l, trigger_decode_loop { rx_buf := rx0, scan_buf := sb0 }
          (bitmap_weight indio_dev.active_scan_mask indio_dev.masklength) = some l ∧
        l.rx_buf.length = rx0.length ∧ l.scan_buf.length = sb0.length)) ∧
    (∃ r, max78m6610_lmu_trigger_handler bus time_now junk env indio_dev = some r) := by
  have hM : MAX_CHAN_NUM = 21 := rfl
  have hL : SPI_MSG_LEN = 5 := rfl
  have hR : RX_OFFSET = 1 := rfl
  have hS : SCAN_BUF_BYTES = 92 := rfl
  have hle : bitmap_weight mask MAX_CHAN_NUM ≤ 21 := bitmap_weight_le mask MAX_CHAN_NUM
  have hrl : indio_dev.priv.rx_buf.length = 113 := hr.2.2.2
  have hts2 : indio_dev.scan_timestamp = true →
      8 ≤ indio_dev.scan_bytes ∧ indio_dev.scan_bytes ≤ SCAN_BUF_BYTES := by
    intro h
    obtain ⟨h1, h2⟩ := hts h
    rw [hS]
    omega
  rw [hmask, hml]
  refine ⟨hle, hrl, hS, ?_, ?_, ?_, ?_⟩
  · intro i hi
    rw [hL, hR, hS, hrl]
    omega
  · intro h
    obtain ⟨h1, h2⟩ := hts2 h
    exact ⟨h1, by omega⟩
  · intro rx0 sb0 hrx hsb
    constructor
    · unfold trigger_stamp
      by_cases h : indio_dev.scan_timestamp = true
      · obtain ⟨h1, h2⟩ := hts2 h
        rw [if_pos h]
        simp only [if_pos h1]
        obtain ⟨d, hd, hdl, -⟩ := memcpy_spec sb0 (indio_dev.scan_bytes - 8)
          (le_bytes 8 (to_u64 (to_s64 time_now))) (by rw [le_bytes_length, hsb]; omega)
        exact ⟨d, hd, hdl.trans hsb⟩
      · rw [if_neg h]
        exact ⟨sb0, rfl, hsb⟩
    · obtain ⟨l, hl, h1, h2, -⟩ := trigger_decode_loop_spec rx0 sb0
        (bitmap_weight mask MAX_CHAN_NUM) (by omega) (by rw [hsb, hS]; omega)
      exact ⟨l, hl, h1, h2⟩
  · by_cases hok : (bus (indio_dev.priv.tx_buf.take
        (5 * bitmap_weight mask MAX_CHAN_NUM))).1 = 0
    · obtain ⟨dev2, sb, h, -⟩ := trigger_handler_success bus time_now junk env mask indio_dev
        hr (bitmap_weight mask MAX_CHAN_NUM) hmask hml rfl hts2 hok
      exact ⟨_, h⟩
    · exact ⟨_, trigger_handler_failure bus time_now junk env mask indio_dev hr
        (bitmap_weight mask MAX_CHAN_NUM) rfl hok⟩

/-- C28 on the device armed for channels 0 and 2 with the timestamp (`scan_bytes = 16`). -/
theorem C28_handler_in_bounds_witness :
    bitmap_weight two_channel_device.active_scan_mask two_channel_device.masklength ≤ 21 ∧
    two_channel_device.priv.rx_buf.length = 5 * 21 + 8 ∧ SCAN_BUF_BYTES = 92 ∧
    (∀ i, i < bitmap_weight two_channel_device.active_scan_mask two_channel_device.masklength →
      i * SPI_MSG_LEN + RX_OFFSET + 4 ≤ two_channel_device.priv.rx_buf.length ∧
      4 * i + 4 ≤ SCAN_BUF_BYTES) ∧
    (two_channel_device.scan_timestamp = true →
      8 ≤ two_channel_device.scan_bytes ∧
      two_channel_device.scan_bytes - 8 + 8 ≤ SCAN_BUF_BYTES) ∧
    (∀ rx0 sb0 : List Nat, rx0.length = 5 * 21 + 8 → sb0.length = SCAN_BUF_BYTES →
      (∃ sb1, trigger_stamp two_channel_device 0 sb0 = some sb1 ∧
        sb1.length = SCAN_BUF_BYTES) ∧
      (∃ l, trigger_decode_loop { rx_buf := rx0, scan_buf := sb0 }
          (bitmap_weight two_channel_device.active_scan_mask two_channel_device.masklength)
            = some l ∧
        l.rx_buf.length = rx0.length ∧ l.scan_buf.length = sb0.length)) ∧
    (∃ r, max78m6610_lmu_trigger_handler failing_bus 0 (fun _ => 0) fresh_collaborators
      two_channel_device = some r) :=
  C28_handler_in_bounds failing_bus 0 (fun _ => 0) fresh_collaborators 5 two_channel_device
    (by decide) (by decide) (by decide) (by decide)

/-- C26 at the channels 0 and 9 (`INSTAN_VA` and `INSTAN_VB`). -/
theorem C26_measurement_addresses_distinct_witness :
    channel_address 0 ≠ channel_address 9 ∧
    (SPI_CB (channel_address 0), SPI_TB_READ (channel_address 0))
      ≠ (SPI_CB (channel_address 9), SPI_TB_READ (channel_address 9)) :=
  C26_measurement_addresses_distinct.2.2 ⟨0, by decide⟩ ⟨9, by decide⟩ (by decide)

/-- C29 at bus 1 of `CLANTON_PEAK`, whose entry has the PHY address 3. -/
theorem C29_find_phy_addr_witness :
    stmmac_find_phy_addr 1 .CLANTON_PEAK
      = ({ phy_addr := 3, bus_id := 1, plat_id := .CLANTON_PEAK } : stmmac_cln_mac_data).phy_addr :=
  (C29_find_phy_addr 1 .CLANTON_PEAK).1
    { phy_addr := 3, bus_id := 1, plat_id := .CLANTON_PEAK } (by decide) rfl rfl

/-- C27: `max78m6610_lmu_scan_direct` stores its request in `tx_buf[0]` and `tx_buf[1]` and
changes no other byte of `tx_buf`; these two bytes hold the first request frame of the
triggered batch. So after `max78m6610_lmu_update_scan_mode` for a non-empty mask and a raw
read of channel `c` in a mode other than Triggered, the first frame of the batch is
`encodeRequest(address(c))`, whatever the lowest selected channel is, and every later frame
of the batch is as `max78m6610_lmu_update_scan_mode` left it. -/
theorem C27_direct_read_overwrites_first_frame (bus : spi_bus) (env : collaborators)
    (st0 : max78m6610_lmu_state) (mask c : Nat) (chan : iio_chan_spec) (val val2 : Int)
    (indio_dev : iio_dev)
    (hs : state_sized st0) (hp : single_message_ready st0) (hne : selected mask ≠ [])
    (hchan : max78m6610_lmu_channels[c]? = some chan)
    (hu : max78m6610_lmu_update_scan_mode st0 mask = some (0, indio_dev.priv))
    (hmode : indio_dev.currentmode ≠ INDIO_BUFFER_TRIGGERED) (hlock : indio_dev.mlock = false) :
    ring_batch indio_dev.priv = expected_batch (selected mask) ∧
    (∃ ret st2 env2, max78m6610_lmu_scan_direct bus env indio_dev.priv chan.address
        = some (ret, st2, env2) ∧
      st2.tx_buf.length = indio_dev.priv.tx_buf.length ∧
      st2.tx_buf[0]? = some (SPI_CB chan.address) ∧
      st2.tx_buf[1]? = some (SPI_TB_READ chan.address) ∧
      ∀ q, 2 ≤ q → st2.tx_buf[q]? = indio_dev.priv.tx_buf[q]?) ∧
    (∃ res, max78m6610_lmu_read_raw bus env indio_dev chan val val2 IIO_CHAN_INFO_RAW
        = some res ∧
      (ring_batch res.indio_dev.priv).length = (ring_batch indio_dev.priv).length ∧
      (ring_batch res.indio_dev.priv)[0]? = some (some
        { controlByte := SPI_CB (channel_address c),
          transactionByte := SPI_TB_READ (channel_address c),
          tx_off := 0, rx_off := 0, len := 5 }) ∧
      ∀ k, 1 ≤ k → (ring_batch res.indio_dev.priv)[k]? = (ring_batch indio_dev.priv)[k]?) := by
  have hc : c < MAX_CHAN_NUM := by
    by_contra h
    have hlen : max78m6610_lmu_channels.length = MAX_CHAN_NUM := by decide
    have hnone : max78m6610_lmu_channels[c]? = none :=
      List.getElem?_eq_none (by rw [hlen]; omega)
    rw [hnone] at hchan
    cases hchan
  obtain ⟨chan2, hch2, hadr, hcb, htb⟩ := table_entry c hc
  have hce : chan2 = chan := Option.some.inj (hch2.symm.trans hchan)
  subst hce
  obtain ⟨st1, hb1, -, hb3, -⟩ := update_scan_mode_batch st0 hs mask
  have hst1 : st1 = indio_dev.priv := by
    have := hb1.symm.trans hu
    exact (Prod.mk.inj (Option.some.inj this)).2
  subst hst1
  obtain ⟨-, -, htl, hrl, -, hsx, hsm⟩ := update_scan_mode_layout st0 hs mask _ hu
  have hr : ring_ready mask indio_dev.priv := update_scan_mode_ring_ready st0 hs mask _ hu
  have hp1 : single_message_ready indio_dev.priv := by
    obtain ⟨p1, p2, p3, p4⟩ := hp
    exact ⟨hsm.trans p1, by rw [hsx]; exact p2, by rw [hsx]; exact p3, by rw [hsx]; exact p4⟩
  have hpos : 0 < bitmap_weight mask MAX_CHAN_NUM := List.length_pos.mpr hne
  obtain ⟨ret, st2, hscan, htx2, -, hmsg2, hx2, -, -⟩ :=
    scan_direct_effect bus env indio_dev.priv chan2.address hp1 htl hrl
  obtain ⟨t0, t1, t2, t3⟩ := scan_direct_tx_spec indio_dev.priv chan2.address (by omega)
  rw [hcb] at t1
  rw [htb] at t2
  rw [← htx2] at t0 t1 t2 t3
  refine ⟨hb3, ⟨ret, st2, _, hscan, t0, t1, t2, t3⟩, ?_⟩
  refine ⟨{ ret := IIO_VAL_INT_PLUS_NANO,
            val := (ret_fraction_log2 ret (chan2.scan_type.shift : Nat)).1,
            val2 := (ret_fraction_log2 ret (chan2.scan_type.shift : Nat)).2,
            indio_dev := mutex_unlock { indio_dev with mlock := true, priv := st2 },
            env := { env with spi_log := env.spi_log ++
              [scan_direct_request indio_dev.priv chan2.address] } }, ?_, ?_, ?_, ?_⟩
  · rw [read_raw_direct bus env indio_dev chan2 val val2 hmode hlock, hscan]
    rfl
  · show (ring_batch st2).length = _
    unfold ring_batch
    rw [List.length_map, List.length_map, hmsg2]
  · show (ring_batch st2)[0]? = _
    rw [← hadr]
    exact ring_batch_head mask indio_dev.priv st2 _ _ hr hpos hmsg2 hx2 t1 t2
  · exact ring_batch_tail mask indio_dev.priv st2 hr hmsg2 hx2 t3

/-- C27 on the probed device with channels 1 and 2 selected and a direct read of channel 0. -/
theorem C27_direct_read_overwrites_first_frame_witness :
    ring_batch rebuilt_idle_device.priv = expected_batch (selected 6) ∧
    (∃ ret st2 env2, max78m6610_lmu_scan_direct failing_bus fresh_collaborators
        rebuilt_idle_device.priv channel_zero.address = some (ret, st2, env2) ∧
      st2.tx_buf.length = rebuilt_idle_device.priv.tx_buf.length ∧
      st2.tx_buf[0]? = some (SPI_CB channel_zero.address) ∧
      st2.tx_buf[1]? = some (SPI_TB_READ channel_zero.address) ∧
      ∀ q, 2 ≤ q → st2.tx_buf[q]? = rebuilt_idle_device.priv.tx_buf[q]?) ∧
    (∃ res, max78m6610_lmu_read_raw failing_bus fresh_collaborators rebuilt_idle_device
        channel_zero 0 0 IIO_CHAN_INFO_RAW = some res ∧
      (ring_batch res.indio_dev.priv).length = (ring_batch rebuilt_idle_device.priv).length ∧
      (ring_batch res.indio_dev.priv)[0]? = some (some
        { controlByte := SPI_CB (channel_address 0),
          transactionByte := SPI_TB_READ (channel_address 0),
          tx_off := 0, rx_off := 0, len := 5 }) ∧
      ∀ k, 1 ≤ k →
        (ring_batch res.indio_dev.priv)[k]? = (ring_batch rebuilt_idle_device.priv)[k]?) :=
  C27_direct_read_overwrites_first_frame failing_bus fresh_collaborators
    (probe_default_message zeroed_state) 6 0 channel_zero 0 0 rebuilt_idle_device
    (by decide) (by decide) (by decide) (by decide) (by decide) (by decide) (by decide)

/-- C21 as stated fails for the trigger handler: on the device armed for channels 0 and 2,
whose mode lock is free, one cycle issues its transaction while the lock is not held and
returns with the lock still free, and on the same device with the lock held by another
party it issues the same transaction instead of waiting, where `max78m6610_lmu_read_raw`
waits; the handler does not acquire the lock. -/
theorem C21_counterexample :
    two_channel_device.mlock = false ∧
    (max78m6610_lmu_trigger_handler_logged (answering_bus [1, 2, 0x40, 0, 0, 3, 4, 0x80, 0, 1])
        0 (fun _ => 0) fresh_collaborators two_channel_device []).map
      (fun r => (r.2, transacts_under_lock two_channel_device.mlock r.2))
      = some ([lock_event.transact (two_channel_device.priv.tx_buf.take 10)], false) ∧
    (max78m6610_lmu_trigger_handler (answering_bus [1, 2, 0x40, 0, 0, 3, 4, 0x80, 0, 1]) 0
        (fun _ => 0) fresh_collaborators two_channel_device).map
      (fun r => (r.2.1.mlock, r.2.2.spi_log.length)) = some (false, 1) ∧
    (max78m6610_lmu_trigger_handler (answering_bus [1, 2, 0x40, 0, 0, 3, 4, 0x80, 0, 1]) 0
        (fun _ => 0) fresh_collaborators { two_channel_device with mlock := true }).map
      (fun r => (r.2.1.mlock, r.2.2.spi_log.length)) = some (true, 1) ∧
    max78m6610_lmu_read_raw (answering_bus [1, 2, 0x40, 0, 0]) fresh_collaborators
      { idle_device with mlock := true } channel_zero 0 0 IIO_CHAN_INFO_RAW = none ∧
    ¬ (∀ (bus : spi_bus) (time_now : Int) (junk : Nat → Nat) (env : collaborators)
        (indio_dev : iio_dev) (r : Int × iio_dev × collaborators) (ev : List lock_event),
        max78m6610_lmu_trigger_handler_logged bus time_now junk env indio_dev [] = some (r, ev) →
        transacts_under_lock indio_dev.mlock ev = true) ∧
    ¬ (∀ (bus : spi_bus) (time_now : Int) (junk : Nat → Nat) (env : collaborators)
        (indio_dev : iio_dev), indio_dev.mlock = true →
        max78m6610_lmu_trigger_handler bus time_now junk env indio_dev = none) := by
  have h1 : (max78m6610_lmu_trigger_handler_logged
      (answering_bus [1, 2, 0x40, 0, 0, 3, 4, 0x80, 0, 1])
      0 (fun _ => 0) fresh_collaborators two_channel_device []).map
      (fun r => (r.2, transacts_under_lock two_channel_device.mlock r.2))
      = some ([lock_event.transact (two_channel_device.priv.tx_buf.take 10)], false) := by
    decide
  have h2 : (max78m6610_lmu_trigger_handler (answering_bus [1, 2, 0x40, 0, 0, 3, 4, 0x80, 0, 1])
      0 (fun _ => 0) fresh_collaborators { two_channel_device with mlock := true }).map
      (fun r => (r.2.1.mlock, r.2.2.spi_log.length)) = some (true, 1) := by decide
  refine ⟨rfl, h1, by decide, h2, by decide, ?_, ?_⟩
  · intro h
    cases hh : max78m6610_lmu_trigger_handler_logged
        (answering_bus [1, 2, 0x40, 0, 0, 3, 4, 0x80, 0, 1])
        0 (fun _ => 0) fresh_collaborators two_channel_device [] with
    | none =>
      rw [hh] at h1
      cases h1
    | some q =>
      have hq := h _ _ _ _ _ q.1 q.2 hh
      rw [hh] at h1
      simp only [Option.map_some', Option.some.injEq, Prod.mk.injEq] at h1
      rw [hq] at h1
      cases h1.2
  · intro h
    rw [h _ _ _ _ _ rfl] at h2
    cases h2

/-- C21 (as amended): every transport transaction of `max78m6610_lmu_read_raw` is issued
while the mode lock is held: a call that finds the lock held waits and issues nothing, and a
call that returns has taken the free lock before its transaction and, in a mode other than
Triggered, has released it after `max78m6610_lmu_scan_direct` (transaction and decode), its
calls being `mutex_lock`, one `spi_sync`, `mutex_unlock` in this order; in Triggered mode it
issues no transaction. The trigger handler issues its one transaction without acquiring or
releasing the lock: its calls are that `spi_sync` alone, it does the same whether the lock is
free or held and returns the lock as it found it. -/
theorem C21_direct_read_under_lock (bus : spi_bus) (env : collaborators) (indio_dev : iio_dev)
    (chan : iio_chan_spec) (val val2 : Int) (time_now : Int) (junk : Nat → Nat) :
    (max78m6610_lmu_read_raw_logged bus env indio_dev chan val val2 IIO_CHAN_INFO_RAW []).map
        (fun r => r.1)
      = max78m6610_lmu_read_raw bus env indio_dev chan val val2 IIO_CHAN_INFO_RAW ∧
    (max78m6610_lmu_trigger_handler_logged bus time_now junk env indio_dev []).map
        (fun r => r.1)
      = max78m6610_lmu_trigger_handler bus time_now junk env indio_dev ∧
    (indio_dev.mlock = true →
      max78m6610_lmu_read_raw_logged bus env indio_dev chan val val2 IIO_CHAN_INFO_RAW []
        = none) ∧
    (∀ res ev,
      max78m6610_lmu_read_raw_logged bus env indio_dev chan val val2 IIO_CHAN_INFO_RAW []
        = some (res, ev) →
      indio_dev.mlock = false ∧
      transacts_under_lock indio_dev.mlock ev = true ∧
      (indio_dev.currentmode ≠ INDIO_BUFFER_TRIGGERED →
        ∃ req, ev = [lock_event.acquire, lock_event.transact req, lock_event.release] ∧
          res.env.spi_log = env.spi_log ++ [req] ∧
          lock_after indio_dev.mlock ev = false ∧ res.indio_dev.mlock = false) ∧
      (indio_dev.currentmode = INDIO_BUFFER_TRIGGERED →
        (∀ req, lock_event.transact req ∉ ev) ∧ res.env = env)) ∧
    (state_sized indio_dev.priv → single_message_ready indio_dev.priv →
      indio_dev.mlock = false → indio_dev.currentmode ≠ INDIO_BUFFER_TRIGGERED →
      ∃ res,
        max78m6610_lmu_read_raw_logged bus env indio_dev chan val val2 IIO_CHAN_INFO_RAW []
          = some (res, [lock_event.acquire,
              lock_event.transact (scan_direct_request indio_dev.priv chan.address),
              lock_event.release])) ∧
    (∀ r ev,
      max78m6610_lmu_trigger_handler_logged bus time_now junk env indio_dev [] = some (r, ev) →
      ∃ req, ev = [lock_event.transact req] ∧ r.2.2.spi_log = env.spi_log ++ [req] ∧
        transacts_under_lock indio_dev.mlock ev = indio_dev.mlock ∧
        lock_after indio_dev.mlock ev = indio_dev.mlock ∧
        r.2.1.mlock = indio_dev.mlock) ∧
    (∀ b, max78m6610_lmu_trigger_handler bus time_now junk env { indio_dev with mlock := b }
      = (max78m6610_lmu_trigger_handler bus time_now junk env indio_dev).map
          (fun r => (r.1, { r.2.1 with mlock := b }, r.2.2))) := by
  refine ⟨read_raw_logged_erase bus env indio_dev chan val val2 [], ?_,
    read_raw_logged_blocked bus env indio_dev chan val val2 [], ?_, ?_, ?_,
    trigger_handler_ignores_lock bus time_now junk env indio_dev⟩
  · rw [trigger_handler_logged_eq]
    cases max78m6610_lmu_trigger_handler bus time_now junk env indio_dev <;> rfl
  · intro res ev h
    cases hl : indio_dev.mlock with
    | true =>
      rw [read_raw_logged_blocked bus env indio_dev chan val val2 [] hl] at h
      cases h
    | false =>
      by_cases hm : indio_dev.currentmode = INDIO_BUFFER_TRIGGERED
      · rw [read_raw_logged_busy bus env indio_dev chan val val2 [] hm hl] at h
        cases h
        refine ⟨rfl, rfl, fun hne => absurd hm hne, fun _ => ⟨?_, rfl⟩⟩
        intro req hreq
        simp at hreq
      · rw [read_raw_logged_direct bus env indio_dev chan val val2 [] hm hl] at h
        cases hsd : max78m6610_lmu_scan_direct bus env indio_dev.priv chan.address with
        | none =>
          rw [hsd] at h
          cases h
        | some r =>
          rw [hsd] at h
          obtain ⟨req, hreq⟩ := scan_direct_log bus env _ _ r hsd
          simp only [Option.map_some', hreq, transactions_since_one, List.nil_append,
            List.cons_append, List.singleton_append] at h
          cases h
          exact ⟨rfl, rfl, fun _ => ⟨req, rfl, rfl, rfl, rfl⟩, fun he => absurd he hm⟩
  · intro hs hp hl hm
    obtain ⟨-, hs2, hs3⟩ := hs
    obtain ⟨ret, st2, hscan, -⟩ := scan_direct_effect bus env indio_dev.priv chan.address hp
      hs2 hs3
    rw [read_raw_logged_direct bus env indio_dev chan val val2 [] hm hl, hscan]
    simp only [Option.map_some', transactions_since_one, List.nil_append, List.cons_append,
      List.singleton_append]
    exact ⟨_, rfl⟩
  · intro r ev h
    rw [trigger_handler_logged_eq] at h
    cases hh : max78m6610_lmu_trigger_handler bus time_now junk env indio_dev with
    | none =>
      rw [hh] at h
      cases h
    | some q =>
      rw [hh] at h
      obtain ⟨req, hreq⟩ := trigger_handler_log bus time_now junk env indio_dev q hh
      have hk := trigger_handler_keeps_lock bus time_now junk env indio_dev q hh
      have ht : transactions_since env q.2.2 = [lock_event.transact req] := by
        unfold transactions_since
        rw [hreq]
        simp
      simp only [Option.map_some', ht, List.nil_append] at h
      cases h
      refine ⟨req, rfl, hreq, ?_, rfl, hk⟩
      show (indio_dev.mlock && true) = indio_dev.mlock
      exact Bool.and_true _

/-- C21 (as amended) on the idle device: the raw read of channel 0 takes the free lock,
issues its one transaction and releases the lock, in this order. -/
theorem C21_direct_read_under_lock_witness :
    ∃ res,
      max78m6610_lmu_read_raw_logged (answering_bus [1, 2, 0x40, 0, 0]) fresh_collaborators
          idle_device channel_zero 0 0 IIO_CHAN_INFO_RAW []
        = some (res, [lock_event.acquire,
            lock_event.transact (scan_direct_request idle_device.priv channel_zero.address),
            lock_event.release]) :=
  (C21_direct_read_under_lock (answering_bus [1, 2, 0x40, 0, 0]) fresh_collaborators
    idle_device channel_zero 0 0 0 (fun _ => 0)).2.2.2.2.1 (by decide) (by decide) (by decide)
    (by decide)

end Max78m6610
